import Mathlib

/-!
Verification of the Quartzy adaptive integration client
(`app/services/quartzy_service.py` of Allu_Reception_web).

This file shallowly embeds the parts of the service that the checked
properties talk about: the `safe_int` utility, the TTL cache layer, the
inventory endpoint discovery, the paginated fast fetchers for orders and
inventory, the write orchestrators (`update_inventory_item`,
`update_order_request_status`), the matching engine
(`find_inventory_candidates`), and the `receive_order_basic` workflow.

Python conventions used throughout the embedding:
* Python strings are Lean `String`s; all manipulation is done on `.data`
  (`List Char`) with structural-recursive helpers so that closed theorems
  can be checked by the kernel.  `str.isdigit` is modelled on ASCII digits,
  and `int(...)` on decimal literals with a single optional sign (Python's
  unicode-digit and underscore-grouping acceptance is outside the model).
* Python JSON-ish dynamic values are the inductive `Jv`; the Python value
  `None` is `Jv.null`.
* An HTTP exchange is driven by a `World : Nat -> Req -> HResp` oracle: the
  n-th network request issued by an operation receives the oracle's answer
  at index n, so responses may vary over time, as a real network's do.
  `HResp.exn` is a connection exception raised by `session.get/put/...`;
  a response whose `jsonBody` is `none` is one whose `.json()` raises.
* Python exceptions that the source lets escape are `Except.error`;
  code paths wrapped in `try/except` are total functions.
* `time.time()` is modelled as an integer-valued clock passed explicitly.
* Threaded page fetches (`ThreadPoolExecutor`) are modelled sequentially in
  scheduling order; merge order of successful pages is not semantically
  relevant to any property below, and per-future exception handling is kept
  exactly where the source has it.  Unbounded `while` loops over remote
  pages take a fuel argument.
-/

set_option maxHeartbeats 1600000

namespace Allu

abbrev Chars := List Char

/-- Python whitespace test for `str.strip()` (ASCII whitespace suffices here). -/
def chIsWs (c : Char) : Bool := c.isWhitespace

/-- `str.lstrip()` -/
def lstripWs (l : Chars) : Chars := l.dropWhile chIsWs

/-- `str.rstrip()` -/
def rstripWs (l : Chars) : Chars := (l.reverse.dropWhile chIsWs).reverse

/-- `str.strip()` -/
def stripWs (l : Chars) : Chars := rstripWs (lstripWs l)

/-- `str.replace(",", "")` -/
def dropComma (l : Chars) : Chars := l.filter (fun c => c ≠ ',')

/-- `str.lstrip("-")`: removes every leading minus sign. -/
def lstripMinus (l : Chars) : Chars := l.dropWhile (fun c => c = '-')

/-- `str.isdigit()` (ASCII): non-empty and all digits. -/
def pyIsDigit (l : Chars) : Bool := !l.isEmpty && l.all Char.isDigit

/-- Numeric value of a digit run, most significant first. -/
def chToNat (l : Chars) : Nat := l.foldl (fun a c => 10 * a + (c.toNat - '0'.toNat)) 0

/-- Sign-and-digits parse on an already-stripped char list. -/
def pyIntSigned : Chars → Option Int
  | [] => none
  | c :: rest =>
    if c = '-' then (if pyIsDigit rest then some (-(chToNat rest : Int)) else none)
    else if c = '+' then (if pyIsDigit rest then some ((chToNat rest : Int)) else none)
    else if pyIsDigit (c :: rest) then some ((chToNat (c :: rest) : Int)) else none

/-- Python `int(s)` on a string: strips whitespace, accepts one optional
sign followed by at least one digit; `none` models a raised `ValueError`. -/
def pyIntChars (l : Chars) : Option Int := pyIntSigned (stripWs l)

def pyIntStr (s : String) : Option Int := pyIntChars s.data

/-- Decimal digits of a natural number (fuel-structural so it kernel-reduces). -/
def natCharsAux : Nat → Nat → Chars
  | 0, _ => []
  | fuel + 1, n => if n < 10 then [Nat.digitChar n] else natCharsAux fuel (n / 10) ++ [Nat.digitChar (n % 10)]

def natChars (n : Nat) : Chars := natCharsAux (n + 1) n

/-- Python `str(n)` for an integer. -/
def pyStrOfInt (n : Int) : String :=
  if n < 0 then String.mk ('-' :: natChars n.natAbs) else String.mk (natChars n.natAbs)

/-- `str(x).strip().split(".")[0]`: everything before the first dot. -/
def splitDotHead (l : Chars) : Chars := l.takeWhile (fun c => c ≠ '.')

/-- `int(str(x).strip().split(".")[0])`, the quantity normalisation used all
over the service; `none` models the `ValueError` branch. -/
def normQty (s : String) : Option Int := pyIntChars (splitDotHead (stripWs s.data))

/- ---------- basic lemmas about the char helpers ---------- -/

theorem pyIsDigit_iff {l : Chars} : pyIsDigit l = true ↔ l ≠ [] ∧ ∀ c ∈ l, c.isDigit = true := by
  cases l with
  | nil => simp [pyIsDigit]
  | cons c t => simp [pyIsDigit, List.all_eq_true]

theorem dropWhile_eq_self_of_all {p : Char → Bool} {l : Chars} (h : ∀ c ∈ l, p c = false) :
    l.dropWhile p = l := by
  cases l with
  | nil => rfl
  | cons c t => simp [List.dropWhile, h c (by simp)]

theorem stripWs_eq_self_of_all {l : Chars} (h : ∀ c ∈ l, chIsWs c = false) : stripWs l = l := by
  unfold stripWs lstripWs rstripWs
  rw [dropWhile_eq_self_of_all h, dropWhile_eq_self_of_all, List.reverse_reverse]
  intro c hc
  exact h c (by simpa using hc)

theorem digit_not_ws {c : Char} (h : c.isDigit = true) : chIsWs c = false := by
  by_contra hw
  have hw' : chIsWs c = true := by simpa using hw
  unfold chIsWs Char.isWhitespace at hw'
  simp only [Bool.or_eq_true, decide_eq_true_eq] at hw'
  rcases hw' with ((hc | hc) | hc) | hc <;> rw [hc] at h <;> exact absurd h (by decide)

theorem minus_not_ws : chIsWs '-' = false := by decide

theorem minus_not_digit : ('-').isDigit = false := by decide

theorem chToNat_snoc (l : Chars) (c : Char) :
    chToNat (l ++ [c]) = 10 * chToNat l + (c.toNat - '0'.toNat) := by
  unfold chToNat
  rw [List.foldl_append]
  rfl

theorem natCharsAux_spec : ∀ fuel n, 0 < fuel → n < 10 ^ fuel →
    pyIsDigit (natCharsAux fuel n) = true ∧ chToNat (natCharsAux fuel n) = n := by
  intro fuel
  induction fuel with
  | zero => intro n hf h; omega
  | succ f ih =>
    intro n _ h
    by_cases h10 : n < 10
    · constructor
      · rw [natCharsAux, if_pos h10, pyIsDigit_iff]
        refine ⟨by simp, ?_⟩
        intro c hc
        rw [List.mem_singleton] at hc
        subst hc
        have : ∀ m : Fin 10, (Nat.digitChar m.val).isDigit = true := by decide
        simpa using this ⟨n, h10⟩
      · rw [natCharsAux, if_pos h10]
        show chToNat ([] ++ [Nat.digitChar n]) = n
        rw [chToNat_snoc]
        have hall : ∀ m : Fin 10, (Nat.digitChar m.val).toNat - '0'.toNat = m.val := by decide
        have hv : (Nat.digitChar n).toNat - '0'.toNat = n := by simpa using hall ⟨n, h10⟩
        have hz : chToNat [] = 0 := rfl
        omega
    · have hpow : 10 ^ (f + 1) = 10 * 10 ^ f := by ring
      rw [hpow] at h
      have hdiv : n / 10 < 10 ^ f := by omega
      have hf0 : 0 < f := by
        by_contra hc
        have : f = 0 := by omega
        subst this
        simp at h
        omega
      obtain ⟨hd, hv⟩ := ih (n / 10) hf0 hdiv
      have hmod : n % 10 < 10 := Nat.mod_lt _ (by norm_num)
      have hdm : (Nat.digitChar (n % 10)).isDigit = true := by
        have : ∀ m : Fin 10, (Nat.digitChar m.val).isDigit = true := by decide
        simpa using this ⟨n % 10, hmod⟩
      have hvm : (Nat.digitChar (n % 10)).toNat - '0'.toNat = n % 10 := by
        have : ∀ m : Fin 10, (Nat.digitChar m.val).toNat - '0'.toNat = m.val := by decide
        simpa using this ⟨n % 10, hmod⟩
      rw [pyIsDigit_iff] at hd
      constructor
      · rw [natCharsAux, if_neg h10, pyIsDigit_iff]
        constructor
        · simp
        · intro c hc
          rcases List.mem_append.mp hc with hmem | hmem
          · exact hd.2 c hmem
          · rw [List.mem_singleton] at hmem; subst hmem; exact hdm
      · rw [natCharsAux, if_neg h10, chToNat_snoc, hv, hvm]
        omega

theorem natChars_spec (n : Nat) : pyIsDigit (natChars n) = true ∧ chToNat (natChars n) = n := by
  apply natCharsAux_spec
  · omega
  · calc n < 10 ^ n := Nat.lt_pow_self (by norm_num) n
    _ ≤ 10 ^ (n + 1) := Nat.pow_le_pow_right (by norm_num) (by omega)

theorem all_digit_of_pyIsDigit {l : Chars} (h : pyIsDigit l = true) : ∀ c ∈ l, c.isDigit = true :=
  (pyIsDigit_iff.mp h).2

theorem stripWs_natChars (n : Nat) : stripWs (natChars n) = natChars n := by
  apply stripWs_eq_self_of_all
  intro c hc
  exact digit_not_ws (all_digit_of_pyIsDigit (natChars_spec n).1 c hc)

theorem digit_ne_minus {c : Char} (h : c.isDigit = true) : c ≠ '-' := by
  intro hc; rw [hc] at h; exact absurd h (by decide)

theorem digit_ne_plus {c : Char} (h : c.isDigit = true) : c ≠ '+' := by
  intro hc; rw [hc] at h; exact absurd h (by decide)

theorem digit_ne_dot {c : Char} (h : c.isDigit = true) : c ≠ '.' := by
  intro hc; rw [hc] at h; exact absurd h (by decide)

/-- Round trip: Python `int(str(n))` recovers `n`. -/
theorem pyIntStr_pyStrOfInt (n : Int) : pyIntStr (pyStrOfInt n) = some n := by
  obtain ⟨hd, hv⟩ := natChars_spec n.natAbs
  by_cases hneg : n < 0
  · have hdata : (pyStrOfInt n).data = '-' :: natChars n.natAbs := by
      simp [pyStrOfInt, if_pos hneg]
    rw [pyIntStr, hdata, pyIntChars]
    have hstrip : stripWs ('-' :: natChars n.natAbs) = '-' :: natChars n.natAbs := by
      apply stripWs_eq_self_of_all
      intro c hc
      rcases List.mem_cons.mp hc with h | h
      · rw [h]; exact minus_not_ws
      · exact digit_not_ws (all_digit_of_pyIsDigit hd c h)
    rw [hstrip, pyIntSigned, if_pos rfl, if_pos hd, hv]
    congr 1
    omega
  · have hdata : (pyStrOfInt n).data = natChars n.natAbs := by
      simp [pyStrOfInt, if_neg hneg]
    rw [pyIntStr, hdata, pyIntChars]
    rw [stripWs_natChars]
    cases hcase : natChars n.natAbs with
    | nil => rw [hcase] at hd; exact absurd hd (by simp [pyIsDigit])
    | cons c t =>
      rw [hcase] at hd hv
      have hcd := all_digit_of_pyIsDigit hd c (by simp)
      rw [pyIntSigned, if_neg (digit_ne_minus hcd), if_neg (digit_ne_plus hcd), if_pos hd, hv]
      congr 1
      omega

theorem normQty_pyStrOfInt (n : Int) : normQty (pyStrOfInt n) = some n := by
  obtain ⟨hd, _⟩ := natChars_spec n.natAbs
  have hmem : ∀ c ∈ (pyStrOfInt n).data, c = '-' ∨ c ∈ natChars n.natAbs := by
    intro c hc
    by_cases hneg : n < 0
    · simp only [pyStrOfInt, if_pos hneg] at hc
      exact List.mem_cons.mp hc
    · simp only [pyStrOfInt, if_neg hneg] at hc
      exact Or.inr hc
  have hno : ∀ c ∈ (pyStrOfInt n).data, chIsWs c = false := by
    intro c hc
    rcases hmem c hc with h | h
    · rw [h]; exact minus_not_ws
    · exact digit_not_ws (all_digit_of_pyIsDigit hd c h)
  have hnd : ∀ c ∈ (pyStrOfInt n).data, ¬(c = '.') := by
    intro c hc
    rcases hmem c hc with h | h
    · rw [h]; decide
    · exact digit_ne_dot (all_digit_of_pyIsDigit hd c h)
  unfold normQty
  rw [stripWs_eq_self_of_all hno]
  rw [splitDotHead, List.takeWhile_eq_self_iff.mpr (by intro c hc; simpa using hnd c hc)]
  exact pyIntStr_pyStrOfInt n

/- ---------- Python dynamic values ---------- -/

/-- Python JSON-ish dynamic values; `null` doubles as Python `None`. -/
inductive Jv where
  | null
  | jbool (b : Bool)
  | num (n : Int)
  | str (s : String)
  | arr (l : List Jv)
  | obj (l : List (String × Jv))
deriving Inhabited

/-- Python truthiness of a `Jv`. -/
def Jv.truthy : Jv → Bool
  | .null => false
  | .jbool b => b
  | .num n => n ≠ 0
  | .str s => s ≠ ""
  | .arr l => !l.isEmpty
  | .obj l => !l.isEmpty

def jfind : List (String × Jv) → String → Option Jv
  | [], _ => none
  | (k', v) :: t, k => if k' = k then some v else jfind t k

/-- `d.get(k)` on a dict; `none` on a missing key or a non-dict. -/
def jget : Jv → String → Option Jv
  | .obj l, k => jfind l k
  | _, _ => none

/-- `k in d`. -/
def jhas (o : Jv) (k : String) : Bool := (jget o k).isSome

/-- `d.get(k) or dflt` with Python truthiness. -/
def jgetOr (o : Jv) (k : String) (dflt : Jv) : Jv :=
  match jget o k with
  | some v => if v.truthy then v else dflt
  | none => dflt

/-- Python `str(v)`.  String/number/bool/None are modelled exactly; the
`repr` of containers is abstracted (no embedded code path feeds a container
to `str`). -/
def Jv.pyStr : Jv → String
  | .str s => s
  | .num n => pyStrOfInt n
  | .null => "None"
  | .jbool b => if b then "True" else "False"
  | .arr _ => "<list>"
  | .obj _ => "<dict>"

/- ---------- safe_int (quartzy_service.py lines 14-25) ---------- -/

/-- The runtime values `safe_int` may receive.  Python floats are modelled by
rationals (their finite values); `vother` is any other object, carried by its
`str()` representation. -/
inductive PyVal where
  | vnone
  | vint (n : Int)
  | vbool (b : Bool)
  | vfloat (q : ℚ)
  | vstr (s : String)
  | vother (r : String)

/-- Python `int(x)` on a number: truncation toward zero. -/
def ratTrunc (q : ℚ) : Int := q.num.tdiv (q.den : Int)

/-- Body of `safe_int`'s `try:` block; `none` models an exception escaping to
the `except` handler (e.g. `int("--5")`). -/
def safeIntTry (v : PyVal) (default : Int) : Option Int :=
  match v with
  | .vnone => some default
  | .vint n => some n
  | .vbool b => some (if b then 1 else 0)
  | .vfloat q => some (ratTrunc q)
  | .vstr s =>
    let sC := dropComma (stripWs s.data)
    if pyIsDigit (lstripMinus sC) then pyIntChars sC else some default
  | .vother r =>
    let sC := dropComma (stripWs r.data)
    if pyIsDigit (lstripMinus sC) then pyIntChars sC else some default

/-- `safe_int(v, default)`: the outer `try/except` turns any exception into
`default`. -/
def safe_int (v : PyVal) (default : Int) : Int :=
  (safeIntTry v default).getD default

/-- Spec-side characterisation of the string path: one optional leading minus
sign followed by at least one digit. -/
def decIntChars : Chars → Option Int
  | [] => none
  | c :: rest =>
    if c = '-' then (if pyIsDigit rest then some (-(chToNat rest : Int)) else none)
    else if pyIsDigit (c :: rest) then some ((chToNat (c :: rest) : Int)) else none

theorem strPath_eq_decIntChars (l : Chars) (d : Int) :
    ((if pyIsDigit (lstripMinus l) then pyIntChars l else some d).getD d) = (decIntChars l).getD d := by
  by_cases hguard : pyIsDigit (lstripMinus l) = true
  · rw [if_pos hguard]
    have hne : l ≠ [] := by
      intro h
      rw [h] at hguard
      exact absurd hguard (by simp [lstripMinus, pyIsDigit])
    have hnows : ∀ c ∈ l, chIsWs c = false := by
      intro c hc
      have hsplit := @List.takeWhile_append_dropWhile Char (fun c => decide (c = '-')) l
      rw [← hsplit] at hc
      rcases List.mem_append.mp hc with h | h
      · have := List.mem_takeWhile_imp h
        simp only [decide_eq_true_eq] at this
        rw [this]
        exact minus_not_ws
      · exact digit_not_ws (all_digit_of_pyIsDigit hguard c h)
    cases hl : l with
    | nil => exact absurd hl hne
    | cons c t =>
      rw [hl] at hguard hnows
      by_cases hcm : c = '-'
      · subst hcm
        have hlm : lstripMinus ('-' :: t) = lstripMinus t := by
          simp [lstripMinus, List.dropWhile]
        rw [hlm] at hguard
        by_cases hmt : t.takeWhile (fun c => decide (c = '-')) = []
        · -- single leading minus: `t` is all digits
          have ht : lstripMinus t = t := by
            have hsplit := @List.takeWhile_append_dropWhile Char (fun c => decide (c = '-')) t
            rw [hmt] at hsplit
            simpa [lstripMinus] using hsplit
          rw [ht] at hguard
          rw [pyIntChars, stripWs_eq_self_of_all hnows, pyIntSigned,
            if_pos rfl, if_pos hguard, decIntChars, if_pos rfl, if_pos hguard]
        · -- several leading minus signs: `int` raises, the handler returns default
          have hhd : ∃ t', t = '-' :: t' := by
            cases t with
            | nil => exact absurd rfl hmt
            | cons c' t' =>
              by_cases hc' : c' = '-'
              · exact ⟨t', by rw [hc']⟩
              · rw [List.takeWhile] at hmt
                simp [hc'] at hmt
          obtain ⟨t', ht'⟩ := hhd
          have htnd : pyIsDigit t = false := by
            rw [ht']
            by_contra hcon
            have hall : pyIsDigit ('-' :: t') = true := by simpa using hcon
            have := all_digit_of_pyIsDigit hall '-' (by simp)
            exact absurd this (by decide)
          rw [pyIntChars, stripWs_eq_self_of_all hnows, pyIntSigned,
            if_pos rfl, if_neg (by rw [htnd]; simp), decIntChars, if_pos rfl,
            if_neg (by rw [htnd]; simp)]
      · -- no leading minus: the guard forces `c :: t` to be all digits
        have hlm : lstripMinus (c :: t) = c :: t := by
          simp [lstripMinus, List.dropWhile, hcm]
        rw [hlm] at hguard
        have hcd := all_digit_of_pyIsDigit hguard c (by simp)
        rw [pyIntChars, stripWs_eq_self_of_all hnows, pyIntSigned,
          if_neg (digit_ne_minus hcd), if_neg (digit_ne_plus hcd), if_pos hguard,
          decIntChars, if_neg (digit_ne_minus hcd), if_pos hguard]
  · rw [if_neg hguard]
    have hdec : decIntChars l = none := by
      cases hl : l with
      | nil => rfl
      | cons c t =>
        rw [hl] at hguard
        by_cases hcm : c = '-'
        · subst hcm
          have hlm : lstripMinus ('-' :: t) = lstripMinus t := by
            simp [lstripMinus, List.dropWhile]
          rw [hlm] at hguard
          have htd : pyIsDigit t = false := by
            by_contra hcon
            have htd' : pyIsDigit t = true := by simpa using hcon
            apply hguard
            have : lstripMinus t = t := by
              apply dropWhile_eq_self_of_all
              intro x hx
              simp only [decide_eq_false_iff_not]
              exact digit_ne_minus (all_digit_of_pyIsDigit htd' x hx)
            rw [this]
            exact htd'
          rw [decIntChars, if_pos rfl, if_neg (by rw [htd]; simp)]
        · have hlm : lstripMinus (c :: t) = c :: t := by
            simp [lstripMinus, List.dropWhile, hcm]
          rw [hlm] at hguard
          rw [decIntChars, if_neg hcm, if_neg hguard]
    rw [hdec]
    rfl

/-- **C10.** `safe_int` is total: `None` and unparseable inputs give the
default, numeric inputs truncate via `int()`, strings parse after stripping
surrounding whitespace and commas, with one optional leading minus sign. -/
theorem safe_int_total :
    (∀ d, safe_int .vnone d = d) ∧
    (∀ n d, safe_int (.vint n) d = n) ∧
    (∀ b d, safe_int (.vbool b) d = (if b then 1 else 0)) ∧
    (∀ q d, safe_int (.vfloat q) d = ratTrunc q) ∧
    (∀ s d, safe_int (.vstr s) d = (decIntChars (dropComma (stripWs s.data))).getD d) ∧
    (∀ r d, safe_int (.vother r) d = (decIntChars (dropComma (stripWs r.data))).getD d) := by
  refine ⟨fun d => rfl, fun n d => rfl, fun b d => rfl, fun q d => rfl, ?_, ?_⟩
  · intro s d
    have := strPath_eq_decIntChars (dropComma (stripWs s.data)) d
    simpa [safe_int, safeIntTry] using this
  · intro r d
    have := strPath_eq_decIntChars (dropComma (stripWs r.data)) d
    simpa [safe_int, safeIntTry] using this

/- ---------- Cache layer (quartzy_service.py lines 59, 82-89, 111-132) ---------- -/

/-- One cached entry: the stored data plus its write timestamp
(`{"data": ..., "ts": ...}`). -/
structure CEntry where
  data : Jv
  ts : Int

/-- A slot of `self._caches`: either a plain entry (orders/labs/types and the
ad-hoc string keys) or the sub-keyed table used for `inventory_search`. -/
inductive CSlot where
  | entry (e : CEntry)
  | table (t : List (String × CEntry))

/-- `self._caches`, as an association list over string keys. -/
abbrev Caches := List (String × CSlot)

def alookup {α : Type} : List (String × α) → String → Option α
  | [], _ => none
  | (k', v) :: t, k => if k' = k then some v else alookup t k

/-- Python dict assignment `d[k] = v`. -/
def aset {α : Type} : List (String × α) → String → α → List (String × α)
  | [], k, v => [(k, v)]
  | (k', v') :: t, k, v => if k' = k then (k, v) :: t else (k', v') :: aset t k v

/-- The fresh cache dictionary built in `__init__` and in `clear_caches`. -/
def initCaches : Caches :=
  [("orders", .entry ⟨.null, 0⟩), ("labs", .entry ⟨.null, 0⟩),
   ("types", .entry ⟨.null, 0⟩), ("inventory_search", .table [])]

/-- The main-key path of `_cache_get` (source lines 120-125): a missing or
falsy slot is a miss, a stale entry is a miss, otherwise `e.get("data")`.
When the slot is the `inventory_search` table, `e.get("ts", 0)` is `0` and
`e.get("data")` misses unless a subkey is literally named "data" (both kept
faithful to Python's dict semantics). -/
def cacheGetMain (caches : Caches) (ttl now : Int) (key : String) : Jv :=
  match alookup caches key with
  | none => .null
  | some (.entry e) => if now - e.ts > ttl then .null else e.data
  | some (.table t) =>
    if t.isEmpty then .null
    else if now - 0 > ttl then .null
    else match alookup t "data" with
      | some e => .obj [("data", e.data), ("ts", .num e.ts)]
      | none => .null

/-- `_cache_get(key, subkey)`; `now` is `time.time()` and `ttl` is
`self.cache_ttl`.  A miss is Python `None`, i.e. `Jv.null`. -/
def cacheGet (caches : Caches) (ttl now : Int) (key : String) : Option String → Jv
  | some sk =>
    if key = "inventory_search" then
      match alookup caches key with
      | some (.table t) =>
        (match alookup t sk with
         | some e => if now - e.ts > ttl then .null else e.data
         | none => .null)
      | some (.entry _) => .null
        -- the inventory_search slot holds a table in every reachable state
      | none => .null
    else cacheGetMain caches ttl now key
  | none => cacheGetMain caches ttl now key

/-- `_cache_set(key, data, subkey)` at time `now`. -/
def cacheSet (caches : Caches) (now : Int) (key : String) (v : Jv) : Option String → Caches
  | some sk =>
    if key = "inventory_search" then
      match alookup caches key with
      | some (.table t) => aset caches key (.table (aset t sk ⟨v, now⟩))
      | some (.entry _) => aset caches key (.table (aset [] sk ⟨v, now⟩))
        -- unreachable corner: the inventory_search slot holds a table in
        -- every reachable state (init, clear_caches and every set keep it so)
      | none => aset caches key (.table [(sk, ⟨v, now⟩)])
    else aset caches key (.entry ⟨v, now⟩)
  | none => aset caches key (.entry ⟨v, now⟩)

/-- The discovered orders filter strategy `{order_key, approval_key, case}`. -/
structure FilterStrategy where
  order_key : String
  approval_key : String
  case_style : String

/-- The mutable fields of `QuartzyService` that the claims touch. -/
structure SvcState where
  caches : Caches
  ordersFilterStrategy : Option FilterStrategy
  ordersFilterStrategyChecked : Bool
  debug : List (String × Jv)

/-- `clear_caches`: replaces `self._caches` with the fresh dictionary and
returns `True`; the source deliberately does not touch `self.debug` nor the
discovered strategy fields, and the `except: return False` arm is dead code
(a dict literal assignment cannot raise). -/
def clear_caches (st : SvcState) : Bool × SvcState :=
  (true, { st with caches := initCaches })

theorem alookup_aset {α : Type} (l : List (String × α)) (k : String) (v : α) :
    alookup (aset l k v) k = some v := by
  induction l with
  | nil => simp [aset, alookup]
  | cons hd t ih =>
    obtain ⟨k', v'⟩ := hd
    by_cases h : k' = k
    · simp [aset, h, alookup]
    · simp [aset, h, alookup, ih]

theorem cacheGetMain_init (ttl now : Int) (key : String) :
    cacheGetMain initCaches ttl now key = .null := by
  unfold cacheGetMain initCaches
  by_cases h1 : "orders" = key
  · simp [alookup, h1, ite_self]
  · by_cases h2 : "labs" = key
    · simp [alookup, h1, h2, ite_self]
    · by_cases h3 : "types" = key
      · simp [alookup, h1, h2, h3, ite_self]
      · by_cases h4 : "inventory_search" = key
        · simp [alookup, h1, h2, h3, h4]
        · simp [alookup, h1, h2, h3, h4]

theorem cacheGet_init (ttl now : Int) (key : String) (subkey : Option String) :
    cacheGet initCaches ttl now key subkey = .null := by
  cases subkey with
  | none => exact cacheGetMain_init ttl now key
  | some sk =>
    by_cases h : key = "inventory_search"
    · subst h
      simp [cacheGet, initCaches, alookup]
    · simp only [cacheGet]
      rw [if_neg h]
      exact cacheGetMain_init ttl now key

/-- **C9.** `clear_caches` empties every in-memory cache (any read on any key
or subkey misses afterwards) while leaving the discovered filter-strategy
binding, its checked flag, and the debug diagnostics unchanged. -/
theorem clear_caches_frame (st : SvcState) :
    (clear_caches st).1 = true ∧
    (clear_caches st).2.caches = initCaches ∧
    (clear_caches st).2.ordersFilterStrategy = st.ordersFilterStrategy ∧
    (clear_caches st).2.ordersFilterStrategyChecked = st.ordersFilterStrategyChecked ∧
    (clear_caches st).2.debug = st.debug ∧
    ∀ ttl now key subkey, cacheGet (clear_caches st).2.caches ttl now key subkey = .null :=
  ⟨rfl, rfl, rfl, rfl, rfl, fun ttl now key subkey => cacheGet_init ttl now key subkey⟩

/-- Sanity check for the reachable-state assumption used by the TTL theorem:
the `inventory_search` slot holds a table. -/
def invSlotTable (caches : Caches) : Bool :=
  match alookup caches "inventory_search" with
  | some (.entry _) => false
  | _ => true

/-- **C5.** A value written at time `T` with `ttl > 0` is served at every
read time `t ≤ T + ttl` and misses (Python `None`) at every `t > T + ttl`;
in particular it is served at `T + ttl - 1` and missed at `T + ttl + 1`. -/
theorem cache_ttl_correct (caches : Caches) (ttl T : Int) (key : String)
    (subkey : Option String) (v : Jv) (hwf : invSlotTable caches = true) :
    ∀ t : Int,
      (t ≤ T + ttl → cacheGet (cacheSet caches T key v subkey) ttl t key subkey = v) ∧
      (T + ttl < t → cacheGet (cacheSet caches T key v subkey) ttl t key subkey = .null) := by
  intro t
  have hmain : cacheGetMain (aset caches key (CSlot.entry ⟨v, T⟩)) ttl t key =
      (if t - T > ttl then .null else v) := by
    unfold cacheGetMain
    rw [alookup_aset]
  cases subkey with
  | none =>
    constructor
    · intro hle
      simp only [cacheGet, cacheSet]
      rw [hmain, if_neg (by omega)]
    · intro hgt
      simp only [cacheGet, cacheSet]
      rw [hmain, if_pos (by omega)]
  | some sk =>
    by_cases hk : key = "inventory_search"
    · subst hk
      unfold invSlotTable at hwf
      cases halo : alookup caches "inventory_search" with
      | none =>
        have hget : cacheGet (cacheSet caches T "inventory_search" v (some sk)) ttl t
            "inventory_search" (some sk) =
            (if t - T > ttl then .null else v) := by
          simp only [cacheSet, if_true]
          rw [halo]
          simp only [cacheGet, if_true, alookup_aset]
          simp [alookup]
        constructor
        · intro hle; rw [hget, if_neg (by omega)]
        · intro hgt; rw [hget, if_pos (by omega)]
      | some slot =>
        cases slot with
        | entry e => rw [halo] at hwf; simp at hwf
        | table tb =>
          have hget : cacheGet (cacheSet caches T "inventory_search" v (some sk)) ttl t
              "inventory_search" (some sk) =
              (if t - T > ttl then .null else v) := by
            simp only [cacheSet, if_true]
            rw [halo]
            simp only [cacheGet, if_true, alookup_aset]
          constructor
          · intro hle; rw [hget, if_neg (by omega)]
          · intro hgt; rw [hget, if_pos (by omega)]
    · constructor
      · intro hle
        simp only [cacheGet, cacheSet]
        rw [if_neg hk, if_neg hk, hmain, if_neg (by omega)]
      · intro hgt
        simp only [cacheGet, cacheSet]
        rw [if_neg hk, if_neg hk, hmain, if_pos (by omega)]

/-- Witness for C5 at a concrete instant: ttl 120, write at T = 1000, the
entry is served at 1119 = T + ttl - 1 and missed at 1121 = T + ttl + 1. -/
theorem cache_ttl_correct_witness :
    cacheGet (cacheSet initCaches 1000 "orders" (.num 7) none) 120 1119 "orders" none = .num 7 ∧
    cacheGet (cacheSet initCaches 1000 "orders" (.num 7) none) 120 1121 "orders" none = .null := by
  have h := cache_ttl_correct initCaches 120 1000 "orders" none (.num 7) rfl
  exact ⟨(h 1119).1 (by omega), (h 1121).2 (by omega)⟩


/- ---------- HTTP world model ---------- -/

/-- An HTTP request issued by the service through `self.session`. -/
structure Req where
  method : String
  url : String
  params : List (String × Jv)
  headers : List (String × String)
  body : Option Jv

/-- A transport outcome: either the call raised a connection exception, or a
response arrived.  A response whose `jsonBody` is `none` is one whose
`.json()` raises. -/
inductive HResp where
  | exn (msg : String)
  | resp (status : Int) (jsonBody : Option Jv) (text : String) (headers : List (String × String))

/-- `requests.Response.ok`: status strictly below 400. -/
def okStatus (status : Int) : Bool := status < 400

/-- The network oracle: the n-th request issued receives the answer at
index n, so responses may vary over time as a real network's do. -/
abbrev World := Nat → Req → HResp

/-- Service configuration (the immutable fields read by the embedded code). -/
structure Cfg where
  base_url : String
  api_token : String
  lab_id : String
  enabled : Bool
  auth_mode : String
  auth_fallback : Bool
  cache_ttl : Int
  orders_per_page : Nat
  max_workers : Nat
  inventory_per_page : Option Nat
  inventory_max_workers : Option Nat
  allow_api_inventory_create : Bool

/-- `_headers(mode)`: accept headers plus the auth header for the mode. -/
def svcHeaders (cfg : Cfg) (mode : Option String) : List (String × String) :=
  let m := match mode with
    | some m => m
    | none => if cfg.auth_mode = "bearer" then "bearer" else "access-token"
  let base := [("Accept", "application/json"), ("Accept-Encoding", "gzip")]
  if cfg.api_token ≠ "" then
    if m = "bearer" then base ++ [("Authorization", "Bearer " ++ cfg.api_token)]
    else base ++ [("Access-Token", cfg.api_token)]
  else base

def lowerStr (s : String) : String := String.mk (s.data.map Char.toLower)

/-- Case-insensitive header lookup (requests uses a case-insensitive dict). -/
def hdrGet : List (String × String) → String → Option String
  | [], _ => none
  | (k', v) :: t, k => if lowerStr k' = lowerStr k then some v else hdrGet t k

/-- `a or b` on optional header strings with Python truthiness. -/
def orStr (a b : Option String) : Option String :=
  match a with
  | some s => if s ≠ "" then some s else b
  | none => b

def chStartsWith : Chars → Chars → Bool
  | _, [] => true
  | [], _ :: _ => false
  | c :: t, n :: m => c = n && chStartsWith t m

def chHasSub : Chars → Chars → Bool
  | [], needle => needle.isEmpty
  | c :: t, needle => chStartsWith (c :: t) needle || chHasSub t needle

/-- Python `needle in hay` on strings. -/
def strContainsSub (hay needle : String) : Bool := chHasSub hay.data needle.data

/-- `self.base_url.rstrip('/')`. -/
def rstripSlash (s : String) : String := String.mk ((s.data.reverse.dropWhile (fun c => c = '/')).reverse)

/-- `lab_id or self.lab_id`, with `none` when both are falsy. -/
def labOr (cfg : Cfg) (lab : Option String) : Option String :=
  match lab with
  | some s => if s ≠ "" then some s else (if cfg.lab_id ≠ "" then some cfg.lab_id else none)
  | none => if cfg.lab_id ≠ "" then some cfg.lab_id else none

/- ---------- Inventory endpoint discovery (lines 427-499) ---------- -/

/-- `_parse_inventory_payload`: a list is returned as is; a dict is searched
for the first known wrapper key holding a list; anything else (including
Python `None`) gives the empty list. -/
def firstListVal (o : Jv) : List String → Option (List Jv)
  | [] => none
  | k :: ks =>
    match jget o k with
    | some (.arr l) => some l
    | _ => firstListVal o ks

def parseInventoryPayload : Option Jv → List Jv
  | some (.arr l) => l
  | some (.obj fields) =>
    (match firstListVal (.obj fields) ["inventory_items", "inventoryItems", "items", "data", "results"] with
     | some l => l
     | none => [])
  | _ => []

/-- `_candidate_inventory_endpoints`: the fixed priority-ordered candidate
list, `(url, with_lab_id_param)`. -/
def candidateInventoryEndpoints (cfg : Cfg) (lab_id : Option String) : List (String × Bool) :=
  let base := rstripSlash cfg.base_url
  let l2 := match labOr cfg lab_id with
    | some lid => [(base ++ "/labs/" ++ lid ++ "/inventory-items", false),
                   (base ++ "/api/v2/labs/" ++ lid ++ "/inventory-items", false)]
    | none => []
  let l4 := match labOr cfg lab_id with
    | some lid => [(base ++ "/labs/" ++ lid ++ "/inventory_items", false)]
    | none => []
  [(base ++ "/inventory-items", true), (base ++ "/api/v2/inventory-items", true)] ++ l2 ++
    [(base ++ "/inventory_items", true)] ++ l4

/-- Query parameters for an inventory page request. -/
def invPageParams (cfg : Cfg) (lab_id : Option String) (withLab : Bool) (page per_page : Nat) : List (String × Jv) :=
  let base := [("page", Jv.num page), ("per_page", Jv.num per_page), ("limit", Jv.num per_page)]
  if withLab then
    match labOr cfg lab_id with
    | some lid => base ++ [("lab_id", .str lid)]
    | none => base
  else base

/-- The probe request for one discovery candidate (page 1). -/
def probeReqOf (cfg : Cfg) (lab_id : Option String) (per_page : Nat) (c : String × Bool) : Req :=
  ⟨"GET", c.1, invPageParams cfg lab_id c.2 1 per_page, svcHeaders cfg none, none⟩

/-- One record of the discovery attempt list (a normal response carries
status/ok, a raised request carries the exception text). -/
structure ProbeAttempt where
  endpoint : String
  with_lab_id : Bool
  status : Option Int
  ok : Option Bool
  exnMsg : Option String
  params : List (String × Jv)

/-- Result of `_choose_inventory_endpoint` plus ghost instrumentation:
`log` lists the network requests actually issued, in order. -/
structure ChooseOut where
  ep : Option (String × Bool)
  items : List Jv
  status : Option Int
  respHeaders : Option (List (String × String))
  attempts : List ProbeAttempt
  log : List Req

/-- The candidate loop of `_choose_inventory_endpoint`.  A 404 or a
"no such operation" body advances; a connection exception or a raising
`.json()` is recorded as an attempt and advances; any other response is
accepted (for a non-ok status `data` is `None`, and a dict without a known
list key parses to `[]` — both still count as "parsed", since the source
checks `items is not None` on a function that always returns a list). -/
def chooseGo (w : World) (cfg : Cfg) (lab_id : Option String) (per_page : Nat) :
    Nat → List (String × Bool) → List ProbeAttempt → List Req → ChooseOut
  | _, [], attempts, log =>
    { ep := none, items := [], status := none, respHeaders := none, attempts := attempts, log := log }
  | n, c :: rest, attempts, log =>
    let req := probeReqOf cfg lab_id per_page c
    match w n req with
    | .exn msg =>
      chooseGo w cfg lab_id per_page (n + 1) rest
        (attempts ++ [⟨c.1, c.2, none, none, some msg, req.params⟩]) (log ++ [req])
    | .resp status body text hdrs =>
      let att := attempts ++ [⟨c.1, c.2, some status, some (okStatus status), none, req.params⟩]
      if status = 404 || strContainsSub (lowerStr text) "no such operation" then
        chooseGo w cfg lab_id per_page (n + 1) rest att (log ++ [req])
      else if okStatus status then
        match body with
        | none =>
          -- resp.json() raised: the except arm appends an exception attempt and continues
          chooseGo w cfg lab_id per_page (n + 1) rest
            (att ++ [⟨c.1, c.2, none, none, some "json decode error", req.params⟩]) (log ++ [req])
        | some data =>
          { ep := some c, items := parseInventoryPayload (some data), status := some status,
            respHeaders := some hdrs, attempts := att, log := log ++ [req] }
      else
        { ep := some c, items := parseInventoryPayload none, status := some status,
          respHeaders := some hdrs, attempts := att, log := log ++ [req] }

def probeAttemptJv (a : ProbeAttempt) : Jv :=
  .obj ([("endpoint", .str a.endpoint), ("with_lab_id", .jbool a.with_lab_id)] ++
    (match a.status with | some s => [("status", .num s)] | none => []) ++
    (match a.ok with | some b => [("ok", .jbool b)] | none => []) ++
    (match a.exnMsg with | some m => [("exception", .str m)] | none => []) ++
    [("params", .obj a.params)])

/-- `_choose_inventory_endpoint`: runs the candidate loop starting at request
index `n`, then records the outcome in the write-only debug diagnostics.
Note that nothing here consults any previously stored binding: every call
performs the probe sequence afresh. -/
def chooseInventoryEndpoint (w : World) (cfg : Cfg) (lab_id : Option String) (per_page : Nat)
    (n : Nat) (st : SvcState) : ChooseOut × SvcState :=
  let out := chooseGo w cfg lab_id per_page n (candidateInventoryEndpoints cfg lab_id) [] []
  let dbg :=
    match out.ep with
    | some c =>
      aset (aset st.debug "inventory_endpoint_selected"
        (.obj [("endpoint", .str c.1), ("with_lab_id", .jbool c.2)]))
        "inventory_endpoint_probe_attempts" (.arr (out.attempts.map probeAttemptJv))
    | none =>
      aset (aset st.debug "inventory_endpoint_probe_attempts"
        (.arr (out.attempts.map probeAttemptJv))) "inventory_endpoint_selected" .null
  (out, { st with debug := dbg })

/-- The advance condition of discovery: exception, 404, "no such operation",
or an ok response whose body fails to JSON-decode. -/
def advanceResp : HResp → Bool
  | .exn _ => true
  | .resp status body text _ =>
    status = 404 || strContainsSub (lowerStr text) "no such operation" ||
      (okStatus status && body.isNone)

/-- The items the source extracts from an accepted probe response. -/
def acceptedItems : HResp → List Jv
  | .exn _ => []
  | .resp status body _ _ =>
    if okStatus status then
      match body with
      | some data => parseInventoryPayload (some data)
      | none => []
    else parseInventoryPayload none

theorem chooseGo_log_ext (w : World) (cfg : Cfg) (lab_id : Option String) (per_page : Nat) :
    ∀ cs n a log, ∃ t, (chooseGo w cfg lab_id per_page n cs a log).log = log ++ t := by
  intro cs
  induction cs with
  | nil => intro n a log; exact ⟨[], by simp [chooseGo]⟩
  | cons c rest ih =>
    intro n a log
    cases hw : w n (probeReqOf cfg lab_id per_page c) with
    | exn msg =>
      simp only [chooseGo, hw]
      obtain ⟨t, ht⟩ := ih (n + 1) (a ++ [⟨c.1, c.2, none, none, some msg, (probeReqOf cfg lab_id per_page c).params⟩]) (log ++ [probeReqOf cfg lab_id per_page c])
      exact ⟨probeReqOf cfg lab_id per_page c :: t, by rw [ht]; simp⟩
    | resp status body text hdrs =>
      simp only [chooseGo, hw]
      by_cases h404 : (decide (status = 404) || strContainsSub (lowerStr text) "no such operation") = true
      · rw [if_pos h404]
        obtain ⟨t, ht⟩ := ih (n + 1) _ (log ++ [probeReqOf cfg lab_id per_page c])
        exact ⟨probeReqOf cfg lab_id per_page c :: t, by rw [ht]; simp⟩
      · rw [if_neg h404]
        by_cases hok : okStatus status = true
        · rw [if_pos hok]
          cases body with
          | none =>
            obtain ⟨t, ht⟩ := ih (n + 1) _ (log ++ [probeReqOf cfg lab_id per_page c])
            exact ⟨probeReqOf cfg lab_id per_page c :: t, by rw [ht]; simp⟩
          | some data => exact ⟨[probeReqOf cfg lab_id per_page c], by simp⟩
        · rw [if_neg hok]
          exact ⟨[probeReqOf cfg lab_id per_page c], by simp⟩

theorem chooseGo_log_cons (w : World) (cfg : Cfg) (lab_id : Option String) (per_page : Nat)
    (c : String × Bool) (rest : List (String × Bool)) (n : Nat) (a : List ProbeAttempt) (log : List Req) :
    ∃ t, (chooseGo w cfg lab_id per_page n (c :: rest) a log).log =
      log ++ probeReqOf cfg lab_id per_page c :: t := by
  cases hw : w n (probeReqOf cfg lab_id per_page c) with
  | exn msg =>
    simp only [chooseGo, hw]
    obtain ⟨t, ht⟩ := chooseGo_log_ext w cfg lab_id per_page rest (n + 1) _ (log ++ [probeReqOf cfg lab_id per_page c])
    exact ⟨t, by rw [ht]; simp⟩
  | resp status body text hdrs =>
    simp only [chooseGo, hw]
    by_cases h404 : (decide (status = 404) || strContainsSub (lowerStr text) "no such operation") = true
    · rw [if_pos h404]
      obtain ⟨t, ht⟩ := chooseGo_log_ext w cfg lab_id per_page rest (n + 1) _ (log ++ [probeReqOf cfg lab_id per_page c])
      exact ⟨t, by rw [ht]; simp⟩
    · rw [if_neg h404]
      by_cases hok : okStatus status = true
      · rw [if_pos hok]
        cases body with
        | none =>
          obtain ⟨t, ht⟩ := chooseGo_log_ext w cfg lab_id per_page rest (n + 1) _ (log ++ [probeReqOf cfg lab_id per_page c])
          exact ⟨t, by rw [ht]; simp⟩
        | some data => exact ⟨[], by simp⟩
      · rw [if_neg hok]
        exact ⟨[], by simp⟩

theorem advance_of_exn (msg : String) : advanceResp (.exn msg) = true := rfl

theorem chooseGo_none_iff (w : World) (cfg : Cfg) (lab_id : Option String) (per_page : Nat) :
    ∀ cs n a log,
      (chooseGo w cfg lab_id per_page n cs a log).ep = none ↔
      ∀ i (h : i < cs.length),
        advanceResp (w (n + i) (probeReqOf cfg lab_id per_page (cs.get ⟨i, h⟩))) = true := by
  intro cs
  induction cs with
  | nil =>
    intro n a log
    constructor
    · intro _ i h
      exact absurd h (by simp)
    · intro _
      rfl
  | cons c rest ih =>
    intro n a log
    -- the two directions of the shifted quantifier, shared by the advance branches
    have hshift : ∀ (hadv : advanceResp (w n (probeReqOf cfg lab_id per_page c)) = true),
        ((∀ i (h : i < rest.length),
          advanceResp (w (n + 1 + i) (probeReqOf cfg lab_id per_page (rest.get ⟨i, h⟩))) = true) ↔
        (∀ i (h : i < (c :: rest).length),
          advanceResp (w (n + i) (probeReqOf cfg lab_id per_page ((c :: rest).get ⟨i, h⟩))) = true)) := by
      intro hadv
      constructor
      · intro hall i h
        cases i with
        | zero =>
          have h0 : advanceResp (w (n + 0) (probeReqOf cfg lab_id per_page ((c :: rest).get ⟨0, h⟩))) = true := hadv
          exact h0
        | succ i' =>
          have h' : i' < rest.length := by simpa using h
          have := hall i' h'
          have heq : n + 1 + i' = n + (i' + 1) := by omega
          rw [heq] at this
          exact this
      · intro hall i h
        have := hall (i + 1) (by simpa using h)
        have heq : n + (i + 1) = n + 1 + i := by omega
        rw [heq] at this
        exact this
    cases hw : w n (probeReqOf cfg lab_id per_page c) with
    | exn msg =>
      simp only [chooseGo, hw]
      rw [ih (n + 1)]
      exact hshift (by rw [hw]; rfl)
    | resp status body text hdrs =>
      simp only [chooseGo, hw]
      by_cases h404 : (decide (status = 404) || strContainsSub (lowerStr text) "no such operation") = true
      · rw [if_pos h404, ih (n + 1)]
        apply hshift
        rw [hw]
        simp only [advanceResp]
        rw [h404]
        rfl
      · obtain ⟨hne, hcf⟩ : ¬status = 404 ∧ strContainsSub (lowerStr text) "no such operation" = false := by
          simpa using h404
        rw [if_neg h404]
        by_cases hok : okStatus status = true
        · rw [if_pos hok]
          cases body with
          | none =>
            rw [ih (n + 1)]
            apply hshift
            rw [hw]
            simp [advanceResp, hok, hne, hcf]
          | some data =>
            have hadvf : advanceResp (HResp.resp status (some data) text hdrs) = false := by
              simp [advanceResp, hne, hcf]
            constructor
            · intro hcon
              exact absurd hcon (by simp)
            · intro hall
              have h0 : advanceResp (w n (probeReqOf cfg lab_id per_page c)) = true :=
                hall 0 (by simp)
              rw [hw, hadvf] at h0
              exact absurd h0 (by decide)
        · rw [if_neg hok]
          have hadvf : advanceResp (HResp.resp status body text hdrs) = false := by
            simp [advanceResp, hne, hcf, hok]
          constructor
          · intro hcon
            exact absurd hcon (by simp)
          · intro hall
            have h0 : advanceResp (w n (probeReqOf cfg lab_id per_page c)) = true :=
              hall 0 (by simp)
            rw [hw, hadvf] at h0
            exact absurd h0 (by decide)

theorem chooseGo_first_accept (w : World) (cfg : Cfg) (lab_id : Option String) (per_page : Nat) :
    ∀ cs n a log i (h : i < cs.length),
      (∀ j (hj : j < cs.length), j < i →
        advanceResp (w (n + j) (probeReqOf cfg lab_id per_page (cs.get ⟨j, hj⟩))) = true) →
      advanceResp (w (n + i) (probeReqOf cfg lab_id per_page (cs.get ⟨i, h⟩))) = false →
      (chooseGo w cfg lab_id per_page n cs a log).ep = some (cs.get ⟨i, h⟩) ∧
      (chooseGo w cfg lab_id per_page n cs a log).items =
        acceptedItems (w (n + i) (probeReqOf cfg lab_id per_page (cs.get ⟨i, h⟩))) := by
  intro cs
  induction cs with
  | nil =>
    intro n a log i h
    exact absurd h (by simp)
  | cons c rest ih =>
    intro n a log i h hprev hacc
    cases i with
    | zero =>
      have hacc' : advanceResp (w n (probeReqOf cfg lab_id per_page c)) = false := hacc
      cases hw : w n (probeReqOf cfg lab_id per_page c) with
      | exn msg =>
        rw [hw] at hacc'
        exact absurd hacc' (by simp [advanceResp])
      | resp status body text hdrs =>
        rw [hw] at hacc'
        obtain ⟨⟨hne, hcf⟩, hlast⟩ :
            (¬status = 404 ∧ strContainsSub (lowerStr text) "no such operation" = false) ∧
              (okStatus status && body.isNone) = false := by
          simpa [advanceResp] using hacc'
        have h404 : (decide (status = 404) || strContainsSub (lowerStr text) "no such operation") = false := by
          simp [hne, hcf]
        simp only [chooseGo, hw]
        rw [if_neg (by rw [h404]; simp)]
        by_cases hok : okStatus status = true
        · rw [if_pos hok]
          cases body with
          | none =>
            rw [hok] at hlast
            exact absurd hlast (by simp [Option.isNone])
          | some data =>
            constructor
            · rfl
            · show parseInventoryPayload (some data) =
                acceptedItems (w (n + 0) (probeReqOf cfg lab_id per_page c))
              rw [show n + 0 = n from rfl, hw]
              simp [acceptedItems, hok]
        · rw [if_neg hok]
          constructor
          · rfl
          · show parseInventoryPayload none =
              acceptedItems (w (n + 0) (probeReqOf cfg lab_id per_page c))
            rw [show n + 0 = n from rfl, hw]
            simp [acceptedItems, hok]
    | succ i' =>
      have h' : i' < rest.length := by simpa using h
      have hadv0 : advanceResp (w n (probeReqOf cfg lab_id per_page c)) = true :=
        hprev 0 (by simp) (by omega)
      have hprev' : ∀ j (hj : j < rest.length), j < i' →
          advanceResp (w (n + 1 + j) (probeReqOf cfg lab_id per_page (rest.get ⟨j, hj⟩))) = true := by
        intro j hj hlt
        have := hprev (j + 1) (by simpa using hj) (by omega)
        have heq : n + (j + 1) = n + 1 + j := by omega
        rw [heq] at this
        exact this
      have hacc' : advanceResp (w (n + 1 + i') (probeReqOf cfg lab_id per_page (rest.get ⟨i', h'⟩))) = false := by
        have := hacc
        have heq : n + (i' + 1) = n + 1 + i' := by omega
        rw [heq] at this
        exact this
      have hgoal := ih (n + 1) (by exact a) log i' h' hprev' hacc'
      -- the goal's indices realign with the recursive call's
      have heq : n + (i' + 1) = n + 1 + i' := by omega
      rw [heq]
      cases hw : w n (probeReqOf cfg lab_id per_page c) with
      | exn msg =>
        simp only [chooseGo, hw]
        exact ih (n + 1) _ _ i' h' hprev' hacc'
      | resp status body text hdrs =>
        rw [hw] at hadv0
        simp only [chooseGo, hw]
        by_cases h404 : (decide (status = 404) || strContainsSub (lowerStr text) "no such operation") = true
        · rw [if_pos h404]
          exact ih (n + 1) _ _ i' h' hprev' hacc'
        · obtain ⟨hne, hcf⟩ : ¬status = 404 ∧ strContainsSub (lowerStr text) "no such operation" = false := by
            simpa using h404
          have hrest : (okStatus status && body.isNone) = true := by
            have : advanceResp (HResp.resp status body text hdrs) =
                (decide (status = 404) || strContainsSub (lowerStr text) "no such operation" ||
                  (okStatus status && body.isNone)) := rfl
            rw [this] at hadv0
            rcases Bool.or_eq_true_iff.mp hadv0 with hl | hr
            · rw [hl] at h404
              exact absurd rfl h404
            · exact hr
          rw [Bool.and_eq_true] at hrest
          rw [if_neg h404, if_pos hrest.1]
          cases body with
          | some data => exact absurd hrest.2 (by simp [Option.isNone])
          | none => exact ih (n + 1) _ _ i' h' hprev' hacc'

theorem chooseGo_attempts_len (w : World) (cfg : Cfg) (lab_id : Option String) (per_page : Nat) :
    ∀ cs n a log, (chooseGo w cfg lab_id per_page n cs a log).ep = none →
      a.length + cs.length ≤ (chooseGo w cfg lab_id per_page n cs a log).attempts.length := by
  intro cs
  induction cs with
  | nil =>
    intro n a log _
    simp [chooseGo]
  | cons c rest ih =>
    intro n a log hnone
    cases hw : w n (probeReqOf cfg lab_id per_page c) with
    | exn msg =>
      simp only [chooseGo, hw] at hnone ⊢
      have := ih (n + 1) _ (log ++ [probeReqOf cfg lab_id per_page c]) hnone
      simp only [List.length_append, List.length_cons] at this ⊢
      omega
    | resp status body text hdrs =>
      simp only [chooseGo, hw] at hnone ⊢
      by_cases h404 : (decide (status = 404) || strContainsSub (lowerStr text) "no such operation") = true
      · rw [if_pos h404] at hnone ⊢
        have := ih (n + 1) _ (log ++ [probeReqOf cfg lab_id per_page c]) hnone
        simp only [List.length_append, List.length_cons] at this ⊢
        omega
      · rw [if_neg h404] at hnone ⊢
        by_cases hok : okStatus status = true
        · rw [if_pos hok] at hnone ⊢
          cases body with
          | none =>
            have := ih (n + 1) _ (log ++ [probeReqOf cfg lab_id per_page c]) hnone
            simp only [List.length_append, List.length_cons] at this ⊢
            omega
          | some data => exact absurd hnone (by simp)
        · rw [if_neg hok] at hnone ⊢
          exact absurd hnone (by simp)

/-- Initial mutable state of the service (fresh caches, no strategy, empty
debug dictionary). -/
def initState : SvcState := ⟨initCaches, none, false, []⟩

/-- A concrete configuration used by closed counterexamples: default base
URL, a token, no lab scope. -/
def testCfg : Cfg :=
  ⟨"https://api.quartzy.com", "tok", "", true, "auto", false, 120, 100, 8, none, none, false⟩

/-- **C3 (amended).** In inventory endpoint discovery, a 404 (or a
"no such operation" body), a network exception, or an ok response whose body
fails to JSON-decode advances to the next candidate (exceptions are recorded
as attempts); the first candidate whose response does none of these is
accepted — including a non-list JSON body (accepted with an empty item list)
and a non-404 error status (accepted with `data = None`).  If every
candidate advances, the call returns a not-found result (`ep = none`) whose
attempt list covers every candidate, and it never raises (the embedding is a
total function). -/
theorem inventory_discovery_probe_spec (w : World) (cfg : Cfg) (lab_id : Option String)
    (per_page n : Nat) (st : SvcState) :
    ((chooseInventoryEndpoint w cfg lab_id per_page n st).1.ep = none ↔
      ∀ i (h : i < (candidateInventoryEndpoints cfg lab_id).length),
        advanceResp (w (n + i) (probeReqOf cfg lab_id per_page
          ((candidateInventoryEndpoints cfg lab_id).get ⟨i, h⟩))) = true) ∧
    ((chooseInventoryEndpoint w cfg lab_id per_page n st).1.ep = none →
      (candidateInventoryEndpoints cfg lab_id).length ≤
        (chooseInventoryEndpoint w cfg lab_id per_page n st).1.attempts.length) ∧
    (∀ i (h : i < (candidateInventoryEndpoints cfg lab_id).length),
      (∀ j (hj : j < (candidateInventoryEndpoints cfg lab_id).length), j < i →
        advanceResp (w (n + j) (probeReqOf cfg lab_id per_page
          ((candidateInventoryEndpoints cfg lab_id).get ⟨j, hj⟩))) = true) →
      advanceResp (w (n + i) (probeReqOf cfg lab_id per_page
        ((candidateInventoryEndpoints cfg lab_id).get ⟨i, h⟩))) = false →
      (chooseInventoryEndpoint w cfg lab_id per_page n st).1.ep =
        some ((candidateInventoryEndpoints cfg lab_id).get ⟨i, h⟩) ∧
      (chooseInventoryEndpoint w cfg lab_id per_page n st).1.items =
        acceptedItems (w (n + i) (probeReqOf cfg lab_id per_page
          ((candidateInventoryEndpoints cfg lab_id).get ⟨i, h⟩)))) := by
  refine ⟨?_, ?_, ?_⟩
  · exact chooseGo_none_iff w cfg lab_id per_page (candidateInventoryEndpoints cfg lab_id) n [] []
  · intro hnone
    have := chooseGo_attempts_len w cfg lab_id per_page (candidateInventoryEndpoints cfg lab_id) n [] [] hnone
    simpa using this
  · intro i h hprev hacc
    exact chooseGo_first_accept w cfg lab_id per_page (candidateInventoryEndpoints cfg lab_id) n [] [] i h hprev hacc

/-- Witness for C3 at concrete worlds: against an all-404 server with a lab
scope the discovery returns not-found with at least 6 attempts (one per
candidate); against a server whose first candidate returns an ok JSON list,
candidate 1 is selected with its items. -/
theorem inventory_discovery_probe_spec_witness :
    ((chooseInventoryEndpoint (fun _ _ => .resp 404 none "" []) testCfg (some "lab1") 50 0 initState).1.ep = none) ∧
    (6 ≤ (chooseInventoryEndpoint (fun _ _ => .resp 404 none "" []) testCfg (some "lab1") 50 0 initState).1.attempts.length) ∧
    ((chooseInventoryEndpoint (fun _ _ => .resp 200 (some (.arr [.obj [("id", .str "i1")]])) "" []) testCfg none 100 0 initState).1.ep =
      some ("https://api.quartzy.com/inventory-items", true)) := by
  have h404 := inventory_discovery_probe_spec (fun _ _ => .resp 404 none "" []) testCfg (some "lab1") 50 0 initState
  have hok := inventory_discovery_probe_spec (fun _ _ => .resp 200 (some (.arr [.obj [("id", .str "i1")]])) "" []) testCfg none 100 0 initState
  have hnone := h404.1.mpr (by decide)
  refine ⟨hnone, ?_, ?_⟩
  · exact le_trans (by decide) (h404.2.1 hnone)
  · exact (hok.2.2 0 (by decide) (by intro j hj hlt; omega) (by decide)).1

/-- **C3 counterexample.** A 200 response whose JSON body is a dict with no
known list wrapper key does NOT advance discovery to the next candidate: the
first candidate is accepted, with an empty item list (the source checks
`items is not None` on a parser that always returns a list). -/
theorem inventory_discovery_nonlist_accepted :
    ((chooseInventoryEndpoint (fun _ _ => .resp 200 (some (.obj [("error", .str "boom")])) "" []) testCfg none 100 0 initState).1.ep =
      some ("https://api.quartzy.com/inventory-items", true)) ∧
    ((chooseInventoryEndpoint (fun _ _ => .resp 200 (some (.obj [("error", .str "boom")])) "" []) testCfg none 100 0 initState).1.items = ([] : List Jv)) ∧
    2 ≤ (candidateInventoryEndpoints testCfg none).length := by
  exact ⟨rfl, rfl, by decide⟩

/-- **C4 (amended).** Inventory endpoint discovery is not memoized: the
winning binding is only recorded in the write-only debug diagnostics, which
the probe loop never consults, so the probe behaviour (result and request
log) is identical for every prior service state, and every discovery call
issues at least one network probe, starting with the first fixed candidate. -/
theorem inventory_discovery_not_memoized (w : World) (cfg : Cfg) (lab_id : Option String)
    (per_page n : Nat) (st st' : SvcState) :
    (chooseInventoryEndpoint w cfg lab_id per_page n st).1 =
      (chooseInventoryEndpoint w cfg lab_id per_page n st').1 ∧
    ∃ t, (chooseInventoryEndpoint w cfg lab_id per_page n st).1.log =
      probeReqOf cfg lab_id per_page (rstripSlash cfg.base_url ++ "/inventory-items", true) :: t := by
  constructor
  · rfl
  · have h := chooseGo_log_cons w cfg lab_id per_page
      (rstripSlash cfg.base_url ++ "/inventory-items", true)
      ((rstripSlash cfg.base_url ++ "/api/v2/inventory-items", true) ::
        ((match labOr cfg lab_id with
          | some lid => [(rstripSlash cfg.base_url ++ "/labs/" ++ lid ++ "/inventory-items", false),
                         (rstripSlash cfg.base_url ++ "/api/v2/labs/" ++ lid ++ "/inventory-items", false)]
          | none => []) ++
          [(rstripSlash cfg.base_url ++ "/inventory_items", true)] ++
          (match labOr cfg lab_id with
           | some lid => [(rstripSlash cfg.base_url ++ "/labs/" ++ lid ++ "/inventory_items", false)]
           | none => [])))
      n [] []
    obtain ⟨t, ht⟩ := h
    refine ⟨t, ?_⟩
    show (chooseGo w cfg lab_id per_page n (candidateInventoryEndpoints cfg lab_id) [] []).log = _
    rw [show candidateInventoryEndpoints cfg lab_id =
      (rstripSlash cfg.base_url ++ "/inventory-items", true) ::
      ((rstripSlash cfg.base_url ++ "/api/v2/inventory-items", true) ::
        ((match labOr cfg lab_id with
          | some lid => [(rstripSlash cfg.base_url ++ "/labs/" ++ lid ++ "/inventory-items", false),
                         (rstripSlash cfg.base_url ++ "/api/v2/labs/" ++ lid ++ "/inventory-items", false)]
          | none => []) ++
          [(rstripSlash cfg.base_url ++ "/inventory_items", true)] ++
          (match labOr cfg lab_id with
           | some lid => [(rstripSlash cfg.base_url ++ "/labs/" ++ lid ++ "/inventory_items", false)]
           | none => []))) from rfl]
    rw [ht]
    simp

/-- **C4 counterexample.** Against a stationary server whose first candidate
answers with an item list, a first discovery call succeeds (the binding is
recorded in the diagnostics) and a second discovery call with no intervening
cache-clear still issues 1 network probe request — not 0 as the claim
states. -/
theorem inventory_discovery_second_call_probes :
    ((chooseInventoryEndpoint (fun _ _ => .resp 200 (some (.arr [.obj [("id", .str "i1")]])) "" []) testCfg none 100 0 initState).1.ep =
      some ("https://api.quartzy.com/inventory-items", true)) ∧
    ((chooseInventoryEndpoint (fun _ _ => .resp 200 (some (.arr [.obj [("id", .str "i1")]])) "" []) testCfg none 100
        (chooseInventoryEndpoint (fun _ _ => .resp 200 (some (.arr [.obj [("id", .str "i1")]])) "" []) testCfg none 100 0 initState).1.log.length
        (chooseInventoryEndpoint (fun _ _ => .resp 200 (some (.arr [.obj [("id", .str "i1")]])) "" []) testCfg none 100 0 initState).2).1.log.length = 1) ∧
    (1 : Nat) ≠ 0 := by
  exact ⟨rfl, rfl, by decide⟩

/- ---------- Python value plumbing shared by the fetchers ---------- -/

/-- Python `d.get(k)`: a missing key and a stored `None`/`null` both come
back as `None`. -/
def pyGet (d : Jv) (k : String) : Jv := (jget d k).getD .null

/-- Python `a or b` on dynamic values. -/
def jvOr (a b : Jv) : Jv := if a.truthy then a else b

/-- Duck-typed list extraction: iterating anything but a JSON list is not
exercised by any embedded flow, so non-lists collapse to `[]`. -/
def jvAsList : Jv → List Jv
  | .arr l => l
  | _ => []

def stripStr (s : String) : String := String.mk (stripWs s.data)

def upperStr (s : String) : String := String.mk (s.data.map Char.toUpper)

/-- Python `int(x)` on a dynamic value (`none` = raised). -/
def jvToIntOpt : Jv → Option Int
  | .num n => some n
  | .jbool b => some (if b then 1 else 0)
  | .str s => pyIntStr s
  | _ => none

/-- Bridge into the `safe_int` value model. -/
def jvToPyVal : Jv → PyVal
  | .null => .vnone
  | .num n => .vint n
  | .jbool b => .vbool b
  | .str s => .vstr s
  | .arr l => .vother (Jv.arr l).pyStr
  | .obj l => .vother (Jv.obj l).pyStr

/-- `headers.get(k1) or headers.get(k2)` then Python `if hdr:` truthiness:
the first non-empty value. -/
def hdrOr2 (h : List (String × String)) (k1 k2 : String) : Option String :=
  orStr (hdrGet h k1) (hdrGet h k2)

/-- `try: if x_page: curr = int(x_page); if x_total: total = int(x_total)
except: pass` — note that a failing `int(x_page)` aborts before `total` is
assigned, while a failing `int(x_total)` keeps the parsed `curr`. -/
def tryParseCT (x_page x_total : Option String) : Option Int × Option Int :=
  match x_page with
  | some s =>
    if s ≠ "" then
      match pyIntStr s with
      | some v =>
        (some v,
          match x_total with
          | some s2 => if s2 ≠ "" then pyIntStr s2 else none
          | none => none)
      | none => (none, none)
    else
      (none,
        match x_total with
        | some s2 => if s2 ≠ "" then pyIntStr s2 else none
        | none => none)
  | none =>
    (none,
      match x_total with
      | some s2 => if s2 ≠ "" then pyIntStr s2 else none
      | none => none)

/-- First parseable per-page header (`int()` failures fall through without
breaking the loop). -/
def effFromKeys (look : String → Option String) : List String → Option Int
  | [] => none
  | k :: ks =>
    match look k with
    | some v =>
      (match pyIntStr v with
       | some nv => some nv
       | none => effFromKeys look ks)
    | none => effFromKeys look ks

def effFromHeaders (h : List (String × String)) (keys : List String) : Option Int :=
  effFromKeys (fun k => hdrGet h k) keys

/-- First dict value under the given keys that `int()` accepts. -/
def effFromObj (o : Jv) : List String → Option Int
  | [] => none
  | k :: ks =>
    match jget o k with
    | some v =>
      (match jvToIntOpt v with
       | some nv => some nv
       | none => effFromObj o ks)
    | none => effFromObj o ks

/-- Python falsiness of an optional int (`None` or `0`). -/
def optIntFalsy : Option Int → Bool
  | none => true
  | some v => v = 0

/- ---------- Orders fast fetch (lines 1512-1684) ---------- -/

def STATUS_KEYS : List String :=
  ["status", "state", "workflow_status", "workflowState", "order_status",
   "request_status", "fulfillment_status"]

/-- `_extract_status`: the first present non-None status-ish field,
stringified and stripped. -/
def extractStatusGo (it : Jv) : List String → String
  | [] => ""
  | k :: ks =>
    match jget it k with
    | some .null => extractStatusGo it ks
    | some v => stripStr v.pyStr
    | none => extractStatusGo it ks

def extractStatus (it : Jv) : String := extractStatusGo it STATUS_KEYS

/-- `_filter_by_status_exact`. -/
def filterByStatusExact (items : List Jv) (statuses : Option (List String)) : List Jv :=
  match statuses with
  | none => items
  | some l =>
    if l.isEmpty then items
    else
      let targets := (l.filter (fun s => stripStr s ≠ "")).map (fun s => upperStr (stripStr s))
      items.filter (fun it => targets.contains (upperStr (extractStatus it)))

/-- The candidate field names of `_extract_catalog_number`. -/
def catalogKeys : List String :=
  ["catalog_number", "vendor_catalog_number", "vendor_product_id", "vendor_product",
   "catalog", "sku", "item_number", "product_number", "catalogNumber"]

def extractCatalogGo (o : Jv) (pre : String) : List String → Option (String × String)
  | [] => none
  | k :: ks =>
    match jget o k with
    | some .null => extractCatalogGo o pre ks
    | some v =>
      let sv := stripStr v.pyStr
      if sv ≠ "" then some (sv, pre ++ k) else extractCatalogGo o pre ks
    | none => extractCatalogGo o pre ks

/-- `_extract_catalog_number`: shallow fields first, then under `details`. -/
def extractCatalogNumber (o : Jv) : Option String × Option String :=
  match extractCatalogGo o "" catalogKeys with
  | some (v, src) => (some v, some src)
  | none =>
    match jvOr (pyGet o "details") (.obj []) with
    | .obj dfields =>
      (match extractCatalogGo (.obj dfields) "details." catalogKeys with
       | some (v, src) => (some v, some src)
       | none => (none, none))
    | _ => (none, none)

/-- `_map_order`: the normalized order projection.  (Python would raise on a
non-string name value; the embedding stringifies, which agrees on every
flow exercised here.) -/
def mapOrder (o : Jv) : Jv :=
  let item_name := stripStr (jvOr (pyGet o "item_name") (jvOr (pyGet o "name") (.str "Unnamed"))).pyStr
  let vendor_name := jvOr (pyGet o "vendor_name") (jvOr (pyGet o "vendor") (.str ""))
  let qty_str := pyGet o "quantity"
  let qty_expected := safe_int (jvToPyVal qty_str) 0
  let cat := extractCatalogNumber o
  let optStr : Option String → Jv := fun v => match v with | some s => .str s | none => .null
  .obj [("id", pyGet o "id"), ("name", .str item_name),
    ("vendor", vendor_name), ("quantity_expected", .num qty_expected),
    ("status", jvOr (pyGet o "status") (.str "")), ("item_name", .str item_name),
    ("vendor_name", vendor_name), ("catalog_number", optStr cat.1),
    ("catalog_number_source", optStr cat.2), ("quantity", qty_str),
    ("unit_size", pyGet o "unit_size"), ("unit_price", pyGet o "unit_price"),
    ("total_price", pyGet o "total_price"), ("requested_at", pyGet o "requested_at"),
    ("updated_at", pyGet o "updated_at"), ("requested_by", pyGet o "requested_by"),
    ("created_by", pyGet o "created_by"), ("notes", pyGet o "notes"),
    ("invoice_number", pyGet o "invoice_number"),
    ("requisition_number", pyGet o "requisition_number"),
    ("confirmation_number", pyGet o "confirmation_number"),
    ("tracking_number", pyGet o "tracking_number"),
    ("purchase_order_number", pyGet o "purchase_order_number"),
    ("shipping_and_handling", pyGet o "shipping_and_handling"),
    ("details", pyGet o "details"), ("lab", pyGet o "lab"), ("type", pyGet o "type"),
    ("spend_tracking_code", pyGet o "spend_tracking_code"),
    ("backordered_expected_at", pyGet o "backordered_expected_at"),
    ("is_urgent", pyGet o "is_urgent"), ("app_url", pyGet o "app_url")]

/-- Per-page metadata returned by the page fetchers. -/
structure PageMeta where
  page : Int
  total_pages : Option Int
  eff_page_size : Option Int
  http : Option Int

def ordersPageParams (cfg : Cfg) (lab : Option String) (page per_page : Nat) : List (String × Jv) :=
  [("page", .num page), ("per_page", .num per_page), ("limit", .num per_page)] ++
    (match labOr cfg lab with
     | some lid => [("lab_id", .str lid)]
     | none => [])

def ordersPageReq (cfg : Cfg) (lab : Option String) (page per_page : Nat) : Req :=
  ⟨"GET", cfg.base_url ++ "/order-requests", ordersPageParams cfg lab page per_page,
    svcHeaders cfg none, none⟩

/-- `_list_order_requests_page`: one GET; an unguarded transport exception or
a raising `resp.json()` propagates (`Except.error`); a non-ok status returns
the structured empty page. -/
def listOrderRequestsPage (w : World) (cfg : Cfg) (lab : Option String)
    (page per_page : Nat) (n : Nat) :
    Except String (List Jv × Bool × PageMeta) × List Req :=
  let req := ordersPageReq cfg lab page per_page
  match w n req with
  | .exn msg => (.error msg, [req])
  | .resp status body _text hdrs =>
    if !okStatus status then
      (.ok ([], false, ⟨page, none, none, some status⟩), [req])
    else
      match body with
      | none => (.error "json decode error", [req])
      | some rawData =>
        let data := jvOr rawData (.obj [])
        let parts : List Jv × Jv × Jv × Jv :=
          match data with
          | .arr l => (l, .obj [], .obj [], .obj [])
          | d =>
            (jvAsList (jvOr (pyGet d "order_requests") (jvOr (pyGet d "data")
                (jvOr (pyGet d "results") (jvOr (pyGet d "items") (.arr []))))),
             jvOr (pyGet d "meta") (.obj []),
             jvOr (pyGet d "links") (jvOr (pyGet d "_links") (.obj [])),
             jvOr (pyGet d "pagination") (.obj []))
        let items := parts.1
        let meta := parts.2.1
        let links_obj := parts.2.2.1
        let pagination_obj := parts.2.2.2
        let x_page := hdrOr2 hdrs "X-Page" "Page"
        let x_total_pages := hdrOr2 hdrs "X-Total-Pages" "Total-Pages"
        let x_next_page := hdrOr2 hdrs "X-Next-Page" "Next-Page"
        let ct := tryParseCT x_page x_total_pages
        let curr_page0 := ct.1
        let total_pages0 := ct.2
        let has_next1 : Bool :=
          match x_total_pages, x_page with
          | some st, some sp =>
            if st ≠ "" && sp ≠ "" then
              match pyIntStr sp, pyIntStr st with
              | some vp, some vt => vp < vt
              | _, _ => false
            else false
          | _, _ => false
        let has_next2 : Bool := has_next1 ||
          (match x_next_page with | some sxp => sxp ≠ "" | none => false)
        let has_next3 : Bool := has_next2 ||
          (match hdrOr2 hdrs "Link" "link" with
           | some lk => strContainsSub (lowerStr lk) "rel=\"next\""
           | none => false)
        let has_next4 : Bool :=
          if has_next3 then true
          else match links_obj with
            | .obj lf =>
              (jvOr (pyGet (.obj lf) "next") (jvOr (pyGet (.obj lf) "next_page")
                (pyGet (.obj lf) "nextUrl"))).truthy
            | _ => has_next3
        let pgStep : Bool × Option Int × Option Int :=
          if has_next4 then (true, curr_page0, total_pages0)
          else
            let metaF : List (String × Jv) := match meta with | .obj f => f | _ => []
            let pagF : List (String × Jv) := match pagination_obj with | .obj f => f | _ => []
            let pg : Jv := .obj (pagF.foldl (fun acc kv => aset acc kv.1 kv.2) metaF)
            let curr := jvOr (pyGet pg "current_page") (jvOr (pyGet pg "page") (pyGet pg "page_number"))
            let pages := jvOr (pyGet pg "total_pages") (pyGet pg "pages")
            let nxt := jvOr (pyGet pg "next_page") (pyGet pg "next")
            let curr_page1 := match curr with | .num v => some v | _ => curr_page0
            let total_pages1 := match pages with | .num v => some v | _ => total_pages0
            let hn : Bool := match curr, pages with
              | .num vc, .num vp => decide (vc < vp)
              | _, _ => false
            let hn2 := if hn then true else !(nxt matches .null)
            (hn2, curr_page1, total_pages1)
        let has_next5 := pgStep.1
        let curr_page := pgStep.2.1
        let total_pages2 := pgStep.2.2
        -- eff_page_size: headers, then (when still falsy) meta, then (when
        -- still falsy) the pagination object, defaulting to 25 only for None
        let effH := effFromHeaders hdrs ["X-Per-Page", "Per-Page", "x-per-page", "x_per_page"]
        let effM := if optIntFalsy effH then
            (match meta with
             | .obj mf =>
               (match effFromObj (.obj mf) ["per_page", "page_size", "perPage", "pageSize"] with
                | some v => some v
                | none => effH)
             | _ => effH)
          else effH
        let effP := if optIntFalsy effM then
            (match pagination_obj with
             | .obj pf =>
               (match effFromObj (.obj pf) ["per_page", "page_size"] with
                | some v => some v
                | none => effM)
             | _ => effM)
          else effM
        let eff_page_size : Int := match effP with | some v => v | none => 25
        let total_pages3 :=
          if total_pages2.isNone && eff_page_size ≠ 0 then
            match hdrOr2 hdrs "X-Total-Count" "Total-Count" with
            | some tc =>
              (match pyIntStr tc with
               | some vtc => some ((vtc + eff_page_size - 1).fdiv eff_page_size)
               | none => none)
            | none => none
          else total_pages2
        let has_next6 := if has_next5 then true else decide ((items.length : Int) = eff_page_size)
        let pageOut : Int := match curr_page with
          | some v => if v ≠ 0 then v else (page : Int)
          | none => (page : Int)
        (.ok (items, has_next6, ⟨pageOut, total_pages3, some eff_page_size, none⟩), [req])

/-- Metadata envelope of `fetch_order_requests_fast`. -/
structure FastMeta where
  pages : Int
  last_status : Int
  eff_page_size : Option Int

/-- Accumulator of the stride-based windowed scan. -/
structure ScanSt where
  results : List Jv
  maxSeen : Nat
  n : Nat
  log : List Req

/-- The stride scan of `fetch_order_requests_fast` (unknown total pages):
lanes are modelled sequentially in scheduling order; a raising lane
(`fut.result()`) is caught and treated as an empty page; a non-empty page
reschedules `page + stride`; an empty page ends its lane.  `fuel` bounds the
modelled scan. -/
def strideScan (w : World) (cfg : Cfg) (lab : Option String) (statuses : Option (List String))
    (per_page stride : Nat) : Nat → List Nat → ScanSt → ScanSt
  | 0, _, st => st
  | _ + 1, [], st => st
  | fuel + 1, p :: queue, st =>
    match listOrderRequestsPage w cfg lab p per_page st.n with
    | (.ok (items, _, _), lg) =>
      if items.isEmpty then
        strideScan w cfg lab statuses per_page stride fuel queue
          { st with n := st.n + 1, log := st.log ++ lg }
      else
        strideScan w cfg lab statuses per_page stride fuel (queue ++ [p + stride])
          { results := st.results ++ filterByStatusExact items statuses,
            maxSeen := max st.maxSeen p, n := st.n + 1, log := st.log ++ lg }
    | (.error _, lg) =>
      -- the worker raised; `fut.result()` is wrapped in try/except: page dropped
      strideScan w cfg lab statuses per_page stride fuel queue
        { st with n := st.n + 1, log := st.log ++ lg }

/-- The known-total parallel fetch of pages 2..total, modelled sequentially;
a raising future is caught (`continue`) and its page dropped from the merge. -/
def fetchPagesSeq (w : World) (cfg : Cfg) (lab : Option String)
    (statuses : Option (List String)) (per_page : Nat) :
    List Nat → Nat → List Jv × Nat × List Req
  | [], n => ([], n, [])
  | p :: ps, n =>
    match listOrderRequestsPage w cfg lab p per_page n with
    | (.ok (items, _, _), lg) =>
      let rest := fetchPagesSeq w cfg lab statuses per_page ps (n + 1)
      (filterByStatusExact items statuses ++ rest.1, rest.2.1, lg ++ rest.2.2)
    | (.error _, lg) =>
      let rest := fetchPagesSeq w cfg lab statuses per_page ps (n + 1)
      (rest.1, rest.2.1, lg ++ rest.2.2)

/-- `int(x or default)` with Python zero-falsiness. -/
def natOrDefault (x : Option Nat) (dflt : Nat) : Nat :=
  match x with
  | some v => if v ≠ 0 then v else dflt
  | none => dflt

/-- `fetch_order_requests_fast`: page 1 discovers pagination; its unguarded
exception (connection error or unparseable JSON) propagates to the caller;
with a known total, pages 2..total are fetched with per-future exception
swallowing; with an unknown total the stride scan runs. -/
def fetchOrderRequestsFast (w : World) (cfg : Cfg) (statuses : Option (List String))
    (lab_id : Option String) (per_page0 max_workers0 : Option Nat) (fuel n : Nat) :
    Except String (List Jv × FastMeta) × List Req :=
  let lab := labOr cfg lab_id
  let per_page := natOrDefault per_page0 cfg.orders_per_page
  let max_workers := natOrDefault max_workers0 cfg.max_workers
  match listOrderRequestsPage w cfg lab 1 per_page n with
  | (.error e, lg) => (.error e, lg)
  | (.ok (first_items, has_next, meta), lg1) =>
    let results := filterByStatusExact first_items statuses
    let totFalsy := optIntFalsy meta.total_pages
    if !has_next && (totFalsy || decide (meta.total_pages = some 1)) then
      (.ok (results.map mapOrder, ⟨1, 200, meta.eff_page_size⟩), lg1)
    else if totFalsy then
      let stride := max 1 max_workers
      let fin := strideScan w cfg lab statuses per_page stride fuel
        (List.range' 2 stride) ⟨results, 1, n + 1, lg1⟩
      (.ok (fin.results.map mapOrder, ⟨fin.maxSeen, 200, meta.eff_page_size⟩), fin.log)
    else
      match meta.total_pages with
      | some t =>
        let more := fetchPagesSeq w cfg lab statuses per_page (List.range' 2 (t.toNat - 1)) (n + 1)
        (.ok ((results ++ more.1).map mapOrder, ⟨t, 200, meta.eff_page_size⟩), lg1 ++ more.2.2)
      | none =>
        -- unreachable: `totFalsy = false` forces `total_pages = some t`
        (.ok (results.map mapOrder, ⟨1, 200, meta.eff_page_size⟩), lg1)

/- ---------- Inventory fast fetch (lines 501-602) ---------- -/

/-- `_page_has_next_inventory`: `(has_next, curr_page, total_pages, eff)`. -/
def pageHasNextInventory (hdrs : List (String × String)) (items_len : Nat)
    (meta_obj : Option Jv) : Bool × Option Int × Option Int × Int :=
  let x_page := hdrOr2 hdrs "X-Page" "Page"
  let x_total_pages := hdrOr2 hdrs "X-Total-Pages" "Total-Pages"
  let x_next_page := hdrOr2 hdrs "X-Next-Page" "Next-Page"
  let effH := effFromHeaders hdrs ["X-Per-Page", "Per-Page", "x-per-page", "x_per_page"]
  let effM := match meta_obj with
    | some mo =>
      if mo.truthy && optIntFalsy effH then
        (match mo with
         | .obj mf =>
           (match effFromObj (.obj mf) ["per_page", "page_size", "perPage", "pageSize"] with
            | some v => some v
            | none => effH)
         | _ => effH)
      else effH
    | none => effH
  let eff : Int := match effM with | some v => v | none => 25
  let ct := tryParseCT x_page x_total_pages
  let curr_page := ct.1
  let total_pages := ct.2
  let has_next1 : Bool :=
    match x_total_pages, x_page with
    | some st, some sp =>
      if st ≠ "" && sp ≠ "" then
        match pyIntStr sp, pyIntStr st with
        | some vp, some vt => decide (vp < vt)
        | _, _ => false
      else false
    | _, _ => false
  let has_next2 := has_next1 ||
    (match x_next_page with | some sxp => sxp ≠ "" | none => false)
  let has_next3 := has_next2 ||
    (match hdrOr2 hdrs "Link" "link" with
     | some lk => strContainsSub (lowerStr lk) "rel=\"next\""
     | none => false)
  let has_next4 :=
    if has_next3 then true
    else match total_pages, curr_page with
      | some vt, some vc => decide (vc < vt)
      | _, _ => false
  let has_next5 := if has_next4 then true else decide ((items_len : Int) = eff)
  (has_next5, curr_page, total_pages, eff)

def invPageReq (cfg : Cfg) (ep : String) (lab : Option String) (withLab : Bool)
    (page per_page : Nat) : Req :=
  ⟨"GET", ep, invPageParams cfg lab withLab page per_page, svcHeaders cfg none, none⟩

/-- `_list_inventory_page`: the GET itself may raise (propagates); a raising
`.json()` is caught (`data = {}`); a non-ok response returns the structured
empty page. -/
def listInventoryPage (w : World) (cfg : Cfg) (ep : String) (lab : Option String)
    (withLab : Bool) (page per_page : Nat) (n : Nat) :
    Except String (List Jv × Bool × PageMeta) × List Req :=
  let req := invPageReq cfg ep lab withLab page per_page
  match w n req with
  | .exn msg => (.error msg, [req])
  | .resp status body _text hdrs =>
    if !okStatus status then
      (.ok ([], false, ⟨page, none, none, none⟩), [req])
    else
      let data : Jv := match body with
        | some d => d
        | none => .obj []
      let items := parseInventoryPayload (some data)
      let meta : Jv := match data with
        | .obj f => jvOr (pyGet (.obj f) "meta") (jvOr (pyGet (.obj f) "pagination") (.obj []))
        | _ => .obj []
      let r := pageHasNextInventory hdrs items.length (some meta)
      let pageOut : Int := match r.2.1 with
        | some v => if v ≠ 0 then v else (page : Int)
        | none => (page : Int)
      (.ok (items, r.1, ⟨pageOut, r.2.2.1, some r.2.2.2, none⟩), [req])

/-- Serial page walk of `fetch_inventory_items_fast` when the total is
unknown: the unguarded `_list_inventory_page` calls may raise (propagate). -/
def invSerialWalk (w : World) (cfg : Cfg) (ep : String) (lab : Option String)
    (withLab : Bool) (per_page : Nat) :
    Nat → Nat → Nat → List Jv → Except String (List Jv) × List Req
  | 0, _, _, acc => (.ok acc, [])
  | fuel + 1, page, n, acc =>
    match listInventoryPage w cfg ep lab withLab page per_page n with
    | (.error e, lg) => (.error e, lg)
    | (.ok (items, hn, _), lg) =>
      if hn then
        let rest := invSerialWalk w cfg ep lab withLab per_page fuel (page + 1) (n + 1) (acc ++ items)
        (rest.1, lg ++ rest.2)
      else (.ok (acc ++ items), lg)

/-- Parallel pages 2..total of `fetch_inventory_items_fast`, modelled
sequentially; each future's exception is swallowed. -/
def invPagesSeq (w : World) (cfg : Cfg) (ep : String) (lab : Option String)
    (withLab : Bool) (per_page : Nat) : List Nat → Nat → List Jv × List Req
  | [], _ => ([], [])
  | p :: ps, n =>
    match listInventoryPage w cfg ep lab withLab p per_page n with
    | (.ok (items, _, _), lg) =>
      let rest := invPagesSeq w cfg ep lab withLab per_page ps (n + 1)
      (items ++ rest.1, lg ++ rest.2)
    | (.error _, lg) =>
      let rest := invPagesSeq w cfg ep lab withLab per_page ps (n + 1)
      (rest.1, lg ++ rest.2)

/-- `fetch_inventory_items_fast`: discovery (which never raises), then a
second page-1 call whose transport exception propagates, then either the
serial walk (unknown total, may raise) or the parallel fetch (exceptions
swallowed per page). -/
def fetchInventoryItemsFast (w : World) (cfg : Cfg) (lab_id : Option String)
    (per_page0 _max_workers0 : Option Nat) (fuel n : Nat) (st : SvcState) :
    (Except String (List Jv) × List Req) × SvcState :=
  let lab := labOr cfg lab_id
  let eff_per_page := natOrDefault per_page0 (natOrDefault cfg.inventory_per_page cfg.orders_per_page)
  let cfgDbg : Jv := .obj [("lab_id", .str (match lab with | some l => l | none => "")),
    ("per_page", .num eff_per_page)]
  let st1 : SvcState := { st with debug := aset st.debug "inventory_fetch_config" cfgDbg }
  let ch := chooseInventoryEndpoint w cfg lab_id eff_per_page n st1
  let st2 := ch.2
  match ch.1.ep with
  | none => ((.ok [], ch.1.log), st2)
  | some (ep, withLab) =>
    let n1 := n + ch.1.log.length
    match listInventoryPage w cfg ep lab withLab 1 eff_per_page n1 with
    | (.error e, lg) => ((.error e, ch.1.log ++ lg), st2)
    | (.ok (_, has_next, meta), lg1) =>
      let results := ch.1.items
      let totFalsy := optIntFalsy meta.total_pages
      if !has_next && (totFalsy || decide (meta.total_pages = some 1)) then
        ((.ok results, ch.1.log ++ lg1), st2)
      else if totFalsy then
        let walk := invSerialWalk w cfg ep lab withLab eff_per_page fuel 2 (n1 + 1) results
        ((walk.1, ch.1.log ++ lg1 ++ walk.2), st2)
      else
        match meta.total_pages with
        | some t =>
          let par := invPagesSeq w cfg ep lab withLab eff_per_page (List.range' 2 (t.toNat - 1)) (n1 + 1)
          ((.ok (results ++ par.1), ch.1.log ++ lg1 ++ par.2), st2)
        | none => ((.ok results, ch.1.log ++ lg1), st2)

theorem filterByStatusExact_nil (statuses : Option (List String)) :
    filterByStatusExact [] statuses = [] := by
  cases statuses with
  | none => rfl
  | some l =>
    by_cases h : l.isEmpty
    · simp [filterByStatusExact, h]
    · simp [filterByStatusExact, h]

/-- A server whose first request (the accepted discovery probe) succeeds
with an empty list and whose second request (the page-1 metadata re-fetch
of `fetch_inventory_items_fast`) raises. -/
def wInvP1 : World := fun k _ =>
  if k = 0 then .resp 200 (some (.arr [])) "" [] else .exn "connection refused"

/-- A server where discovery and the page-1 fetch succeed but page 1
advertises a next page (`X-Next-Page`) without a total, so the serial walk
runs and its page-2 fetch raises. -/
def wInvWalk : World := fun k _ =>
  if k = 0 then .resp 200 (some (.arr [])) "" []
  else if k = 1 then .resp 200 (some (.arr [])) "" [("X-Next-Page", "2")]
  else .exn "connection refused"

/-- **C1 counterexample.** Unguarded page fetches propagate exceptions out
of both public fast fetchers: a connection exception during the page-1
fetch of `fetch_order_requests_fast` raises (`_list_order_requests_page`
wraps neither `session.get` nor `resp.json()` in try/except and the page-1
call site has no handler); and `_list_inventory_page`'s `session.get` is
also unguarded, so `fetch_inventory_items_fast` raises when the page-1
metadata re-fetch after discovery raises, and likewise when any page fetch
of the serial walk (unknown total) raises. -/
theorem fetch_orders_page1_exception_raises :
    (fetchOrderRequestsFast (fun _ _ => .exn "connection refused") testCfg none none none none 10 0).1 =
      .error "connection refused" ∧
    (fetchInventoryItemsFast wInvP1 testCfg none none none 10 0 initState).1.1 =
      .error "connection refused" ∧
    (fetchInventoryItemsFast wInvWalk testCfg none none none 10 0 initState).1.1 =
      .error "connection refused" := ⟨rfl, rfl, rfl⟩

/-- **C1 (amended).** The fast fetchers return structured values for remote
failures expressed as non-ok HTTP responses (empty results plus metadata)
and swallow failures of every discovery probe and of concurrently fetched
pages ≥ 2 when the total is known; but unguarded page fetches propagate
exceptions across the public contract: an exception (connection error or
unparseable JSON body) during the page-1 fetch of
`fetch_order_requests_fast` raises, and a connection exception during
`fetch_inventory_items_fast`'s page-1 metadata re-fetch or during a
serial-walk page fetch raises too (shown in the counterexample theorem).
Concretely: (A) a non-ok page-1 response yields `([], pages 1)`; (B) a
page-1 transport exception yields that exception; (C) when every request
raises, `fetch_inventory_items_fast` returns `[]` structurally because
discovery catches everything and no endpoint is selected, so no unguarded
page fetch ever runs; (D) with a known 2-page total, an exception on page 2
is dropped from the merge and page 1's items are still returned. -/
theorem fetch_fast_failure_behaviour :
    (∀ (w : World) (cfg : Cfg) (statuses : Option (List String)) (lab : Option String)
        (pp0 mw0 : Option Nat) (fuel n : Nat) (status : Int) (body : Option Jv)
        (text : String) (hdrs : List (String × String)),
      w n (ordersPageReq cfg (labOr cfg lab) 1 (natOrDefault pp0 cfg.orders_per_page)) =
        .resp status body text hdrs →
      okStatus status = false →
      (fetchOrderRequestsFast w cfg statuses lab pp0 mw0 fuel n).1 =
        .ok ([], ⟨1, 200, none⟩)) ∧
    (∀ (w : World) (cfg : Cfg) (statuses : Option (List String)) (lab : Option String)
        (pp0 mw0 : Option Nat) (fuel n : Nat) (m : String),
      w n (ordersPageReq cfg (labOr cfg lab) 1 (natOrDefault pp0 cfg.orders_per_page)) = .exn m →
      (fetchOrderRequestsFast w cfg statuses lab pp0 mw0 fuel n).1 = .error m) ∧
    (∀ (w : World) (cfg : Cfg) (lab : Option String) (pp0 mw0 : Option Nat)
        (fuel n : Nat) (st : SvcState),
      (∀ k r, ∃ m, w k r = .exn m) →
      (fetchInventoryItemsFast w cfg lab pp0 mw0 fuel n st).1.1 = .ok []) ∧
    (∃ l : List Jv,
      (fetchOrderRequestsFast
        (fun k _ => if k = 0 then
          .resp 200 (some (.arr [.obj [("id", .str "o1"), ("status", .str "ORDERED")]])) ""
            [("X-Page", "1"), ("X-Total-Pages", "2")]
         else .exn "boom")
        testCfg none none none none 10 0).1 = .ok (l, ⟨2, 200, some 25⟩) ∧ l.length = 1) := by
  refine ⟨?_, ?_, ?_, ?_⟩
  · intro w cfg statuses lab pp0 mw0 fuel n status body text hdrs hw hok
    have hnot : (!okStatus status) = true := by rw [hok]; rfl
    simp only [fetchOrderRequestsFast, listOrderRequestsPage, hw, if_pos hnot]
    simp [filterByStatusExact_nil, optIntFalsy]
  · intro w cfg statuses lab pp0 mw0 fuel n m hw
    simp only [fetchOrderRequestsFast, listOrderRequestsPage, hw]
  · intro w cfg lab pp0 mw0 fuel n st hall
    have hnone : ∀ (pp n' : Nat) (st' : SvcState),
        (chooseInventoryEndpoint w cfg lab pp n' st').1.ep = none := by
      intro pp n' st'
      apply (chooseGo_none_iff w cfg lab pp (candidateInventoryEndpoints cfg lab) n' [] []).mpr
      intro i h
      obtain ⟨m, hm⟩ := hall (n' + i)
        (probeReqOf cfg lab pp ((candidateInventoryEndpoints cfg lab).get ⟨i, h⟩))
      rw [hm]
      rfl
    simp only [fetchInventoryItemsFast, hnone]
  · exact ⟨_, rfl, rfl⟩

/-- Witness for C1's amended statement at concrete inputs: a 500 page-1
response yields the structured empty result; a page-1 connection exception
propagates as such; an all-raising world leaves the inventory fetch with a
structured empty list (discovery selected no endpoint). -/
theorem fetch_fast_failure_behaviour_witness :
    ((fetchOrderRequestsFast (fun _ _ => .resp 500 none "oops" []) testCfg none none none none 10 0).1 =
      .ok ([], ⟨1, 200, none⟩)) ∧
    ((fetchOrderRequestsFast (fun _ _ => .exn "reset") testCfg none none none none 10 0).1 =
      .error "reset") ∧
    ((fetchInventoryItemsFast (fun _ _ => .exn "reset") testCfg none none none 10 0 initState).1.1 =
      .ok []) := by
  refine ⟨?_, ?_, ?_⟩
  · exact fetch_fast_failure_behaviour.1 (fun _ _ => .resp 500 none "oops" []) testCfg
      none none none none 10 0 500 none "oops" [] rfl rfl
  · exact fetch_fast_failure_behaviour.2.1 (fun _ _ => .exn "reset") testCfg
      none none none none 10 0 "reset" rfl
  · exact fetch_fast_failure_behaviour.2.2.1 (fun _ _ => .exn "reset") testCfg
      none none none 10 0 initState (fun k r => ⟨"reset", rfl⟩)

/- ---------- Write orchestrators (lines 1052-1335, 1885-1961) ---------- -/

def mkTake (s : String) (k : Nat) : String := String.mk (s.data.take k)

def capStr (s : String) : String :=
  match s.data with
  | [] => ""
  | c :: t => String.mk (Char.toUpper c :: t.map Char.toLower)

def dedupKeepGo (seen : List String) : List String → List String
  | [] => []
  | x :: t => if seen.contains x then dedupKeepGo seen t else x :: dedupKeepGo (x :: seen) t

/-- `list(dict.fromkeys(...))`: order-preserving de-duplication. -/
def dedupKeep (l : List String) : List String := dedupKeepGo [] l

/-- `list(body.keys())`. -/
def bodyShape : Option Jv → List String
  | some (.obj f) => f.map Prod.fst
  | _ => []

/-- One attempt record of a write orchestrator's `tries` list. -/
structure WAttempt where
  url : String
  method : String
  status : Option Int
  ok : Option Bool
  status_value : Option String
  body_shape : List String
  resp_snippet : Option String
  content_type : Option String
  exnMsg : Option String

/-- The payload of a successful write attempt. -/
structure WSucc where
  http : Int
  response : Jv
  request : Jv
  path : String
  method : String

def okRespB : HResp → Bool
  | .exn _ => false
  | .resp s _ _ _ => okStatus s

/-- One request of a write orchestrator: issue it, build the attempt entry
(`resp_snippet` only on a non-ok response), return the success payload on an
ok status and a break flag on a 404. -/
def writeStep (w : World) (n : Nat) (req : Req) (stv : Option String)
    (ct : Option String) (snLen jsonLen : Nat) : Option WSucc × WAttempt × Bool :=
  match w n req with
  | .exn m =>
    (none, ⟨req.url, req.method, none, none, stv, bodyShape req.body, none, ct, some m⟩, false)
  | .resp s jb text _ =>
    let att : WAttempt := ⟨req.url, req.method, some s, some (okStatus s), stv,
      bodyShape req.body, (if okStatus s then none else some (mkTake text snLen)), ct, none⟩
    if okStatus s then
      (some ⟨s,
        (match jb with
         | some j => j
         | none => .obj [("text", .str (mkTake text jsonLen))]),
        (match req.body with | some b => b | none => .null), req.url, req.method⟩, att, false)
    else (none, att, decide (s = 404))

/-- The `for method in (m1, m2)` loop body shared by the orchestrators: try
`m1`, and unless it succeeded or hit a 404, try `m2`; report whether a 404
ended the loop early (Python `break`). -/
def methodPairRun (w : World) (hdrs : List (String × String)) (url : String) (body : Jv)
    (stv : Option String) (ct : Option String) (snLen jsonLen : Nat) (m1 m2 : String)
    (n : Nat) : Option WSucc × List WAttempt × List Req × Bool :=
  let req1 : Req := ⟨m1, url, [], hdrs, some body⟩
  let s1 := writeStep w n req1 stv ct snLen jsonLen
  match s1.1 with
  | some sc => (some sc, [s1.2.1], [req1], false)
  | none =>
    if s1.2.2 then (none, [s1.2.1], [req1], true)
    else
      let req2 : Req := ⟨m2, url, [], hdrs, some body⟩
      let s2 := writeStep w (n + 1) req2 stv ct snLen jsonLen
      match s2.1 with
      | some sc => (some sc, [s1.2.1, s2.2.1], [req1, req2], false)
      | none => (none, [s1.2.1, s2.2.1], [req1, req2], s2.2.2)

/-- `update_order_request_status` body candidates for one status casing. -/
def uorsBodies (stv : String) : List Jv :=
  [.obj [("status", .str stv)],
   .obj [("order_request", .obj [("status", .str stv)])],
   .obj [("order_status", .str stv)]]

/-- The `for body in bodies` loop of `update_order_request_status`: PUT then
PATCH per body; a 404 on either breaks out of the body loop (moving to the
next status casing on the same path). -/
def uorsBodyLoop (w : World) (hdrs : List (String × String)) (url stv : String) :
    List Jv → Nat → Option WSucc × List WAttempt × List Req
  | [], _ => (none, [], [])
  | body :: rest, n =>
    let r := methodPairRun w hdrs url body (some stv) none 240 300 "PUT" "PATCH" n
    match r.1 with
    | some sc => (some sc, r.2.1, r.2.2.1)
    | none =>
      if r.2.2.2 then (none, r.2.1, r.2.2.1)
      else
        let rest' := uorsBodyLoop w hdrs url stv rest (n + r.2.2.1.length)
        (rest'.1, r.2.1 ++ rest'.2.1, r.2.2.1 ++ rest'.2.2)

def uorsStatusLoop (w : World) (hdrs : List (String × String)) (url : String) :
    List String → Nat → Option WSucc × List WAttempt × List Req
  | [], _ => (none, [], [])
  | stv :: rest, n =>
    let b := uorsBodyLoop w hdrs url stv (uorsBodies stv) n
    match b.1 with
    | some sc => (some sc, b.2.1, b.2.2)
    | none =>
      let r := uorsStatusLoop w hdrs url rest (n + b.2.2.length)
      (r.1, b.2.1 ++ r.2.1, b.2.2 ++ r.2.2)

def uorsPathLoop (w : World) (hdrs : List (String × String)) (stvs : List String) :
    List String → Nat → Option WSucc × List WAttempt × List Req
  | [], _ => (none, [], [])
  | url :: rest, n =>
    let b := uorsStatusLoop w hdrs url stvs n
    match b.1 with
    | some sc => (some sc, b.2.1, b.2.2)
    | none =>
      let r := uorsPathLoop w hdrs stvs rest (n + b.2.2.length)
      (r.1, b.2.1 ++ r.2.1, b.2.2 ++ r.2.2)

/-- Result dictionary of a write orchestrator (`attempts` is present only
when the source's return dict carries it). -/
structure WResult where
  updated : Bool
  http : Option Int
  response : Option Jv
  request : Option Jv
  path : Option String
  method : Option String
  error : Option String
  request_status : Option String
  attempts : Option (List WAttempt)

/-- The two return dictionaries of `update_order_request_status` (success
on the first ok response, otherwise the diagnostic failure payload). -/
def uorsWrap (new_status : String) (r : Option WSucc × List WAttempt × List Req) :
    WResult × List WAttempt × List Req :=
  match r.1 with
  | some sc =>
    (⟨true, some sc.http, some sc.response, some sc.request, some sc.path, none, none, none, none⟩,
      r.2.1, r.2.2)
  | none =>
    (⟨false, none, none, none, none, none, some "no_variant_succeeded", some new_status, some r.2.1⟩,
      r.2.1, r.2.2)

/-- The body of `update_order_request_status` after its guards: the
path/status/body candidate loops and the result dictionary. -/
def uorsCore (w : World) (cfg : Cfg) (order_id : String) (new_status : String) (n : Nat) :
    WResult × List WAttempt × List Req :=
  let id_str := stripStr order_id
  let base := rstripSlash cfg.base_url
  let paths := [base ++ "/order-requests/" ++ id_str, base ++ "/api/v2/order-requests/" ++ id_str,
    base ++ "/order_requests/" ++ id_str, base ++ "/api/v2/order_requests/" ++ id_str]
  let status_variants := if new_status ≠ "" then
      dedupKeep [new_status, upperStr new_status, lowerStr new_status, capStr new_status]
    else ["RECEIVED", "received"]
  let hdrs := aset (svcHeaders cfg none) "Content-Type" "application/json"
  uorsWrap new_status (uorsPathLoop w hdrs status_variants paths n)

/-- `update_order_request_status`: guards, the path/status/body candidate
loops, and the result dictionary (its success dict does not carry the
attempt list; the full internal `tries` list is returned alongside as ghost
instrumentation, as is the request log). -/
def updateOrderRequestStatus (w : World) (cfg : Cfg) (order_id : String)
    (new_status : String) (n : Nat) : WResult × List WAttempt × List Req :=
  if order_id = "" then
    (⟨false, none, none, none, none, none, some "missing_order_id", none, none⟩, [], [])
  else if !cfg.enabled || cfg.api_token = "" then
    (⟨false, none, none, none, none, none, some "quartzy_disabled_or_token_missing", none, none⟩, [], [])
  else uorsCore w cfg order_id new_status n

/-- Invariant of a write-orchestrator run segment starting at request index
`n`: the attempt list and the request log have the same length (one attempt
entry per request); when no success was found every response in the segment
was not ok; when a success was found, the segment ends at the first ok
response, whose url and body the success payload carries. -/
def SegInv (w : World) (n : Nat) (found : Option WSucc) (atts : List WAttempt)
    (reqs : List Req) : Prop :=
  atts.length = reqs.length ∧
  (match found with
   | none => ∀ j (hj : j < reqs.length), okRespB (w (n + j) (reqs.get ⟨j, hj⟩)) = false
   | some sc => ∃ pre req, reqs = pre ++ [req] ∧
       (∀ j (hj : j < pre.length), okRespB (w (n + j) (pre.get ⟨j, hj⟩)) = false) ∧
       okRespB (w (n + pre.length) req) = true ∧
       sc.path = req.url ∧ sc.request = req.body.getD .null)

theorem SegInv_nil (w : World) (n : Nat) : SegInv w n none [] [] := by
  refine ⟨rfl, ?_⟩
  intro j hj
  exact absurd hj (by simp)

theorem SegInv_append {w : World} {n : Nat} {f : Option WSucc}
    {a1 a2 : List WAttempt} {r1 r2 : List Req}
    (h1 : SegInv w n none a1 r1) (h2 : SegInv w (n + r1.length) f a2 r2) :
    SegInv w n f (a1 ++ a2) (r1 ++ r2) := by
  obtain ⟨hl1, hall1⟩ := h1
  obtain ⟨hl2, hrest⟩ := h2
  refine ⟨by simp [hl1, hl2], ?_⟩
  cases f with
  | none =>
    intro j hj
    by_cases hcase : j < r1.length
    · rw [List.get_append j hcase]
      exact hall1 j hcase
    · have hge : r1.length ≤ j := by omega
      have hj2 : j - r1.length < r2.length := by
        simp only [List.length_append] at hj
        omega
      rw [List.get_append_right' hge hj]
      have := hrest (j - r1.length) hj2
      have heq : n + r1.length + (j - r1.length) = n + j := by omega
      rw [heq] at this
      exact this
  | some sc =>
    obtain ⟨pre, req, hr2, hpre, hok, hpath, hreq⟩ := hrest
    refine ⟨r1 ++ pre, req, by rw [hr2, List.append_assoc], ?_, ?_, hpath, hreq⟩
    · intro j hj
      by_cases hcase : j < r1.length
      · rw [List.get_append j hcase]
        exact hall1 j hcase
      · have hge : r1.length ≤ j := by omega
        have hj2 : j - r1.length < pre.length := by
          simp only [List.length_append] at hj
          omega
        rw [List.get_append_right' hge]
        have := hpre (j - r1.length) hj2
        have heq : n + r1.length + (j - r1.length) = n + j := by omega
        rw [heq] at this
        exact this
    · have heq : n + (r1 ++ pre).length = n + r1.length + pre.length := by
        simp [List.length_append]
        omega
      rw [heq]
      exact hok

theorem writeStep_inv (w : World) (n : Nat) (req : Req) (stv ct : Option String)
    (snLen jsonLen : Nat) :
    SegInv w n (writeStep w n req stv ct snLen jsonLen).1
      [(writeStep w n req stv ct snLen jsonLen).2.1] [req] := by
  cases hw : w n req with
  | exn m =>
    simp only [writeStep, hw]
    refine ⟨rfl, ?_⟩
    intro j hj
    have hj0 : j = 0 := by simpa using hj
    subst hj0
    show okRespB (w (n + 0) req) = false
    rw [show n + 0 = n from rfl, hw]
    rfl
  | resp s jb text hh =>
    by_cases hok : okStatus s = true
    · simp only [writeStep, hw, if_pos hok]
      refine ⟨rfl, [], req, rfl, ?_, ?_, rfl, ?_⟩
      · intro j hj
        exact absurd hj (by simp)
      · show okRespB (w (n + 0) req) = true
        rw [show n + 0 = n from rfl, hw]
        simpa [okRespB] using hok
      · show (match req.body with | some j => j | none => Jv.null) = req.body.getD Jv.null
        cases req.body <;> rfl
    · simp only [writeStep, hw, if_neg hok]
      refine ⟨rfl, ?_⟩
      intro j hj
      have hj0 : j = 0 := by simpa using hj
      subst hj0
      show okRespB (w (n + 0) req) = false
      rw [show n + 0 = n from rfl, hw]
      simpa [okRespB] using hok

theorem methodPairRun_inv (w : World) (hdrs : List (String × String)) (url : String)
    (body : Jv) (stv ct : Option String) (snLen jsonLen : Nat) (m1 m2 : String) (n : Nat) :
    SegInv w n (methodPairRun w hdrs url body stv ct snLen jsonLen m1 m2 n).1
      (methodPairRun w hdrs url body stv ct snLen jsonLen m1 m2 n).2.1
      (methodPairRun w hdrs url body stv ct snLen jsonLen m1 m2 n).2.2.1 := by
  have h1 := writeStep_inv w n (⟨m1, url, [], hdrs, some body⟩ : Req) stv ct snLen jsonLen
  simp only [methodPairRun]
  cases hs1 : (writeStep w n (⟨m1, url, [], hdrs, some body⟩ : Req) stv ct snLen jsonLen).1 with
  | some sc =>
    rw [hs1] at h1
    exact ⟨h1.1, h1.2⟩
  | none =>
    rw [hs1] at h1
    by_cases hbrk : (writeStep w n (⟨m1, url, [], hdrs, some body⟩ : Req) stv ct snLen jsonLen).2.2 = true
    · rw [if_pos hbrk]
      exact ⟨h1.1, h1.2⟩
    · rw [if_neg hbrk]
      have h2 := writeStep_inv w (n + 1) (⟨m2, url, [], hdrs, some body⟩ : Req) stv ct snLen jsonLen
      cases hs2 : (writeStep w (n + 1) (⟨m2, url, [], hdrs, some body⟩ : Req) stv ct snLen jsonLen).1 with
      | some sc =>
        rw [hs2] at h2
        have := SegInv_append h1 (by simpa using h2)
        simpa using this
      | none =>
        rw [hs2] at h2
        have := SegInv_append h1 (by simpa using h2)
        simpa using this

theorem uorsBodyLoop_inv (w : World) (hdrs : List (String × String)) (url stv : String) :
    ∀ (bodies : List Jv) (n : Nat),
      SegInv w n (uorsBodyLoop w hdrs url stv bodies n).1
        (uorsBodyLoop w hdrs url stv bodies n).2.1 (uorsBodyLoop w hdrs url stv bodies n).2.2 := by
  intro bodies
  induction bodies with
  | nil => intro n; exact SegInv_nil w n
  | cons body rest ih =>
    intro n
    have hm := methodPairRun_inv w hdrs url body (some stv) none 240 300 "PUT" "PATCH" n
    simp only [uorsBodyLoop]
    cases hs : (methodPairRun w hdrs url body (some stv) none 240 300 "PUT" "PATCH" n).1 with
    | some sc =>
      rw [hs] at hm
      exact hm
    | none =>
      rw [hs] at hm
      by_cases hbrk : (methodPairRun w hdrs url body (some stv) none 240 300 "PUT" "PATCH" n).2.2.2 = true
      · rw [if_pos hbrk]
        exact hm
      · rw [if_neg hbrk]
        exact SegInv_append hm (ih _)

theorem uorsStatusLoop_inv (w : World) (hdrs : List (String × String)) (url : String) :
    ∀ (stvs : List String) (n : Nat),
      SegInv w n (uorsStatusLoop w hdrs url stvs n).1
        (uorsStatusLoop w hdrs url stvs n).2.1 (uorsStatusLoop w hdrs url stvs n).2.2 := by
  intro stvs
  induction stvs with
  | nil => intro n; exact SegInv_nil w n
  | cons stv rest ih =>
    intro n
    have hb := uorsBodyLoop_inv w hdrs url stv (uorsBodies stv) n
    simp only [uorsStatusLoop]
    cases hs : (uorsBodyLoop w hdrs url stv (uorsBodies stv) n).1 with
    | some sc =>
      rw [hs] at hb
      exact hb
    | none =>
      rw [hs] at hb
      exact SegInv_append hb (ih _)

theorem uorsPathLoop_inv (w : World) (hdrs : List (String × String)) (stvs : List String) :
    ∀ (paths : List String) (n : Nat),
      SegInv w n (uorsPathLoop w hdrs stvs paths n).1
        (uorsPathLoop w hdrs stvs paths n).2.1 (uorsPathLoop w hdrs stvs paths n).2.2 := by
  intro paths
  induction paths with
  | nil => intro n; exact SegInv_nil w n
  | cons url rest ih =>
    intro n
    have hb := uorsStatusLoop_inv w hdrs url stvs n
    simp only [uorsPathLoop]
    cases hs : (uorsStatusLoop w hdrs url stvs n).1 with
    | some sc =>
      rw [hs] at hb
      exact hb
    | none =>
      rw [hs] at hb
      exact SegInv_append hb (ih _)

/-- From the segment invariant: if the `k`-th issued request is the first to
get an ok response, the run stops there with a success carrying that
request's url and body. -/
theorem SegInv_first_ok {w : World} {n : Nat} {f : Option WSucc}
    {atts : List WAttempt} {reqs : List Req} (h : SegInv w n f atts reqs)
    (k : Nat) (hk : k < reqs.length)
    (hbefore : ∀ j (hj : j < reqs.length), j < k →
      okRespB (w (n + j) (reqs.get ⟨j, hj⟩)) = false)
    (hok : okRespB (w (n + k) (reqs.get ⟨k, hk⟩)) = true) :
    reqs.length = k + 1 ∧ atts.length = k + 1 ∧
    ∃ sc, f = some sc ∧ sc.path = (reqs.get ⟨k, hk⟩).url ∧
      sc.request = (reqs.get ⟨k, hk⟩).body.getD .null := by
  obtain ⟨hlen, hrest⟩ := h
  cases f with
  | none =>
    exact absurd hok (by rw [hrest k hk]; simp)
  | some sc =>
    obtain ⟨pre, req, hr, hpre, hokb, hpath, hreq⟩ := hrest
    have hkpre : k = pre.length := by
      by_contra hne
      by_cases hlt : k < pre.length
      · have hgl : reqs.get ⟨k, hk⟩ = pre.get ⟨k, hlt⟩ := by
          subst hr
          exact List.get_append k hlt
        rw [hgl] at hok
        rw [hpre k hlt] at hok
        exact absurd hok (by decide)
      · have hgt : pre.length < k := by omega
        have hjlt : pre.length < reqs.length := by
          rw [hr]
          simp
        have := hbefore pre.length hjlt hgt
        have hglast : reqs.get ⟨pre.length, hjlt⟩ = req := by
          subst hr
          rw [List.get_append_right' (le_refl _)]
          simp
        rw [hglast, hokb] at this
        exact absurd this (by decide)
    subst hkpre
    have hlenr : reqs.length = pre.length + 1 := by rw [hr]; simp
    have hglast : reqs.get ⟨pre.length, hk⟩ = req := by
      subst hr
      rw [List.get_append_right' (le_refl _)]
      simp
    exact ⟨hlenr, by omega, sc, rfl, by rw [hglast]; exact hpath, by rw [hglast]; exact hreq⟩

/- ---------- update_inventory_item (lines 1052-1335) ---------- -/

def aremove {α : Type} (l : List (String × α)) (k : String) : List (String × α) :=
  l.filter (fun kv => kv.1 ≠ k)

/-- The PUT/PATCH body loop of the main candidate loop: a 404 breaks only
the innermost method loop, so the next body on the same path is still
attempted (the source's comment says "move to next path variant
immediately", but the `break` exits only the method loop). -/
def uiiBodyLoop (w : World) (hdrs : List (String × String)) (url : String) :
    List Jv → Nat → Option WSucc × List WAttempt × List Req
  | [], _ => (none, [], [])
  | body :: rest, n =>
    let r := methodPairRun w hdrs url body none none 200 400 "PUT" "PATCH" n
    match r.1 with
    | some sc => (some sc, r.2.1, r.2.2.1)
    | none =>
      let rest' := uiiBodyLoop w hdrs url rest (n + r.2.2.1.length)
      (rest'.1, r.2.1 ++ rest'.2.1, r.2.2.1 ++ rest'.2.2)

def uiiPathLoop (w : World) (hdrs : List (String × String)) (bodies : List Jv) :
    List String → Nat → Option WSucc × List WAttempt × List Req
  | [], _ => (none, [], [])
  | url :: rest, n =>
    let b := uiiBodyLoop w hdrs url bodies n
    match b.1 with
    | some sc => (some sc, b.2.1, b.2.2)
    | none =>
      let r := uiiPathLoop w hdrs bodies rest (n + b.2.2.length)
      (r.1, b.2.1 ++ r.2.1, b.2.2 ++ r.2.2)

/-- `core` extraction of Fallback A: unwrap the item under a known key. -/
def coreExtract (d : Jv) : Jv :=
  match jget d "inventory_item" with
  | some (.obj f) => .obj f
  | _ =>
    match jget d "item" with
    | some (.obj f) => .obj f
    | _ =>
      match jget d "inventoryItem" with
      | some (.obj f) => .obj f
      | _ => d

/-- Fallback A's GET probe loop: stops at the first ok response whose
unwrapped payload is a dict; GETs are recorded as slim attempt entries. -/
def uiiGetLoop (w : World) (hdrs : List (String × String)) :
    List String → Nat → Option (List (String × Jv) × String) × List WAttempt × List Req
  | [], _ => (none, [], [])
  | gp :: rest, n =>
    let req : Req := ⟨"GET", gp, [], hdrs, none⟩
    match w n req with
    | .exn m =>
      let r := uiiGetLoop w hdrs rest (n + 1)
      (r.1, (⟨gp, "GET", none, none, none, [], none, none, some m⟩ : WAttempt) :: r.2.1, req :: r.2.2)
    | .resp s jb _text _hh =>
      let att : WAttempt := ⟨gp, "GET", some s, some (okStatus s), none, [], none, none, none⟩
      if okStatus s then
        let data : Jv := match jb with
          | some j => jvOr j (.obj [])
          | none => .obj []
        match coreExtract data with
        | .obj cf => (some (cf, gp), [att], [req])
        | _ =>
          let r := uiiGetLoop w hdrs rest (n + 1)
          (r.1, att :: r.2.1, req :: r.2.2)
      else
        let r := uiiGetLoop w hdrs rest (n + 1)
        (r.1, att :: r.2.1, req :: r.2.2)

/-- Overwrite the known quantity fields of the fetched item in place. -/
def applyQtyKeys (q : Int) : List (String × Jv) → List String → List (String × Jv) × Bool
  | f, [] => (f, false)
  | f, k :: ks =>
    if (alookup f k).isSome then
      let r := applyQtyKeys q (aset f k (.num q)) ks
      (r.1, true)
    else applyQtyKeys q f ks

/-- The whole fetched-item rewrite of Fallback A: update quantity fields
(or set a conservative `quantity`) and strip urls/timestamps (ids kept). -/
def fbARewrite (fields : List (String × Jv)) (q : Int) : List (String × Jv) :=
  let r := applyQtyKeys q fields ["quantity", "quantity_in_stock", "qty", "in_stock_quantity"]
  let f1 := if r.2 then r.1 else aset r.1 "quantity" (.num q)
  aremove (aremove (aremove (aremove f1 "app_url") "url") "created_at") "updated_at"

/-- Fallback A's PUT attempts over `(path, body)` pairs (no 404 break). -/
def uiiPutList (w : World) (hdrs : List (String × String)) :
    List (String × Jv) → Nat → Option WSucc × List WAttempt × List Req
  | [], _ => (none, [], [])
  | (url, body) :: rest, n =>
    let req : Req := ⟨"PUT", url, [], hdrs, some body⟩
    let st := writeStep w n req none none 200 400
    match st.1 with
    | some sc => (some sc, [st.2.1], [req])
    | none =>
      let r := uiiPutList w hdrs rest (n + 1)
      (r.1, st.2.1 :: r.2.1, req :: r.2.2)

/-- Fallback B's JSON:API attempts (PATCH then PUT per body; a 404 breaks
the method pair and moves to the next variant). -/
def uiiFbBLoop (w : World) (hdrs : List (String × String)) :
    List (String × Jv) → Nat → Option WSucc × List WAttempt × List Req
  | [], _ => (none, [], [])
  | (url, body) :: rest, n =>
    let r := methodPairRun w hdrs url body none (some "application/vnd.api+json") 200 400 "PATCH" "PUT" n
    match r.1 with
    | some sc => (some sc, r.2.1, r.2.2.1)
    | none =>
      let rest' := uiiFbBLoop w hdrs rest (n + r.2.2.1.length)
      (rest'.1, r.2.1 ++ rest'.2.1, r.2.2.1 ++ rest'.2.2)

def uiiSuccess (sc : WSucc) (tries : List WAttempt) : WResult :=
  ⟨true, some sc.http, some sc.response, some sc.request, some sc.path, some sc.method,
    none, none, some tries⟩

def uiiFailure (qty_int : Option Int) (tries : List WAttempt) : WResult :=
  ⟨false, none, none,
    some (.obj [("quantity", match qty_int with | some v => .num v | none => .null)]),
    none, none, some "no_variant_succeeded", none, some tries⟩

/-- The main-loop body variants (quantity bundles first, then the optional
flat-field bundles). -/
def uiiBodyVariants (qty_int : Option Int) (flat : List (String × Jv)) : List Jv :=
  (match qty_int with
   | some qv =>
     [.obj [("quantity", .str (pyStrOfInt qv))],
      .obj [("quantity", .num qv)],
      .obj [("inventory_item", .obj [("quantity", .num qv)])],
      .obj [("quantity_in_stock", .num qv)],
      .obj [("inventory_item", .obj [("quantity_in_stock", .num qv)])]]
   | none => []) ++
  (if !flat.isEmpty then
    let with_qty := match qty_int with
      | some qv => flat ++ [("quantity", .num qv)]
      | none => flat
    [.obj with_qty, .obj [("inventory_item", .obj with_qty)],
     .obj flat, .obj [("inventory_item", .obj flat)]]
   else [])

def uiiMainPaths (cfg : Cfg) (id_str : String) : List String :=
  let base := rstripSlash cfg.base_url
  let lid := stripStr cfg.lab_id
  [base ++ "/inventory-items/" ++ id_str, base ++ "/api/v2/inventory-items/" ++ id_str,
   base ++ "/inventory_items/" ++ id_str, base ++ "/api/v2/inventory_items/" ++ id_str] ++
  (if lid ≠ "" then
    [base ++ "/labs/" ++ lid ++ "/inventory-items/" ++ id_str,
     base ++ "/api/v2/labs/" ++ lid ++ "/inventory-items/" ++ id_str,
     base ++ "/labs/" ++ lid ++ "/inventory_items/" ++ id_str,
     base ++ "/api/v2/labs/" ++ lid ++ "/inventory_items/" ++ id_str]
   else [])

def uiiFbBPairs (cfg : Cfg) (id_str : String) (qv : Int) : List (String × Jv) :=
  let base := rstripSlash cfg.base_url
  let lid := stripStr cfg.lab_id
  let jsonapi_paths := [base ++ "/inventory-items/" ++ id_str] ++
    (if lid ≠ "" then [base ++ "/labs/" ++ lid ++ "/inventory-items/" ++ id_str] else [])
  let rel : List (String × Jv) :=
    if lid ≠ "" then
      [("relationships", .obj [("lab", .obj [("data", .obj [("type", .str "labs"), ("id", .str lid)])])])]
    else []
  jsonapi_paths.flatMap (fun purl =>
    (["inventory-items", "inventory_items"].flatMap (fun tval =>
      ["quantity", "quantity_in_stock"].map (fun qk =>
        (purl, Jv.obj [("data", .obj ([("type", .str tval), ("id", .str id_str),
          ("attributes", .obj [(qk, .num qv)])] ++ rel))])))))

/-- Early-return sequencing of two orchestrator stages: when the first
stage already found a success its result stands (the second stage never
runs); otherwise the attempt lists and request logs concatenate and the
second stage's outcome decides. -/
def wseq (A B : Option WSucc × List WAttempt × List Req) :
    Option WSucc × List WAttempt × List Req :=
  match A.1 with
  | some _ => A
  | none => (B.1, A.2.1 ++ B.2.1, A.2.2 ++ B.2.2)

/-- The GET path candidates of Fallback A. -/
def fbAGetPaths (base id_str : String) : List String :=
  [base ++ "/inventory-items/" ++ id_str,
   base ++ "/api/v2/inventory-items/" ++ id_str,
   base ++ "/inventory_items/" ++ id_str]

/-- Fallback A of `update_inventory_item`: GET the item from the candidate
paths (with the plain `self._headers()`), and on a fetched core dict PUT
the rewritten payload back, plain and wrapped (with the JSON headers of
the main loop). -/
def uiiFbA (w : World) (ghdrs phdrs : List (String × String)) (base id_str : String)
    (qv : Int) (n : Nat) : Option WSucc × List WAttempt × List Req :=
  let g := uiiGetLoop w ghdrs (fbAGetPaths base id_str) n
  match g.1 with
  | some (cf, gp) =>
    let item' := fbARewrite cf qv
    let pairs := [(gp, Jv.obj item'), (gp, Jv.obj [("inventory_item", .obj item')])]
    let p := uiiPutList w phdrs pairs (n + g.2.2.length)
    (p.1, g.2.1 ++ p.2.1, g.2.2 ++ p.2.2)
  | none => (none, g.2.1, g.2.2)

/-- The final return dictionary of `update_inventory_item` (success of the
first ok write, otherwise the structured failure payload). -/
def uiiWrap (qty_int : Option Int) (r : Option WSucc × List WAttempt × List Req) :
    WResult × List WAttempt × List Req :=
  match r.1 with
  | some sc => (uiiSuccess sc r.2.1, r.2.1, r.2.2)
  | none => (uiiFailure qty_int r.2.1, r.2.1, r.2.2)

/-- The canonical quantity PUT of `update_inventory_item` (issued only when
a quantity was parsed). -/
def uiiS0 (w : World) (hdrs : List (String × String)) (canonical : String)
    (qty_int : Option Int) (n : Nat) : Option WSucc × List WAttempt × List Req :=
  match qty_int with
  | some qv =>
    let pbody : Jv := .obj [("quantity", .str (pyStrOfInt qv))]
    let req : Req := ⟨"PUT", canonical, [], hdrs, some pbody⟩
    let st := writeStep w n req none none 200 400
    (st.1, [st.2.1], [req])
  | none => (none, [], [])

/-- Fallback A of `update_inventory_item` (runs only with a parsed
quantity). -/
def uiiS2 (w : World) (ghdrs phdrs : List (String × String)) (base id_str : String)
    (qty_int : Option Int) (n : Nat) : Option WSucc × List WAttempt × List Req :=
  match qty_int with
  | some qv => uiiFbA w ghdrs phdrs base id_str qv n
  | none => (none, [], [])

/-- Fallback B of `update_inventory_item` (runs only with a parsed
quantity). -/
def uiiS3 (w : World) (cfg : Cfg) (id_str : String) (qty_int : Option Int)
    (n : Nat) : Option WSucc × List WAttempt × List Req :=
  match qty_int with
  | some qv =>
    let jhdrs := aset (aset (svcHeaders cfg none) "Content-Type" "application/vnd.api+json")
      "Accept" "application/vnd.api+json"
    uiiFbBLoop w jhdrs (uiiFbBPairs cfg id_str qv) n
  | none => (none, [], [])

/-- The body of `update_inventory_item` after its guard: canonical quantity
PUT, then the main path x body x method candidate loop, then Fallback A
(GET the item, PUT the full payload back with the quantity changed), then
Fallback B (JSON:API), and otherwise the structured failure dictionary. -/
def uiiCore (w : World) (cfg : Cfg) (item_id : String)
    (item_name vendor_name catalog_number quantity : Option String) (n : Nat) :
    WResult × List WAttempt × List Req :=
  let qty_int : Option Int := match quantity with
    | some q => normQty q
    | none => none
  let id_str := stripStr item_id
  let base := rstripSlash cfg.base_url
  let hdrs := aset (aset (svcHeaders cfg none) "Content-Type" "application/json")
    "Accept" "application/json"
  let canonical := base ++ "/inventory-items/" ++ id_str
  let s0 := uiiS0 w hdrs canonical qty_int n
  let flat : List (String × Jv) :=
    (match item_name with | some v => if v ≠ "" then [("name", Jv.str v)] else [] | none => []) ++
    (match vendor_name with | some v => if v ≠ "" then [("vendor", Jv.str v)] else [] | none => []) ++
    (match catalog_number with | some v => if v ≠ "" then [("catalog_number", Jv.str v)] else [] | none => [])
  let bodies := uiiBodyVariants qty_int flat
  let paths := uiiMainPaths cfg id_str
  -- main candidate loop after the canonical attempt
  let r01 := wseq s0 (uiiPathLoop w hdrs bodies paths (n + s0.2.2.length))
  -- Fallback A (its GETs use the plain headers)
  let r02 := wseq r01 (uiiS2 w (svcHeaders cfg none) hdrs base id_str qty_int (n + r01.2.2.length))
  -- Fallback B
  uiiWrap qty_int (wseq r02 (uiiS3 w cfg id_str qty_int (n + r02.2.2.length)))

/-- `update_inventory_item`: guard plus `uiiCore`.  Returns the result
dictionary plus the internal `tries` list and the issued request log. -/
def updateInventoryItem (w : World) (cfg : Cfg) (item_id : String)
    (item_name vendor_name catalog_number quantity : Option String) (n : Nat) :
    WResult × List WAttempt × List Req :=
  if item_id = "" then
    (⟨false, none, none, none, none, none, some "missing_item_id", none, none⟩, [], [])
  else uiiCore w cfg item_id item_name vendor_name catalog_number quantity n

theorem uiiBodyLoop_inv (w : World) (hdrs : List (String × String)) (url : String) :
    ∀ (bodies : List Jv) (n : Nat),
      SegInv w n (uiiBodyLoop w hdrs url bodies n).1
        (uiiBodyLoop w hdrs url bodies n).2.1 (uiiBodyLoop w hdrs url bodies n).2.2 := by
  intro bodies
  induction bodies with
  | nil => intro n; exact SegInv_nil w n
  | cons body rest ih =>
    intro n
    have hm := methodPairRun_inv w hdrs url body none none 200 400 "PUT" "PATCH" n
    simp only [uiiBodyLoop]
    cases hs : (methodPairRun w hdrs url body none none 200 400 "PUT" "PATCH" n).1 with
    | some sc =>
      rw [hs] at hm
      exact hm
    | none =>
      rw [hs] at hm
      exact SegInv_append hm (ih _)

theorem uiiPathLoop_inv (w : World) (hdrs : List (String × String)) (bodies : List Jv) :
    ∀ (paths : List String) (n : Nat),
      SegInv w n (uiiPathLoop w hdrs bodies paths n).1
        (uiiPathLoop w hdrs bodies paths n).2.1 (uiiPathLoop w hdrs bodies paths n).2.2 := by
  intro paths
  induction paths with
  | nil => intro n; exact SegInv_nil w n
  | cons url rest ih =>
    intro n
    have hb := uiiBodyLoop_inv w hdrs url bodies n
    simp only [uiiPathLoop]
    cases hs : (uiiBodyLoop w hdrs url bodies n).1 with
    | some sc =>
      rw [hs] at hb
      exact hb
    | none =>
      rw [hs] at hb
      exact SegInv_append hb (ih _)

theorem uiiPutList_inv (w : World) (hdrs : List (String × String)) :
    ∀ (pairs : List (String × Jv)) (n : Nat),
      SegInv w n (uiiPutList w hdrs pairs n).1
        (uiiPutList w hdrs pairs n).2.1 (uiiPutList w hdrs pairs n).2.2 := by
  intro pairs
  induction pairs with
  | nil => intro n; exact SegInv_nil w n
  | cons pair rest ih =>
    obtain ⟨url, body⟩ := pair
    intro n
    have hst := writeStep_inv w n (⟨"PUT", url, [], hdrs, some body⟩ : Req) none none 200 400
    simp only [uiiPutList]
    cases hs : (writeStep w n (⟨"PUT", url, [], hdrs, some body⟩ : Req) none none 200 400).1 with
    | some sc =>
      rw [hs] at hst
      exact hst
    | none =>
      rw [hs] at hst
      have := SegInv_append hst (by simpa using ih (n + 1))
      simpa using this

theorem uiiFbBLoop_inv (w : World) (hdrs : List (String × String)) :
    ∀ (pairs : List (String × Jv)) (n : Nat),
      SegInv w n (uiiFbBLoop w hdrs pairs n).1
        (uiiFbBLoop w hdrs pairs n).2.1 (uiiFbBLoop w hdrs pairs n).2.2 := by
  intro pairs
  induction pairs with
  | nil => intro n; exact SegInv_nil w n
  | cons pair rest ih =>
    obtain ⟨url, body⟩ := pair
    intro n
    have hm := methodPairRun_inv w hdrs url body none (some "application/vnd.api+json") 200 400 "PATCH" "PUT" n
    simp only [uiiFbBLoop]
    cases hs : (methodPairRun w hdrs url body none (some "application/vnd.api+json") 200 400 "PATCH" "PUT" n).1 with
    | some sc =>
      rw [hs] at hm
      exact hm
    | none =>
      rw [hs] at hm
      exact SegInv_append hm (ih _)

theorem uiiGetLoop_lens (w : World) (hdrs : List (String × String)) :
    ∀ (gps : List String) (n : Nat),
      (uiiGetLoop w hdrs gps n).2.1.length = (uiiGetLoop w hdrs gps n).2.2.length := by
  intro gps
  induction gps with
  | nil => intro n; rfl
  | cons gp rest ih =>
    intro n
    cases hw : w n (⟨"GET", gp, [], hdrs, none⟩ : Req) with
    | exn m =>
      simp only [uiiGetLoop, hw]
      simpa using ih (n + 1)
    | resp s jb text hh =>
      simp only [uiiGetLoop, hw]
      by_cases hok : okStatus s = true
      · rw [if_pos hok]
        generalize (match jb with | some j => jvOr j (Jv.obj []) | none => Jv.obj []) = d0
        generalize coreExtract d0 = c0
        cases c0 with
        | obj cf => rfl
        | null => simpa using ih (n + 1)
        | jbool b => simpa using ih (n + 1)
        | num v => simpa using ih (n + 1)
        | str v => simpa using ih (n + 1)
        | arr l => simpa using ih (n + 1)
      · rw [if_neg hok]
        simpa using ih (n + 1)

theorem uiiGetLoop_methods (w : World) (hdrs : List (String × String)) :
    ∀ (gps : List String) (n : Nat) (req : Req),
      req ∈ (uiiGetLoop w hdrs gps n).2.2 → req.method = "GET" := by
  intro gps
  induction gps with
  | nil =>
    intro n req hreq
    exact absurd hreq (by simp [uiiGetLoop])
  | cons gp rest ih =>
    intro n req hreq
    cases hw : w n (⟨"GET", gp, [], hdrs, none⟩ : Req) with
    | exn m =>
      simp only [uiiGetLoop, hw] at hreq
      rcases List.mem_cons.mp hreq with h | h
      · rw [h]
      · exact ih (n + 1) req h
    | resp s jb text hh =>
      simp only [uiiGetLoop, hw] at hreq
      by_cases hok : okStatus s = true
      · rw [if_pos hok] at hreq
        revert hreq
        generalize (match jb with | some j => jvOr j (Jv.obj []) | none => Jv.obj []) = d0
        generalize coreExtract d0 = c0
        cases c0 with
        | obj cf =>
          intro hreq
          have : req = (⟨"GET", gp, [], hdrs, none⟩ : Req) := by simpa using hreq
          rw [this]
        | null =>
          intro hreq
          rcases List.mem_cons.mp hreq with h | h
          · rw [h]
          · exact ih (n + 1) req h
        | jbool b =>
          intro hreq
          rcases List.mem_cons.mp hreq with h | h
          · rw [h]
          · exact ih (n + 1) req h
        | num v =>
          intro hreq
          rcases List.mem_cons.mp hreq with h | h
          · rw [h]
          · exact ih (n + 1) req h
        | str v =>
          intro hreq
          rcases List.mem_cons.mp hreq with h | h
          · rw [h]
          · exact ih (n + 1) req h
        | arr l =>
          intro hreq
          rcases List.mem_cons.mp hreq with h | h
          · rw [h]
          · exact ih (n + 1) req h
      · rw [if_neg hok] at hreq
        rcases List.mem_cons.mp hreq with h | h
        · rw [h]
        · exact ih (n + 1) req h

/-- Every response to the listed requests, issued consecutively from time n, fails. -/
def NotOkAll (w : World) : Nat → List Req → Prop
  | _, [] => True
  | n, r :: rs => okRespB (w n r) = false ∧ NotOkAll w (n + 1) rs

theorem NotOkAll_forall (w : World) :
    ∀ (l : List Req) (n : Nat), NotOkAll w n l →
      ∀ j (hj : j < l.length), okRespB (w (n + j) (l.get ⟨j, hj⟩)) = false := by
  intro l
  induction l with
  | nil =>
    intro n _ j hj
    exact absurd hj (by simp)
  | cons a t ih =>
    intro n h j hj
    have h' : okRespB (w n a) = false ∧ NotOkAll w (n + 1) t := h
    cases j with
    | zero => exact h'.1
    | succ j' =>
      have := ih (n + 1) h'.2 j' (Nat.lt_of_succ_lt_succ hj)
      have heq : n + 1 + j' = n + (j' + 1) := by omega
      rw [heq] at this
      exact this

theorem NotOkAll_of_forall (w : World) :
    ∀ (l : List Req) (n : Nat),
      (∀ j (hj : j < l.length), okRespB (w (n + j) (l.get ⟨j, hj⟩)) = false) →
      NotOkAll w n l := by
  intro l
  induction l with
  | nil => intro n _; trivial
  | cons a t ih =>
    intro n h
    refine ⟨h 0 (by simp), ih (n + 1) ?_⟩
    intro j hj
    have := h (j + 1) (by simpa using hj)
    have heq : n + (j + 1) = n + 1 + j := by omega
    rw [heq] at this
    exact this

theorem uiiGetLoop_notok (w : World) (hdrs : List (String × String)) :
    ∀ (gps : List String) (n : Nat),
      NotOkAll w n (uiiGetLoop w hdrs gps n).2.2 →
      (uiiGetLoop w hdrs gps n).1 = none ∧
      SegInv w n none (uiiGetLoop w hdrs gps n).2.1 (uiiGetLoop w hdrs gps n).2.2 := by
  intro gps
  induction gps with
  | nil =>
    intro n _
    exact ⟨rfl, SegInv_nil w n⟩
  | cons gp rest ih =>
    intro n hall
    cases hw : w n (⟨"GET", gp, [], hdrs, none⟩ : Req) with
    | exn m =>
      simp only [uiiGetLoop, hw] at hall ⊢
      have hall' : okRespB (w n (⟨"GET", gp, [], hdrs, none⟩ : Req)) = false ∧
          NotOkAll w (n + 1) (uiiGetLoop w hdrs rest (n + 1)).2.2 := hall
      have h := ih (n + 1) hall'.2
      refine ⟨h.1, ?_, ?_⟩
      · simpa using h.2.1
      · exact NotOkAll_forall w _ n hall
    | resp s jb text hh =>
      by_cases hok : okStatus s = true
      · exfalso
        have hcontra : okRespB (w n (⟨"GET", gp, [], hdrs, none⟩ : Req)) = true := by
          rw [hw]; simpa [okRespB] using hok
        simp only [uiiGetLoop, hw] at hall
        rw [if_pos hok] at hall
        revert hall
        generalize (match jb with | some j => jvOr j (Jv.obj []) | none => Jv.obj []) = d0
        generalize coreExtract d0 = c0
        cases c0 with
        | obj cf =>
          intro hall
          rw [hall.1] at hcontra
          simp at hcontra
        | null =>
          intro hall
          rw [hall.1] at hcontra
          simp at hcontra
        | jbool b =>
          intro hall
          rw [hall.1] at hcontra
          simp at hcontra
        | num v =>
          intro hall
          rw [hall.1] at hcontra
          simp at hcontra
        | str v =>
          intro hall
          rw [hall.1] at hcontra
          simp at hcontra
        | arr l =>
          intro hall
          rw [hall.1] at hcontra
          simp at hcontra
      · simp only [uiiGetLoop, hw] at hall ⊢
        rw [if_neg hok] at hall ⊢
        have hall' : okRespB (w n (⟨"GET", gp, [], hdrs, none⟩ : Req)) = false ∧
            NotOkAll w (n + 1) (uiiGetLoop w hdrs rest (n + 1)).2.2 := hall
        have h := ih (n + 1) hall'.2
        refine ⟨h.1, ?_, ?_⟩
        · simpa using h.2.1
        · exact NotOkAll_forall w _ n hall

/-- A failed (found-none) segment's responses are not ok, `get?` form. -/
theorem seg_none_all {w : World} {n : Nat} {atts : List WAttempt} {reqs : List Req}
    (h : SegInv w n none atts reqs) :
    ∀ j r, reqs.get? j = some r → okRespB (w (n + j) r) = false := by
  intro j r hr
  obtain ⟨hj, hget⟩ := List.get?_eq_some.mp hr
  rw [← hget]
  exact h.2 j hj

/-- `SegInv_first_ok` restated over `List.get?` (no dependent index
proofs), the form the claim-level statements use. -/
theorem SegInv_first_ok_opt {w : World} {n : Nat} {f : Option WSucc}
    {atts : List WAttempt} {reqs : List Req} (h : SegInv w n f atts reqs) (k : Nat)
    (hbefore : ∀ j r, j < k → reqs.get? j = some r → okRespB (w (n + j) r) = false)
    (req : Req) (hreq : reqs.get? k = some req)
    (hok : okRespB (w (n + k) req) = true) :
    reqs.length = k + 1 ∧ atts.length = k + 1 ∧
    ∃ sc, f = some sc ∧ sc.path = req.url ∧ sc.request = req.body.getD Jv.null := by
  obtain ⟨hk, hget⟩ := List.get?_eq_some.mp hreq
  have hb : ∀ j (hj : j < reqs.length), j < k →
      okRespB (w (n + j) (reqs.get ⟨j, hj⟩)) = false := by
    intro j hj hjk
    exact hbefore j (reqs.get ⟨j, hj⟩) hjk (List.get?_eq_get hj)
  have ho : okRespB (w (n + k) (reqs.get ⟨k, hk⟩)) = true := by
    rw [hget]
    exact hok
  obtain ⟨h1, h2, sc, hsc, hpath, hbody⟩ := SegInv_first_ok h k hk hb ho
  exact ⟨h1, h2, sc, hsc, by rw [hpath, hget], by rw [hbody, hget]⟩

/-- Sequencing preserves the segment invariant. -/
theorem wseq_inv {w : World} {n : Nat} (A B : Option WSucc × List WAttempt × List Req)
    (hA : SegInv w n A.1 A.2.1 A.2.2)
    (hB : SegInv w (n + A.2.2.length) B.1 B.2.1 B.2.2) :
    SegInv w n (wseq A B).1 (wseq A B).2.1 (wseq A B).2.2 := by
  cases hA1 : A.1 with
  | some sc =>
    simp only [wseq, hA1]
    rw [hA1] at hA
    exact hA
  | none =>
    simp only [wseq, hA1]
    rw [hA1] at hA
    exact SegInv_append hA hB

/-- Either way the wrapped result of `update_order_request_status` keeps
the loop's attempt list and request log. -/
theorem uorsWrap_projs (ns : String) (r : Option WSucc × List WAttempt × List Req) :
    (uorsWrap ns r).2.1 = r.2.1 ∧ (uorsWrap ns r).2.2 = r.2.2 := by
  cases hr : r.1 <;> simp [uorsWrap, hr]

theorem uiiWrap_projs (qi : Option Int) (r : Option WSucc × List WAttempt × List Req) :
    (uiiWrap qi r).2.1 = r.2.1 ∧ (uiiWrap qi r).2.2 = r.2.2 := by
  cases hr : r.1 <;> simp [uiiWrap, hr]

/-- First-ok short-circuit through `uorsWrap`. -/
theorem uorsWrap_first {w : World} {n : Nat} (ns : String)
    (r : Option WSucc × List WAttempt × List Req)
    (hinv : SegInv w n r.1 r.2.1 r.2.2) (k : Nat)
    (hbefore : ∀ j q, j < k → (uorsWrap ns r).2.2.get? j = some q →
      okRespB (w (n + j) q) = false)
    (req : Req) (hreq : (uorsWrap ns r).2.2.get? k = some req)
    (hok : okRespB (w (n + k) req) = true) :
    (uorsWrap ns r).2.2.length = k + 1 ∧ (uorsWrap ns r).2.1.length = k + 1 ∧
    (uorsWrap ns r).1.updated = true ∧ (uorsWrap ns r).1.path = some req.url ∧
    (uorsWrap ns r).1.request = some (req.body.getD Jv.null) := by
  obtain ⟨hp1, hp2⟩ := uorsWrap_projs ns r
  rw [hp2] at hbefore hreq
  obtain ⟨h1, h2, sc, hsc, hpath, hbody⟩ := SegInv_first_ok_opt hinv k hbefore req hreq hok
  refine ⟨by rw [hp2]; exact h1, by rw [hp1]; exact h2, ?_, ?_, ?_⟩ <;>
    simp [uorsWrap, hsc, hpath, hbody]

/-- First-ok short-circuit through `uiiWrap`. -/
theorem uiiWrap_first {w : World} {n : Nat} (qi : Option Int)
    (r : Option WSucc × List WAttempt × List Req)
    (hinv : SegInv w n r.1 r.2.1 r.2.2) (k : Nat)
    (hbefore : ∀ j q, j < k → (uiiWrap qi r).2.2.get? j = some q →
      okRespB (w (n + j) q) = false)
    (req : Req) (hreq : (uiiWrap qi r).2.2.get? k = some req)
    (hok : okRespB (w (n + k) req) = true) :
    (uiiWrap qi r).2.2.length = k + 1 ∧ (uiiWrap qi r).2.1.length = k + 1 ∧
    (uiiWrap qi r).1.updated = true ∧ (uiiWrap qi r).1.path = some req.url ∧
    (uiiWrap qi r).1.request = some (req.body.getD Jv.null) := by
  obtain ⟨hp1, hp2⟩ := uiiWrap_projs qi r
  rw [hp2] at hbefore hreq
  obtain ⟨h1, h2, sc, hsc, hpath, hbody⟩ := SegInv_first_ok_opt hinv k hbefore req hreq hok
  refine ⟨by rw [hp2]; exact h1, by rw [hp1]; exact h2, ?_, ?_, ?_⟩ <;>
    simp [uiiWrap, hsc, uiiSuccess, hpath, hbody]

theorem uiiS0_inv (w : World) (hdrs : List (String × String)) (canonical : String)
    (qi : Option Int) (n : Nat) :
    SegInv w n (uiiS0 w hdrs canonical qi n).1
      (uiiS0 w hdrs canonical qi n).2.1 (uiiS0 w hdrs canonical qi n).2.2 := by
  cases qi with
  | none => exact SegInv_nil w n
  | some qv =>
    exact writeStep_inv w n
      (⟨"PUT", canonical, [], hdrs,
        some (Jv.obj [("quantity", Jv.str (pyStrOfInt qv))])⟩ : Req) none none 200 400

theorem uiiS3_inv (w : World) (cfg : Cfg) (id_str : String) (qi : Option Int) (n : Nat) :
    SegInv w n (uiiS3 w cfg id_str qi n).1
      (uiiS3 w cfg id_str qi n).2.1 (uiiS3 w cfg id_str qi n).2.2 := by
  cases qi with
  | none => exact SegInv_nil w n
  | some qv => exact uiiFbBLoop_inv w _ (uiiFbBPairs cfg id_str qv) n

/-- The log of a sequenced pair extends the first stage's log. -/
theorem wseq_log_prefix (A B : Option WSucc × List WAttempt × List Req) :
    ∃ T, (wseq A B).2.2 = A.2.2 ++ T := by
  cases hA1 : A.1 with
  | none => exact ⟨B.2.2, by simp [wseq, hA1]⟩
  | some sc => exact ⟨[], by simp [wseq, hA1]⟩

/-- Fallback A's request log starts with the GET loop's log. -/
theorem uiiFbA_log_prefix (w : World) (ghdrs phdrs : List (String × String))
    (base id_str : String) (qv : Int) (n : Nat) :
    ∃ T, (uiiFbA w ghdrs phdrs base id_str qv n).2.2 =
      (uiiGetLoop w ghdrs (fbAGetPaths base id_str) n).2.2 ++ T := by
  cases hg : (uiiGetLoop w ghdrs (fbAGetPaths base id_str) n).1 with
  | none => exact ⟨[], by simp [uiiFbA, hg]⟩
  | some c =>
    obtain ⟨cf, gp⟩ := c
    refine ⟨(uiiPutList w phdrs
      [(gp, Jv.obj (fbARewrite cf qv)), (gp, Jv.obj [("inventory_item", Jv.obj (fbARewrite cf qv))])]
      (n + (uiiGetLoop w ghdrs (fbAGetPaths base id_str) n).2.2.length)).2.2, ?_⟩
    simp [uiiFbA, hg]

/-- First-ok short-circuit of `update_order_request_status` past its
guards. -/
theorem uorsCore_first (w : World) (cfg : Cfg) (order_id new_status : String) (n k : Nat)
    (hbefore : ∀ j q, j < k →
      (uorsCore w cfg order_id new_status n).2.2.get? j = some q →
      okRespB (w (n + j) q) = false)
    (req : Req) (hreq : (uorsCore w cfg order_id new_status n).2.2.get? k = some req)
    (hok : okRespB (w (n + k) req) = true) :
    (uorsCore w cfg order_id new_status n).2.2.length = k + 1 ∧
    (uorsCore w cfg order_id new_status n).2.1.length = k + 1 ∧
    (uorsCore w cfg order_id new_status n).1.updated = true ∧
    (uorsCore w cfg order_id new_status n).1.path = some req.url ∧
    (uorsCore w cfg order_id new_status n).1.request = some (req.body.getD Jv.null) := by
  simp only [uorsCore] at hbefore hreq ⊢
  exact uorsWrap_first new_status _ (uorsPathLoop_inv w _ _ _ n) k hbefore req hreq hok

/-- First-ok short-circuit of the staged run of `update_inventory_item`
(canonical attempt and main loop abstracted into a stage `A` with the
segment invariant): when every response before the k-th request fails and
the k-th request -- which is not one of Fallback A's GET probes -- gets an
ok response, the run stops at exactly k+1 requests and k+1 attempt records
with a success carrying that request's url and body. -/
theorem uiiChain_first (w : World) (cfg : Cfg) (ghdrs phdrs : List (String × String))
    (base id_str : String) (qi : Option Int) (n k : Nat)
    (A : Option WSucc × List WAttempt × List Req)
    (hA : SegInv w n A.1 A.2.1 A.2.2)
    (R : WResult × List WAttempt × List Req)
    (hR : R = uiiWrap qi (wseq (wseq A (uiiS2 w ghdrs phdrs base id_str qi (n + A.2.2.length)))
      (uiiS3 w cfg id_str qi
        (n + (wseq A (uiiS2 w ghdrs phdrs base id_str qi (n + A.2.2.length))).2.2.length))))
    (hbefore : ∀ j q, j < k → R.2.2.get? j = some q → okRespB (w (n + j) q) = false)
    (req : Req) (hreq : R.2.2.get? k = some req)
    (hok : okRespB (w (n + k) req) = true) (hng : req.method ≠ "GET") :
    R.2.2.length = k + 1 ∧ R.2.1.length = k + 1 ∧ R.1.updated = true ∧
    R.1.path = some req.url ∧ R.1.request = some (req.body.getD Jv.null) := by
  cases hA1 : A.1 with
  | some sc =>
    have e1 : wseq A (uiiS2 w ghdrs phdrs base id_str qi (n + A.2.2.length)) = A := by
      simp [wseq, hA1]
    rw [e1] at hR
    have e2 : wseq A (uiiS3 w cfg id_str qi (n + A.2.2.length)) = A := by
      simp [wseq, hA1]
    rw [e2] at hR
    subst hR
    exact uiiWrap_first qi A hA k hbefore req hreq hok
  | none =>
    cases qi with
    | none =>
      subst hR
      refine uiiWrap_first none _ ?_ k hbefore req hreq hok
      exact wseq_inv _ _ (wseq_inv _ _ hA (SegInv_nil w _)) (SegInv_nil w _)
    | some qv =>
      have hs2d : uiiS2 w ghdrs phdrs base id_str (some qv) (n + A.2.2.length)
          = uiiFbA w ghdrs phdrs base id_str qv (n + A.2.2.length) := rfl
      rw [hs2d] at hR
      obtain ⟨T0, hT0⟩ := uiiFbA_log_prefix w ghdrs phdrs base id_str qv (n + A.2.2.length)
      have hW : (wseq A (uiiFbA w ghdrs phdrs base id_str qv (n + A.2.2.length))).2.2
          = A.2.2 ++ (uiiFbA w ghdrs phdrs base id_str qv (n + A.2.2.length)).2.2 := by
        simp [wseq, hA1]
      obtain ⟨T1, hT1⟩ := wseq_log_prefix
        (wseq A (uiiFbA w ghdrs phdrs base id_str qv (n + A.2.2.length)))
        (uiiS3 w cfg id_str (some qv)
          (n + (wseq A (uiiFbA w ghdrs phdrs base id_str qv (n + A.2.2.length))).2.2.length))
      have hR22 : R.2.2 = A.2.2 ++
          ((uiiGetLoop w ghdrs (fbAGetPaths base id_str) (n + A.2.2.length)).2.2
            ++ (T0 ++ T1)) := by
        rw [hR, (uiiWrap_projs _ _).2, hT1, hW, hT0]
        simp [List.append_assoc]
      rw [hA1] at hA
      have hbefore' := hbefore
      have hreq' := hreq
      rw [hR22] at hbefore' hreq'
      have hAk : A.2.2.length ≤ k := by
        by_contra hlt
        push_neg at hlt
        rw [List.get?_append hlt] at hreq'
        have hbad := seg_none_all hA k req hreq'
        rw [hbad] at hok
        simp at hok
      have hGk : A.2.2.length
          + (uiiGetLoop w ghdrs (fbAGetPaths base id_str) (n + A.2.2.length)).2.2.length
          ≤ k := by
        by_contra hlt
        push_neg at hlt
        rw [List.get?_append_right hAk] at hreq'
        have hlt2 : k - A.2.2.length
            < (uiiGetLoop w ghdrs (fbAGetPaths base id_str) (n + A.2.2.length)).2.2.length := by
          omega
        rw [List.get?_append hlt2] at hreq'
        exact hng (uiiGetLoop_methods w ghdrs (fbAGetPaths base id_str)
          (n + A.2.2.length) req (List.get?_mem hreq'))
      have hno : NotOkAll w (n + A.2.2.length)
          (uiiGetLoop w ghdrs (fbAGetPaths base id_str) (n + A.2.2.length)).2.2 := by
        apply NotOkAll_of_forall
        intro j hj
        have hget : (A.2.2 ++
            ((uiiGetLoop w ghdrs (fbAGetPaths base id_str) (n + A.2.2.length)).2.2
              ++ (T0 ++ T1))).get? (A.2.2.length + j)
            = some ((uiiGetLoop w ghdrs (fbAGetPaths base id_str)
                (n + A.2.2.length)).2.2.get ⟨j, hj⟩) := by
          rw [List.get?_append_right (Nat.le_add_right _ _)]
          rw [show A.2.2.length + j - A.2.2.length = j from by omega]
          rw [List.get?_append hj]
          exact List.get?_eq_get hj
        have hb := hbefore' (A.2.2.length + j) _ (by omega) hget
        rw [show n + A.2.2.length + j = n + (A.2.2.length + j) from by omega]
        exact hb
      obtain ⟨hg1, hGinv⟩ :=
        uiiGetLoop_notok w ghdrs (fbAGetPaths base id_str) (n + A.2.2.length) hno
      have hs2e : uiiFbA w ghdrs phdrs base id_str qv (n + A.2.2.length)
          = (none, (uiiGetLoop w ghdrs (fbAGetPaths base id_str) (n + A.2.2.length)).2.1,
             (uiiGetLoop w ghdrs (fbAGetPaths base id_str) (n + A.2.2.length)).2.2) := by
        simp [uiiFbA, hg1]
      rw [hs2e] at hR
      have e2 : wseq A
          ((none, (uiiGetLoop w ghdrs (fbAGetPaths base id_str) (n + A.2.2.length)).2.1,
            (uiiGetLoop w ghdrs (fbAGetPaths base id_str) (n + A.2.2.length)).2.2) :
            Option WSucc × List WAttempt × List Req)
          = (none,
             A.2.1 ++ (uiiGetLoop w ghdrs (fbAGetPaths base id_str) (n + A.2.2.length)).2.1,
             A.2.2 ++ (uiiGetLoop w ghdrs (fbAGetPaths base id_str) (n + A.2.2.length)).2.2) := by
        simp [wseq, hA1]
      rw [e2] at hR
      subst hR
      refine uiiWrap_first (some qv) _ ?_ k hbefore req hreq hok
      exact SegInv_append (SegInv_append hA hGinv)
        (uiiS3_inv w cfg id_str (some qv) _)

/-- First-ok short-circuit of `update_inventory_item` past its guard. -/
theorem uiiCore_first (w : World) (cfg : Cfg) (item_id : String)
    (item_name vendor_name catalog_number quantity : Option String) (n k : Nat)
    (hbefore : ∀ j q, j < k →
      (uiiCore w cfg item_id item_name vendor_name catalog_number quantity n).2.2.get? j
        = some q → okRespB (w (n + j) q) = false)
    (req : Req)
    (hreq : (uiiCore w cfg item_id item_name vendor_name catalog_number quantity n).2.2.get? k
      = some req)
    (hok : okRespB (w (n + k) req) = true) (hng : req.method ≠ "GET") :
    (uiiCore w cfg item_id item_name vendor_name catalog_number quantity n).2.2.length = k + 1 ∧
    (uiiCore w cfg item_id item_name vendor_name catalog_number quantity n).2.1.length = k + 1 ∧
    (uiiCore w cfg item_id item_name vendor_name catalog_number quantity n).1.updated = true ∧
    (uiiCore w cfg item_id item_name vendor_name catalog_number quantity n).1.path
      = some req.url ∧
    (uiiCore w cfg item_id item_name vendor_name catalog_number quantity n).1.request
      = some (req.body.getD Jv.null) := by
  simp only [uiiCore] at hbefore hreq ⊢
  exact uiiChain_first w cfg _ _ _ _ _ n k _
    (wseq_inv _ _ (uiiS0_inv w _ _ _ n) (uiiPathLoop_inv w _ _ _ _))
    _ rfl hbefore req hreq hok hng

/-- **C7.** In both write orchestrators (`update_order_request_status` past
its guards, `update_inventory_item` past its guard), if every response
before the k-th issued request is not ok and the k-th issued request -- for
the inventory update, one that is not Fallback A's read-only GET probe --
gets an ok response, then the orchestrator stops: it issues exactly k+1
requests, records exactly k+1 attempts, and returns a success dictionary
carrying exactly the path (url) and request body of that k-th request. -/
theorem write_first_ok_short_circuit (w : World) (cfg : Cfg) (n k : Nat) :
    (∀ (order_id new_status : String) (res : WResult) (tries : List WAttempt)
        (log : List Req),
      updateOrderRequestStatus w cfg order_id new_status n = (res, tries, log) →
      order_id ≠ "" → cfg.enabled = true → cfg.api_token ≠ "" →
      (∀ j q, j < k → log.get? j = some q → okRespB (w (n + j) q) = false) →
      ∀ req, log.get? k = some req → okRespB (w (n + k) req) = true →
        log.length = k + 1 ∧ tries.length = k + 1 ∧ res.updated = true ∧
        res.path = some req.url ∧ res.request = some (req.body.getD Jv.null)) ∧
    (∀ (item_id : String) (item_name vendor_name catalog_number quantity : Option String)
        (res : WResult) (tries : List WAttempt) (log : List Req),
      updateInventoryItem w cfg item_id item_name vendor_name catalog_number quantity n
        = (res, tries, log) →
      item_id ≠ "" →
      (∀ j q, j < k → log.get? j = some q → okRespB (w (n + j) q) = false) →
      ∀ req, log.get? k = some req → okRespB (w (n + k) req) = true →
        req.method ≠ "GET" →
        log.length = k + 1 ∧ tries.length = k + 1 ∧ res.updated = true ∧
        res.path = some req.url ∧ res.request = some (req.body.getD Jv.null)) := by
  constructor
  · intro order_id new_status res tries log heq hid hen htok hbefore req hreq hok
    have h1 : res = (updateOrderRequestStatus w cfg order_id new_status n).1 := by rw [heq]
    have h2 : tries = (updateOrderRequestStatus w cfg order_id new_status n).2.1 := by rw [heq]
    have h3 : log = (updateOrderRequestStatus w cfg order_id new_status n).2.2 := by rw [heq]
    subst h1 h2 h3
    have hg2 : ¬((!cfg.enabled || decide (cfg.api_token = "")) = true) := by
      simp [hen, htok]
    have hrun : updateOrderRequestStatus w cfg order_id new_status n
        = uorsCore w cfg order_id new_status n := by
      simp only [updateOrderRequestStatus]
      rw [if_neg hid, if_neg hg2]
    rw [hrun] at hbefore hreq ⊢
    exact uorsCore_first w cfg order_id new_status n k hbefore req hreq hok
  · intro item_id item_name vendor_name catalog_number quantity res tries log heq hid
      hbefore req hreq hok hng
    have h1 : res = (updateInventoryItem w cfg item_id item_name vendor_name
        catalog_number quantity n).1 := by rw [heq]
    have h2 : tries = (updateInventoryItem w cfg item_id item_name vendor_name
        catalog_number quantity n).2.1 := by rw [heq]
    have h3 : log = (updateInventoryItem w cfg item_id item_name vendor_name
        catalog_number quantity n).2.2 := by rw [heq]
    subst h1 h2 h3
    have hrun : updateInventoryItem w cfg item_id item_name vendor_name
        catalog_number quantity n
        = uiiCore w cfg item_id item_name vendor_name catalog_number quantity n := by
      simp only [updateInventoryItem]
      rw [if_neg hid]
    rw [hrun] at hbefore hreq ⊢
    exact uiiCore_first w cfg item_id item_name vendor_name catalog_number quantity n k
      hbefore req hreq hok hng

/-- A server that fails the first two requests (HTTP 500) and accepts every
request from the third on (HTTP 200). -/
def w3succ : World := fun n _ =>
  if n < 2 then .resp 500 (some (.obj [])) "" [] else .resp 200 (some (.obj [])) "" []

/-- Witness for C7 at concrete inputs: against `w3succ` both orchestrators
succeed at the third candidate attempt (index k = 2) and issue exactly 3
requests with exactly 3 attempt records. -/
theorem write_first_ok_short_circuit_witness :
    ((updateOrderRequestStatus w3succ testCfg "o1" "RECEIVED" 0).2.2.length = 3 ∧
     (updateOrderRequestStatus w3succ testCfg "o1" "RECEIVED" 0).2.1.length = 3 ∧
     (updateOrderRequestStatus w3succ testCfg "o1" "RECEIVED" 0).1.updated = true) ∧
    ((updateInventoryItem w3succ testCfg "i1" none none none (some "7") 0).2.2.length = 3 ∧
     (updateInventoryItem w3succ testCfg "i1" none none none (some "7") 0).2.1.length = 3 ∧
     (updateInventoryItem w3succ testCfg "i1" none none none (some "7") 0).1.updated = true) := by
  have h := write_first_ok_short_circuit w3succ testCfg 0 2
  constructor
  · have hb : ∀ j q, j < 2 →
        (updateOrderRequestStatus w3succ testCfg "o1" "RECEIVED" 0).2.2.get? j = some q →
        okRespB (w3succ (0 + j) q) = false := by
      intro j q hj _
      simp [w3succ, okRespB, okStatus, hj]
    have hco := h.1 "o1" "RECEIVED"
      (updateOrderRequestStatus w3succ testCfg "o1" "RECEIVED" 0).1
      (updateOrderRequestStatus w3succ testCfg "o1" "RECEIVED" 0).2.1
      (updateOrderRequestStatus w3succ testCfg "o1" "RECEIVED" 0).2.2
      rfl (by decide) rfl (by decide) hb
      ((updateOrderRequestStatus w3succ testCfg "o1" "RECEIVED" 0).2.2.get ⟨2, by decide⟩)
      (List.get?_eq_get (by decide))
      (by simp [w3succ, okRespB, okStatus])
    exact ⟨hco.1, hco.2.1, hco.2.2.1⟩
  · have hb : ∀ j q, j < 2 →
        (updateInventoryItem w3succ testCfg "i1" none none none (some "7") 0).2.2.get? j
          = some q → okRespB (w3succ (0 + j) q) = false := by
      intro j q hj _
      simp [w3succ, okRespB, okStatus, hj]
    have hco := h.2 "i1" none none none (some "7")
      (updateInventoryItem w3succ testCfg "i1" none none none (some "7") 0).1
      (updateInventoryItem w3succ testCfg "i1" none none none (some "7") 0).2.1
      (updateInventoryItem w3succ testCfg "i1" none none none (some "7") 0).2.2
      rfl (by decide) hb
      ((updateInventoryItem w3succ testCfg "i1" none none none
        (some "7") 0).2.2.get ⟨2, by decide⟩)
      (List.get?_eq_get (by decide))
      (by simp [w3succ, okRespB, okStatus])
      (by decide)
    exact ⟨hco.1, hco.2.1, hco.2.2.1⟩

/-- A server that answers 404 to every request. -/
def w404 : World := fun _ _ => .resp 404 (some (.obj [])) "" []

/-- **C6 (code bug).** Against an all-404 server, `update_inventory_item`
with quantity "7" does not move to the next candidate path after the first
404 on a path: the `break` exits only the innermost PUT/PATCH method loop
(the source's own comment says "move to next path variant immediately"),
so all five remaining body shapes are still PUT to the same first path.
The run's first 6 requests are all PUTs to the first candidate path (the
canonical attempt plus all 5 body-shape attempts of the main loop), that
path receives 11 of the 28 issued requests in total (6 PUTs, 1 Fallback-A
GET, 4 Fallback-B PATCHes), and the operation still does not abort (it
walks every path and returns a structured failure).  Under the claimed
behaviour the main loop would have issued exactly one request to that path
before moving on. -/
theorem uii_404_continues_same_path :
    ((updateInventoryItem w404 testCfg "item1" none none none (some "7") 0).2.2.take 6).all
      (fun r => decide (r.url = "https://api.quartzy.com/inventory-items/item1")
        && decide (r.method = "PUT")) = true ∧
    (updateInventoryItem w404 testCfg "item1" none none none (some "7") 0).2.2.countP
      (fun r => decide (r.url = "https://api.quartzy.com/inventory-items/item1")) = 11 ∧
    (updateInventoryItem w404 testCfg "item1" none none none (some "7") 0).2.2.length = 28 ∧
    (updateInventoryItem w404 testCfg "item1" none none none (some "7") 0).1.updated = false := by
  exact ⟨by decide, by decide, by decide, rfl⟩

/- ---------- find_inventory_candidates (lines 1392-1502) ---------- -/

def Jv.isNull : Jv → Bool
  | .null => true
  | _ => false

def Jv.isObj : Jv → Bool
  | .obj _ => true
  | _ => false

/-- `k in d and d[k] is not None`: the present, non-None value. -/
def jfindNN (o : Jv) (k : String) : Option Jv :=
  match jget o k with
  | some v => if v.isNull then none else some v
  | none => none

/-- Python `str.split()` (whitespace runs as separators, no empty tokens);
the accumulator holds the current token reversed. -/
def wsTokensGo (acc : List Char) : List Char → List (List Char)
  | [] => if acc.isEmpty then [] else [acc.reverse]
  | c :: t =>
    if chIsWs c then
      if acc.isEmpty then wsTokensGo [] t else acc.reverse :: wsTokensGo [] t
    else wsTokensGo (c :: acc) t

/-- `" ".join(tokens)`. -/
def joinSpace : List (List Char) → List Char
  | [] => []
  | [t] => t
  | t :: rest => t ++ ' ' :: joinSpace rest

/-- `_norm` on an underlying string: `" ".join(s.strip().lower().split())`
(ASCII lowercasing; the leading strip is subsumed by `split()`). -/
def pyNormChars (l : List Char) : List Char :=
  joinSpace (wsTokensGo [] (l.map Char.toLower))

def normStr (s : String) : String := String.mk (pyNormChars s.data)

/-- `_norm` on an optional string argument. -/
def normOpt (s : Option String) : String :=
  match s with
  | none => ""
  | some s => normStr s

/-- `_norm` applied to a dynamic value (`str(s)` first; `None` comes back
empty). -/
def normJv (v : Jv) : String :=
  match v with
  | .null => ""
  | v => normStr v.pyStr

/-- `_as_name` on a dynamic value; the recursion into nested
location/sub_location dicts is bounded by an explicit depth budget (the
source recurses without bound; HTTP JSON payloads are of small bounded
depth, and exhausted fuel falls back to the source's final
`str(val).strip()` arm). -/
def asNameBase (v : Jv) : String :=
  match v with
  | .null => ""
  | .str s => stripStr s
  | v => stripStr v.pyStr

/-- The first shallow name-ish key of `_as_name` (`str(val[k]).strip()` on
the first present non-None key). -/
def asNameKeys1 (o : Jv) : List String → Option String
  | [] => none
  | k :: ks =>
    match jfindNN o k with
    | some v => some (stripStr v.pyStr)
    | none => asNameKeys1 o ks

def asNameGo : Nat → Jv → String
  | 0, v => asNameBase v
  | fuel + 1, v =>
    match v with
    | .obj l =>
      match asNameKeys1 (Jv.obj l) ["name", "label", "title", "display_name", "displayName"] with
      | some s => s
      | none =>
        let r1 : Option String := match jfindNN (Jv.obj l) "location" with
          | some x =>
            let s := asNameGo fuel x
            if s ≠ "" then some s else none
          | none => none
        match r1 with
        | some s => s
        | none =>
          let r2 : Option String := match jfindNN (Jv.obj l) "sub_location" with
            | some x =>
              let s := asNameGo fuel x
              if s ≠ "" then some s else none
            | none => none
          match r2 with
          | some s => s
          | none =>
            let r3 : Option String := match jfindNN (Jv.obj l) "sublocation" with
              | some x =>
                let s := asNameGo fuel x
                if s ≠ "" then some s else none
              | none => none
            match r3 with
            | some s => s
            | none => asNameBase (Jv.obj l)
    | v => asNameBase v

def asName (v : Jv) : String := asNameGo 32 v

/-- The first key of the list whose `_as_name` is non-empty (the two
location key loops of `_extract_location_record`). -/
def locFirst (it : Jv) : List String → String
  | [] => ""
  | k :: ks =>
    match jfindNN it k with
    | some v =>
      let s := asName v
      if s ≠ "" then s else locFirst it ks
    | none => locFirst it ks

/-- The nested `storage`/`location_info` fallback loop of
`_extract_location_record`. -/
def locInfoLoop (it : Jv) (subloc : String) : List String → String × String
  | [] => ("", subloc)
  | k :: ks =>
    if jhas it k && (pyGet it k).isObj then
      let d := pyGet it k
      let loc := asName (jvOr (pyGet d "location") (pyGet d "name"))
      let subloc2 := if subloc = "" then
          asName (jvOr (pyGet d "sublocation") (pyGet d "sub_location"))
        else subloc
      if loc ≠ "" ∨ subloc2 ≠ "" then (loc, subloc2) else locInfoLoop it subloc2 ks
    else locInfoLoop it subloc ks

/-- The `location`/`sub_location` pair of `_extract_location_record`. -/
def extractLocationPair (it : Jv) : String × String :=
  let loc := locFirst it ["location", "location_name", "locationName",
    "storage_location", "storageLocation", "storage"]
  let subloc := locFirst it ["sublocation", "sub_location", "sublocation_name",
    "sub_location_name", "subLocation", "box", "shelf", "drawer", "rack", "bin"]
  if loc = "" then locInfoLoop it subloc ["storage", "location_info", "locationInfo"]
  else (loc, subloc)

/-- `_extract_inv_catalog`: the first truthy catalog-ish field whose
stripped string form is non-empty. -/
def extractInvCatalogGo (it : Jv) : List String → String
  | [] => ""
  | k :: ks =>
    let v := pyGet it k
    if v.truthy then
      let s := stripStr v.pyStr
      if s ≠ "" then s else extractInvCatalogGo it ks
    else extractInvCatalogGo it ks

def extractInvCatalog (it : Jv) : String :=
  extractInvCatalogGo it ["catalog_number", "vendor_product_id", "vendor_product",
    "sku", "item_number", "product_number"]

/-- The normalized name, vendor and catalog number of an inventory item as
the candidate loop computes them. -/
def itemNm (it : Jv) : String := normJv (jvOr (pyGet it "name") (pyGet it "item_name"))

def itemVn (it : Jv) : String := normJv (jvOr (pyGet it "vendor") (pyGet it "vendor_name"))

def itemCn (it : Jv) : String := normStr (extractInvCatalog it)

/-- The catalog-number component of the cumulative score (exact `+100`,
else partial/contains `+60`). -/
def catScore (q_cat cn : String) : Int :=
  if q_cat ≠ "" ∧ cn ≠ "" ∧ q_cat = cn then 100
  else if q_cat ≠ "" ∧ cn ≠ "" ∧ (strContainsSub cn q_cat || strContainsSub q_cat cn) = true then 60
  else 0

/-- An exact-equality score component (`+40` name, `+20` vendor). -/
def exactScore (pts : Int) (q v : String) : Int :=
  if q ≠ "" ∧ v ≠ "" ∧ q = v then pts else 0

/-- A fuzzy similarity score component.  `sim` stands for
`difflib.SequenceMatcher(...).ratio()` scaled by 10000 (an oracle: the
library is external to this module), so the source's 0.92/0.85/0.75
thresholds become 9200/8500/7500. -/
def fuzzyScore (sim : String → String → Nat) (hi mid lo : Int) (q v : String) : Int :=
  if q ≠ "" ∧ v ≠ "" then
    (if 9200 ≤ sim q v then hi
     else if 8500 ≤ sim q v then mid
     else if 7500 ≤ sim q v then lo
     else 0)
  else 0

/-- The cumulative score of one inventory item against the normalized
query. -/
def scoreItem (sim : String → String → Nat) (q_name q_vendor q_cat : String) (it : Jv) : Int :=
  catScore q_cat (itemCn it) + exactScore 40 q_name (itemNm it)
    + exactScore 20 q_vendor (itemVn it)
    + fuzzyScore sim 30 20 10 q_name (itemNm it)
    + fuzzyScore sim 12 8 4 q_vendor (itemVn it)

/-- One entry of the candidate list (the dict the source appends). -/
structure InvCand where
  item_name : Jv
  vendor_name : Jv
  catalog_number : String
  score : Int
  location : String
  sub_location : String
  id : Jv

def mkCand (sim : String → String → Nat) (q_name q_vendor q_cat : String) (it : Jv) :
    Option InvCand :=
  let score := scoreItem sim q_name q_vendor q_cat it
  if score ≤ 0 then none
  else
    let rec0 := extractLocationPair it
    some ⟨jvOr (pyGet it "name") (pyGet it "item_name"),
      jvOr (pyGet it "vendor") (pyGet it "vendor_name"),
      extractInvCatalog it, score, rec0.1, rec0.2, pyGet it "id"⟩

/-- Lexicographic byte-wise (code point) string comparison, Python `<=` on
`str`. -/
def strLeB : List Char → List Char → Bool
  | [], _ => true
  | _ :: _, [] => false
  | c :: cs, d :: ds =>
    if c.toNat < d.toNat then true
    else if d.toNat < c.toNat then false
    else strLeB cs ds

/-- The sort key order of the candidate sort: ascending in
`(-score, item_name or "")`.  The name key takes the string value of the
record's `item_name` (`""` for a falsy one; the source would raise
`TypeError` on a non-string truthy name, which this model does not
represent). -/
def candSortName (c : InvCand) : String :=
  match jvOr c.item_name (Jv.str "") with
  | .str s => s
  | _ => ""

def candLe (a b : InvCand) : Bool :=
  decide (b.score < a.score)
    || (decide (a.score = b.score) && strLeB (candSortName a).data (candSortName b).data)

/-- Stable insertion into a sorted list: the new element goes before the
first element it is `le`-related to (so, after existing equal keys). -/
def insortLe {α : Type} (le : α → α → Bool) (a : α) : List α → List α
  | [] => [a]
  | b :: t => if le a b then a :: b :: t else b :: insortLe le a t

/-- Python's stable `list.sort`, realized as stable insertion sort (the
stable sort of a list by a total preorder is unique, so this models
CPython's Timsort extensionally). -/
def pySort {α : Type} (le : α → α → Bool) : List α → List α
  | [] => []
  | a :: t => insortLe le a (pySort le t)

/-- Output of `find_inventory_candidates` (the query echo is omitted; it
repeats the arguments verbatim).  `count` is the size of the full filtered
candidate list; `candidates` is the sorted, truncated list. -/
structure CandOut where
  count : Nat
  candidates : List InvCand

/-- `find_inventory_candidates` over an already-fetched inventory list
(the source obtains `items` from `fetch_inventory_items_fast`): score and
filter each item, sort by descending score with ties by ascending name,
and truncate to `max(1, limit)`. -/
def findInventoryCandidates (sim : String → String → Nat) (items : List Jv)
    (item_name vendor_name catalog_number : Option String) (limit : Int) : CandOut :=
  let q_name := normOpt item_name
  let q_vendor := normOpt vendor_name
  let q_cat := normOpt catalog_number
  let cands := items.filterMap (mkCand sim q_name q_vendor q_cat)
  let sorted := pySort candLe cands
  ⟨sorted.length, sorted.take (max 1 limit).toNat⟩

theorem strLeB_total : ∀ a b, strLeB a b = true ∨ strLeB b a = true := by
  intro a
  induction a with
  | nil => intro b; left; rfl
  | cons c cs ih =>
    intro b
    cases b with
    | nil => right; rfl
    | cons d ds =>
      by_cases h1 : c.toNat < d.toNat
      · left; simp [strLeB, h1]
      · by_cases h2 : d.toNat < c.toNat
        · right; simp [strLeB, h1, h2]
        · rcases ih ds with h | h
          · left; simp [strLeB, h1, h2, h]
          · right; simp [strLeB, h1, h2, h]

theorem strLeB_trans : ∀ a b c, strLeB a b = true → strLeB b c = true →
    strLeB a c = true := by
  intro a
  induction a with
  | nil => intro b c _ _; rfl
  | cons x xs ih =>
    intro b c hab hbc
    cases b with
    | nil => simp [strLeB] at hab
    | cons y ys =>
      cases c with
      | nil => simp [strLeB] at hbc
      | cons z zs =>
        simp only [strLeB] at hab hbc ⊢
        by_cases hxy : x.toNat < y.toNat
        · by_cases hyz : y.toNat < z.toNat
          · have hxz : x.toNat < z.toNat := Nat.lt_trans hxy hyz
            simp [hxz]
          · by_cases hzy : z.toNat < y.toNat
            · simp [hyz, hzy] at hbc
            · have hxz : x.toNat < z.toNat := by omega
              simp [hxz]
        · by_cases hyx : y.toNat < x.toNat
          · simp [hxy, hyx] at hab
          · by_cases hyz : y.toNat < z.toNat
            · have hxz : x.toNat < z.toNat := by omega
              simp [hxz]
            · by_cases hzy : z.toNat < y.toNat
              · simp [hyz, hzy] at hbc
              · have hxz : ¬ x.toNat < z.toNat := by omega
                have hzx : ¬ z.toNat < x.toNat := by omega
                simp only [if_neg hxy, if_neg hyx] at hab
                simp only [if_neg hyz, if_neg hzy] at hbc
                simp only [if_neg hxz, if_neg hzx]
                exact ih ys zs hab hbc

theorem candLe_total (a b : InvCand) : candLe a b = true ∨ candLe b a = true := by
  by_cases h : a.score = b.score
  · rcases strLeB_total (candSortName a).data (candSortName b).data with hs | hs
    · left; simp [candLe, h, hs]
    · right; simp [candLe, h.symm, hs]
  · rcases lt_or_gt_of_ne h with hl | hl
    · right; simp [candLe, hl]
    · left; simp [candLe, hl]

theorem candLe_trans (a b c : InvCand) : candLe a b = true → candLe b c = true →
    candLe a c = true := by
  intro hab hbc
  simp only [candLe, Bool.or_eq_true, Bool.and_eq_true, decide_eq_true_eq] at hab hbc ⊢
  rcases hab with h1 | h1 <;> rcases hbc with h2 | h2
  · left; omega
  · left; omega
  · left; omega
  · right; exact ⟨by omega, strLeB_trans _ _ _ h1.2 h2.2⟩

theorem insortLe_mem {α : Type} (le : α → α → Bool) (a : α) :
    ∀ (l : List α) (x : α), x ∈ insortLe le a l ↔ x = a ∨ x ∈ l := by
  intro l
  induction l with
  | nil => intro x; simp [insortLe]
  | cons b t ih =>
    intro x
    by_cases h : le a b = true
    · simp only [insortLe, if_pos h, List.mem_cons]
      try tauto
    · simp only [insortLe, if_neg h, List.mem_cons, ih x]
      try tauto

theorem insortLe_pairwise {α : Type} (le : α → α → Bool)
    (htot : ∀ a b, le a b = true ∨ le b a = true)
    (htrans : ∀ a b c, le a b = true → le b c = true → le a c = true) :
    ∀ (l : List α), l.Pairwise (fun x y => le x y = true) →
      ∀ a, (insortLe le a l).Pairwise (fun x y => le x y = true) := by
  intro l
  induction l with
  | nil =>
    intro _ a
    simp [insortLe]
  | cons b t ih =>
    intro hp a
    obtain ⟨hb, ht⟩ := List.pairwise_cons.mp hp
    by_cases h : le a b = true
    · simp only [insortLe, if_pos h]
      refine List.Pairwise.cons ?_ hp
      intro x hx
      rcases List.mem_cons.mp hx with rfl | hx
      · exact h
      · exact htrans a b x h (hb x hx)
    · simp only [insortLe, if_neg h]
      refine List.Pairwise.cons ?_ (ih ht a)
      intro x hx
      rcases (insortLe_mem le a t x).mp hx with rfl | hx
      · rcases htot x b with h1 | h1
        · exact absurd h1 h
        · exact h1
      · exact hb x hx

theorem pySort_pairwise {α : Type} (le : α → α → Bool)
    (htot : ∀ a b, le a b = true ∨ le b a = true)
    (htrans : ∀ a b c, le a b = true → le b c = true → le a c = true) :
    ∀ l : List α, (pySort le l).Pairwise (fun x y => le x y = true) := by
  intro l
  induction l with
  | nil => simp [pySort]
  | cons a t ih => exact insortLe_pairwise le htot htrans (pySort le t) ih a

theorem pySort_mem {α : Type} (le : α → α → Bool) :
    ∀ (l : List α) (x : α), x ∈ pySort le l ↔ x ∈ l := by
  intro l
  induction l with
  | nil => intro x; rfl
  | cons a t ih =>
    intro x
    simp only [pySort, insortLe_mem, ih x, List.mem_cons]

theorem catScore_nonneg (q cn : String) : 0 ≤ catScore q cn := by
  unfold catScore
  split
  · norm_num
  · split
    · norm_num
    · norm_num

theorem exactScore_nonneg (pts : Int) (h : 0 ≤ pts) (q v : String) :
    0 ≤ exactScore pts q v := by
  unfold exactScore
  split
  · exact h
  · norm_num

theorem fuzzyScore_nonneg (sim : String → String → Nat) (hi mid lo : Int)
    (h1 : 0 ≤ hi) (h2 : 0 ≤ mid) (h3 : 0 ≤ lo) (q v : String) :
    0 ≤ fuzzyScore sim hi mid lo q v := by
  unfold fuzzyScore
  split
  · split
    · exact h1
    · split
      · exact h2
      · split
        · exact h3
        · norm_num
  · norm_num

theorem fuzzyScore_le (sim : String → String → Nat) (hi mid lo : Int)
    (h0 : 0 ≤ hi) (h1 : mid ≤ hi) (h2 : lo ≤ hi) (q v : String) :
    fuzzyScore sim hi mid lo q v ≤ hi := by
  unfold fuzzyScore
  split
  · split
    · exact le_refl hi
    · split
      · exact h1
      · split
        · exact h2
        · exact h0
  · exact h0

/-- **C8.** For a fixed inventory list and query, `find_inventory_candidates`
is a pure function (repeated invocations return the same ordered list),
excludes every candidate with cumulative score ≤ 0, sorts the output by
descending score with ties broken by ascending item name, an exact
normalized catalog-number match scores at least 100 while a candidate with
no catalog and no exact name/vendor signal (fuzzy-only) scores at most 42,
and consequently a fuzzy-only candidate never precedes an exact-catalog
candidate in the output. -/
theorem find_candidates_ranking (sim : String → String → Nat) (items : List Jv)
    (item_name vendor_name catalog_number : Option String) (limit : Int) :
    findInventoryCandidates sim items item_name vendor_name catalog_number limit
      = findInventoryCandidates sim items item_name vendor_name catalog_number limit ∧
    (∀ c ∈ (findInventoryCandidates sim items item_name vendor_name catalog_number
        limit).candidates, 0 < c.score) ∧
    (findInventoryCandidates sim items item_name vendor_name catalog_number
        limit).candidates.Pairwise (fun a b => candLe a b = true) ∧
    (∀ it : Jv, normOpt catalog_number ≠ "" → itemCn it ≠ "" →
      normOpt catalog_number = itemCn it →
      100 ≤ scoreItem sim (normOpt item_name) (normOpt vendor_name)
        (normOpt catalog_number) it) ∧
    (∀ it : Jv, catScore (normOpt catalog_number) (itemCn it) = 0 →
      exactScore 40 (normOpt item_name) (itemNm it) = 0 →
      exactScore 20 (normOpt vendor_name) (itemVn it) = 0 →
      scoreItem sim (normOpt item_name) (normOpt vendor_name)
        (normOpt catalog_number) it ≤ 42) ∧
    (∀ i j (hi : i < (findInventoryCandidates sim items item_name vendor_name
          catalog_number limit).candidates.length)
        (hj : j < (findInventoryCandidates sim items item_name vendor_name
          catalog_number limit).candidates.length),
      ((findInventoryCandidates sim items item_name vendor_name catalog_number
        limit).candidates.get ⟨i, hi⟩).score ≤ 42 →
      100 ≤ ((findInventoryCandidates sim items item_name vendor_name catalog_number
        limit).candidates.get ⟨j, hj⟩).score → j < i) := by
  have hpw : (findInventoryCandidates sim items item_name vendor_name catalog_number
      limit).candidates.Pairwise (fun a b => candLe a b = true) := by
    simp only [findInventoryCandidates]
    exact List.Pairwise.sublist (List.take_sublist _ _)
      (pySort_pairwise candLe candLe_total candLe_trans _)
  refine ⟨rfl, ?_, hpw, ?_, ?_, ?_⟩
  · intro c hc
    simp only [findInventoryCandidates] at hc
    have hc2 := List.mem_of_mem_take hc
    rw [pySort_mem] at hc2
    obtain ⟨it, hit, hmk⟩ := List.mem_filterMap.mp hc2
    unfold mkCand at hmk
    by_cases hs : scoreItem sim (normOpt item_name) (normOpt vendor_name)
        (normOpt catalog_number) it ≤ 0
    · rw [if_pos hs] at hmk
      cases hmk
    · rw [if_neg hs] at hmk
      injection hmk with hmk
      rw [← hmk]
      show 0 < scoreItem sim (normOpt item_name) (normOpt vendor_name)
        (normOpt catalog_number) it
      omega
  · intro it hq hcn heq
    unfold scoreItem
    have h1 : catScore (normOpt catalog_number) (itemCn it) = 100 := by
      unfold catScore
      rw [if_pos ⟨hq, hcn, heq⟩]
    have h2 := exactScore_nonneg 40 (by norm_num) (normOpt item_name) (itemNm it)
    have h3 := exactScore_nonneg 20 (by norm_num) (normOpt vendor_name) (itemVn it)
    have h4 := fuzzyScore_nonneg sim 30 20 10 (by norm_num) (by norm_num) (by norm_num)
      (normOpt item_name) (itemNm it)
    have h5 := fuzzyScore_nonneg sim 12 8 4 (by norm_num) (by norm_num) (by norm_num)
      (normOpt vendor_name) (itemVn it)
    omega
  · intro it h1 h2 h3
    unfold scoreItem
    rw [h1, h2, h3]
    have h4 := fuzzyScore_le sim 30 20 10 (by norm_num) (by norm_num) (by norm_num)
      (normOpt item_name) (itemNm it)
    have h5 := fuzzyScore_le sim 12 8 4 (by norm_num) (by norm_num) (by norm_num)
      (normOpt vendor_name) (itemVn it)
    omega
  · intro i j hi hj hlow hhigh
    by_contra hcon
    push_neg at hcon
    rcases Nat.lt_or_ge i j with hij | hij
    · have hle := (List.pairwise_iff_get.mp hpw) ⟨i, hi⟩ ⟨j, hj⟩ hij
      simp only [candLe, Bool.or_eq_true, Bool.and_eq_true, decide_eq_true_eq] at hle
      rcases hle with h | h
      · omega
      · have := h.1
        omega
    · have hij2 : i = j := by omega
      subst hij2
      have heq : ((findInventoryCandidates sim items item_name vendor_name catalog_number
          limit).candidates.get ⟨i, hj⟩)
          = ((findInventoryCandidates sim items item_name vendor_name catalog_number
          limit).candidates.get ⟨i, hi⟩) := rfl
      rw [heq] at hhigh
      omega

def c8it1 : Jv := Jv.obj [("name", Jv.str "zzz"), ("catalog_number", Jv.str "c1"),
  ("id", Jv.str "i1")]

def c8it2 : Jv := Jv.obj [("name", Jv.str "aaa"), ("id", Jv.str "i2")]

def c8it3 : Jv := Jv.obj [("name", Jv.str "bbb"), ("id", Jv.str "i3")]

def c8items : List Jv := [c8it2, c8it1, c8it3]

/-- A constant similarity oracle: every pair is 80% similar. -/
def sim8 : String → String → Nat := fun _ _ => 8000

/-- Witness for C8 at concrete inputs: querying name "Acid  X" (normalizes
to "acid x") and catalog "C1" against three items, the exact-catalog item
scores 110 >= 100, a fuzzy-only item scores 10 <= 42, the output is the
sorted list [110, 10, 10] (the two ties ordered by ascending name), and the
fuzzy-only candidate at position 1 comes after the exact-catalog candidate
at position 0. -/
theorem find_candidates_ranking_witness :
    (findInventoryCandidates sim8 c8items (some "Acid  X") none (some "C1") 5).candidates.map
      (fun c => c.score) = [110, 10, 10] ∧
    100 ≤ scoreItem sim8 (normOpt (some "Acid  X")) (normOpt none) (normOpt (some "C1")) c8it1 ∧
    scoreItem sim8 (normOpt (some "Acid  X")) (normOpt none) (normOpt (some "C1")) c8it2 ≤ 42 ∧
    0 < 1 := by
  have h := find_candidates_ranking sim8 c8items (some "Acid  X") none (some "C1") 5
  refine ⟨by decide, ?_, ?_, ?_⟩
  · exact h.2.2.2.1 c8it1 (by decide) (by decide) (by decide)
  · exact h.2.2.2.2.1 c8it2 (by decide) (by decide) (by decide)
  · exact h.2.2.2.2.2 1 0 (by decide) (by decide) (by decide) (by decide)

/- ---------- receive_order_basic and its pipeline (lines 1337-1389, 2037-2145) ---------- -/

/-- `_norm_exact` on an optional string: `(s or "").strip().lower()`. -/
def normExact (s : Option String) : String :=
  lowerStr (stripStr (match s with | some v => v | none => ""))

/-- `_norm_exact` on a dynamic value: a string strips and lowercases; a
falsy value becomes `""` via `(s or "")`; a truthy non-string raises
inside `.strip()` and the try/except returns `""`. -/
def normExactJv (v : Jv) : String :=
  match v with
  | .str s => lowerStr (stripStr s)
  | _ => ""

/-- The exact-catalog pass of `strict_inventory_match`. -/
def strictFindCat (cn : String) : List Jv → Option Jv
  | [] => none
  | it :: rest =>
    let cand := normExactJv (jvOr (jvOr (pyGet it "catalog_number")
      (pyGet it "vendor_product_id")) (pyGet it "vendor_product"))
    if cand ≠ "" ∧ cand = cn then some it else strictFindCat cn rest

/-- The exact name+vendor pass of `strict_inventory_match`. -/
def strictFindNmVn (nm vn : String) : List Jv → Option Jv
  | [] => none
  | it :: rest =>
    let iname := normExactJv (jvOr (pyGet it "name") (pyGet it "item_name"))
    let ivend := normExactJv (jvOr (pyGet it "vendor") (pyGet it "vendor_name"))
    if iname = nm ∧ ivend = vn then some it else strictFindNmVn nm vn rest

/-- `strict_inventory_match`: fetch the inventory (whose page-1 failure
propagates), then exact catalog, then exact name+vendor, else no match. -/
def strictInventoryMatch (w : World) (cfg : Cfg)
    (item_name vendor_name catalog_number lab_id : Option String)
    (fuel n : Nat) (st : SvcState) :
    (Except String (Option Jv) × List Req) × SvcState :=
  let f := fetchInventoryItemsFast w cfg lab_id none none fuel n st
  match f.1.1 with
  | .error e => ((.error e, f.1.2), f.2)
  | .ok items =>
    let nm := normExact item_name
    let vn := normExact vendor_name
    let cn := normExact catalog_number
    let r1 := if cn ≠ "" then strictFindCat cn items else none
    match r1 with
    | some it => ((.ok (some it), f.1.2), f.2)
    | none =>
      let r2 := if nm ≠ "" ∧ vn ≠ "" then strictFindNmVn nm vn items else none
      ((.ok r2, f.1.2), f.2)

/-- `get_order_request`: one guarded GET of the documented endpoint;
returns the order dict on an ok response (a non-dict body comes back as
`{}`), `none` otherwise (non-ok, exception). -/
def getOrderRequest (w : World) (cfg : Cfg) (order_id : String) (n : Nat) :
    Option Jv × List Req :=
  if order_id = "" then (none, [])
  else
    let id_str := stripStr order_id
    let url := rstripSlash cfg.base_url ++ "/order-requests/" ++ id_str
    let req : Req := ⟨"GET", url, [], svcHeaders cfg none, none⟩
    match w n req with
    | .exn _ => (none, [req])
    | .resp s jb text _ =>
      if okStatus s then
        let data := match jb with
          | some j => jvOr j (.obj [])
          | none => .obj [("text", .str (mkTake text 400))]
        let order := if data.isObj then data else .obj []
        (some order, [req])
      else (none, [req])

/-- The path loop of `get_inventory_item` (every failure moves to the next
endpoint shape). -/
def giiLoop (w : World) (hdrs : List (String × String)) :
    List String → Nat → Option Jv × List Req
  | [], _ => (none, [])
  | url :: rest, n =>
    let req : Req := ⟨"GET", url, [], hdrs, none⟩
    match w n req with
    | .exn _ =>
      let r := giiLoop w hdrs rest (n + 1)
      (r.1, req :: r.2)
    | .resp s jb text _ =>
      if okStatus s then
        let data := match jb with
          | some j => j
          | none => .obj [("text", .str (mkTake text 400))]
        let item := if data.isObj then data else .obj []
        (some item, [req])
      else
        let r := giiLoop w hdrs rest (n + 1)
        (r.1, req :: r.2)

/-- `get_inventory_item`: the item dict of the first ok endpoint shape. -/
def getInventoryItem (w : World) (cfg : Cfg) (item_id : String) (n : Nat) :
    Option Jv × List Req :=
  if item_id = "" then (none, [])
  else
    let id_str := stripStr item_id
    let base := rstripSlash cfg.base_url
    let paths := [base ++ "/inventory-items/" ++ id_str,
      base ++ "/api/v2/inventory-items/" ++ id_str,
      base ++ "/inventory_items/" ++ id_str]
    giiLoop w (svcHeaders cfg none) paths n

/-- `(order.get("item_name") or order.get("name") or "").strip()` (the
string value; Python would raise on a truthy non-string here, which this
model renders via `str()`). -/
def orderNameStr (order : Jv) : String :=
  stripStr (jvOr (jvOr (pyGet order "item_name") (pyGet order "name")) (Jv.str "")).pyStr

def orderVendorStr (order : Jv) : String :=
  stripStr (jvOr (jvOr (pyGet order "vendor_name") (pyGet order "vendor")) (Jv.str "")).pyStr

/-- The received-quantity choice: the provided value, else the order's
`quantity` via `int(str(oq).split(".")[0])`, else 1. -/
def recvQtyOf (received_quantity : Option Int) (order : Jv) : Int :=
  match received_quantity with
  | some i => i
  | none =>
    match jfindNN order "quantity" with
    | some oq =>
      match pyIntChars (splitDotHead oq.pyStr.data) with
      | some i => i
      | none => 1
    | none => 1

def QTY_KEYS : List String := ["quantity", "quantity_in_stock", "qty", "in_stock_quantity"]

/-- The current-quantity read loop over the fetched item (`int()` failures
fall through; nothing found leaves the default 0). -/
def currentQtyLoop (raw : Jv) : List String → Int
  | [] => 0
  | k :: ks =>
    match jfindNN raw k with
    | some v =>
      match pyIntChars (splitDotHead v.pyStr.data) with
      | some i => i
      | none => currentQtyLoop raw ks
    | none => currentQtyLoop raw ks

/-- The flattened result of `receive_order_basic` (`target_quantity`,
`added` and `current` live in the source's nested `inventory` dict;
`inv_updated`/`order_updated` are its `inventory.updated` and
`order.updated`). -/
structure RecvOut where
  success : Bool
  error : Option String
  action : Option String
  reason : Option String
  target_quantity : Option Int
  added : Option Int
  current : Option Int
  inv_updated : Option Bool
  order_updated : Option Bool
deriving DecidableEq

/-- `receive_order_basic`: fetch the order, strict-match the inventory,
read the current quantity (a failed read leaves the default 0), issue the
absolute-quantity update `max(0, current + received)`, then mark the order
RECEIVED.  The inventory fetch inside the strict match may raise (page-1
failure), which propagates. -/
def receiveOrderBasic (w : World) (cfg : Cfg) (order_id : String)
    (received_quantity : Option Int) (lab_id : Option String)
    (fuel n : Nat) (st : SvcState) : (Except String RecvOut × List Req) × SvcState :=
  if order_id = "" then
    ((.ok ⟨false, some "missing_order_id", none, none, none, none, none, none, none⟩, []), st)
  else
    let g := getOrderRequest w cfg order_id n
    match g.1 with
    | none =>
      ((.ok ⟨false, some "order_not_found", none, none, none, none, none, none, none⟩, g.2), st)
    | some order =>
      let catalog_number := (extractCatalogNumber order).1
      let recv_qty := recvQtyOf received_quantity order
      let m := strictInventoryMatch w cfg (some (orderNameStr order))
        (some (orderVendorStr order)) catalog_number lab_id fuel (n + g.2.length) st
      match m.1.1 with
      | .error e => ((.error e, g.2 ++ m.1.2), m.2)
      | .ok none =>
        ((.ok ⟨false, none, some "open_request", some "no_inventory_match",
          none, none, none, none, none⟩, g.2 ++ m.1.2), m.2)
      | .ok (some item) =>
        let inv_id := pyGet item "id"
        let gi := getInventoryItem w cfg inv_id.pyStr (n + g.2.length + m.1.2.length)
        let raw := match gi.1 with
          | some it => jvOr it (.obj [])
          | none => .obj []
        let current_qty := currentQtyLoop raw QTY_KEYS
        let target_qty := max 0 (current_qty + recv_qty)
        let u := updateInventoryItem w cfg inv_id.pyStr none none none
          (some (pyStrOfInt target_qty)) (n + g.2.length + m.1.2.length + gi.2.length)
        let o := updateOrderRequestStatus w cfg order_id "RECEIVED"
          (n + g.2.length + m.1.2.length + gi.2.length + u.2.2.length)
        ((.ok ⟨u.1.updated && o.1.updated, none, none, none, some target_qty,
          some recv_qty, some current_qty, some u.1.updated, some o.1.updated⟩,
          g.2 ++ m.1.2 ++ gi.2 ++ u.2.2 ++ o.2.2), m.2)

def orderJv : Jv := Jv.obj [("item_name", Jv.str "Widget"), ("vendor", Jv.str "Acme"),
  ("catalog_number", Jv.str "CAT1"), ("quantity", Jv.num 2)]

def invItemBare : Jv := Jv.obj [("id", Jv.str "i1"), ("catalog_number", Jv.str "CAT1"),
  ("quantity", Jv.num 10)]

/-- A server where the order fetch, discovery and page-1 succeed (the
inventory holds one item of quantity 10), but every inventory-item read
(requests 3-5) fails with 404; writes succeed. -/
def w2bad : World := fun n _ =>
  if n = 0 then .resp 200 (some orderJv) "" []
  else if n = 1 then .resp 200 (some (.arr [invItemBare])) "" []
  else if n = 2 then .resp 200 (some (.arr [invItemBare])) "" []
  else if n < 6 then .resp 404 none "" []
  else .resp 200 (some (.obj [])) "" []

/-- Like `w2bad` but the inventory-item read succeeds at the first shape
(request 3 returns the item of quantity 10). -/
def w2ok : World := fun n _ =>
  if n = 0 then .resp 200 (some orderJv) "" []
  else if n = 1 then .resp 200 (some (.arr [invItemBare])) "" []
  else if n = 2 then .resp 200 (some (.arr [invItemBare])) "" []
  else if n = 3 then .resp 200 (some invItemBare) "" []
  else .resp 200 (some (.obj [])) "" []

/-- **C2 counterexample.** When the read of the current quantity fails (all
three `get_inventory_item` endpoint shapes 404), `receive_order_basic`
does not fail fast: it silently defaults the base quantity to 0 and
reports overall success, writing absolute quantity 0+5=5 against an item
whose actual quantity is 10 (the reads of the matched item are requests
3-5 of `w2bad`). -/
theorem receive_read_failure_not_fail_fast :
    (getInventoryItem w2bad testCfg "i1" 3).1 = none ∧
    (receiveOrderBasic w2bad testCfg "o1" (some 5) none 1 0 initState).1.1
      = Except.ok ⟨true, none, none, none, some 5, some 5, some 0, some true, some true⟩ := by
  exact ⟨rfl, rfl⟩

/-- **C2 (amended).** For an additive update (`receive_order_basic` with
provided delta `d`) whose order fetch and strict inventory match succeed:
the operation reads the matched item's current quantity (one
`get_inventory_item` call placed before the write in the request
sequence), computes `q` from the first parseable quantity key of the
fetched item, reports `target_quantity = max(0, q + d)`, `added = d` and
`current = q`, and its inventory-update outcome is exactly that of one
`update_inventory_item` call with absolute quantity `str(max(0, q + d))`;
but when the read fails the operation does not fail fast: it proceeds
with the guessed base quantity `q = 0`. -/
theorem receive_additive_update (w : World) (cfg : Cfg) (order_id : String)
    (d : Int) (lab_id : Option String) (fuel n : Nat) (st : SvcState)
    (hid : order_id ≠ "")
    (order : Jv) (horder : (getOrderRequest w cfg order_id n).1 = some order)
    (item : Jv)
    (hmatch : (strictInventoryMatch w cfg (some (orderNameStr order))
      (some (orderVendorStr order)) (extractCatalogNumber order).1 lab_id fuel
      (n + (getOrderRequest w cfg order_id n).2.length) st).1.1
      = Except.ok (some item))
    (gi : Option Jv × List Req)
    (hgi : gi = getInventoryItem w cfg (pyGet item "id").pyStr
      (n + (getOrderRequest w cfg order_id n).2.length
        + (strictInventoryMatch w cfg (some (orderNameStr order))
            (some (orderVendorStr order)) (extractCatalogNumber order).1 lab_id fuel
            (n + (getOrderRequest w cfg order_id n).2.length) st).1.2.length))
    (raw : Jv)
    (hraw : raw = (match gi.1 with | some it => jvOr it (Jv.obj []) | none => Jv.obj []))
    (q : Int) (hq : q = currentQtyLoop raw QTY_KEYS) :
    ∃ out, (receiveOrderBasic w cfg order_id (some d) lab_id fuel n st).1.1
        = Except.ok out ∧
      out.target_quantity = some (max 0 (q + d)) ∧
      out.added = some d ∧
      out.current = some q ∧
      out.inv_updated = some (updateInventoryItem w cfg (pyGet item "id").pyStr
        none none none (some (pyStrOfInt (max 0 (q + d))))
        (n + (getOrderRequest w cfg order_id n).2.length
          + (strictInventoryMatch w cfg (some (orderNameStr order))
              (some (orderVendorStr order)) (extractCatalogNumber order).1 lab_id fuel
              (n + (getOrderRequest w cfg order_id n).2.length) st).1.2.length
          + gi.2.length)).1.updated ∧
      (gi.1 = none → q = 0) := by
  subst hq
  subst hraw
  subst hgi
  simp only [receiveOrderBasic, if_neg hid, horder, hmatch]
  refine ⟨_, rfl, rfl, rfl, rfl, rfl, ?_⟩
  intro h
  rw [h]
  rfl

/-- Witness for C2's amended statement at the spec's end-to-end scenario:
against `w2ok` (order found, strict catalog match, item currently at
quantity 10) an additive delta +5 reads then writes absolute quantity 15
and reports `target_quantity = 15`, `current = 10`, `added = 5`. -/
theorem receive_additive_update_witness :
    (match (receiveOrderBasic w2ok testCfg "o1" (some 5) none 1 0 initState).1.1 with
      | Except.ok r => r.target_quantity
      | Except.error _ => none) = some 15 ∧
    (match (receiveOrderBasic w2ok testCfg "o1" (some 5) none 1 0 initState).1.1 with
      | Except.ok r => r.current
      | Except.error _ => none) = some 10 ∧
    (match (receiveOrderBasic w2ok testCfg "o1" (some 5) none 1 0 initState).1.1 with
      | Except.ok r => r.added
      | Except.error _ => none) = some 5 := by
  obtain ⟨out, hout, ht, ha, hc, hu, hf⟩ :=
    receive_additive_update w2ok testCfg "o1" 5 none 1 0 initState (by decide)
      orderJv rfl invItemBare rfl _ rfl _ rfl _ rfl
  rw [hout]
  refine ⟨?_, ?_, ?_⟩
  · show out.target_quantity = some 15
    rw [ht]
    rfl
  · show out.current = some 10
    rw [hc]
    rfl
  · show out.added = some 5
    rw [ha]

end Allu
